import Mathlib

/-!
Verification of the Orbitbound simulation engine (a turn-based strategy game
on a cylindrical tile grid, implemented as a set of Convex mutations over a
`games`/`players`/`units`/`buildings` document store).

This file shallow-embeds the engine in Lean:

* the grid arithmetic (`wrapX`, `clampY`, `coordToIndex`, `manhattanDistance`),
* the static configuration tables (`TERRAIN_DEFS`, `UNIT_DEFS`,
  `BUILDING_DEFS`, `TECH_DEFS`, `FACTION_DEFS`, `COMBAT`, `RUIN_REWARDS`,
  `WEATHER_DEFS`, `STARTING_RESOURCES`, `RESOURCE_YIELDS`),
* the resource helpers (`canAfford`, `subtractCost`, `addResources`),
* the game state (one game document plus its player/unit/building documents;
  Convex document ids become natural numbers allocated by a counter), and
* every state-mutating command handler: `move`, `attack`, `foundCity`,
  `spawnUnit`, `placeBuilding`, `continueBuilding`, `collectResource`,
  `researchTech`, `toggleEntrench`, `toggleAutoExplore`, `endTurn` (with its
  auto-explore pass, income, faction effects and weather cycle), `forfeit`.

A thrown JavaScript error aborts a Convex mutation and rolls the transaction
back, so handlers are embedded as total functions into `Except String`: an
`.error` result is a rejected command that leaves the state untouched.
`Math.random()` inputs are passed in explicitly as rational parameters.

JavaScript numbers are embedded as `Int` (all engine arithmetic here is
integral); the one `Infinity` in the source (the move cost of bedrock) is
embedded as `none : Option Nat`, and random rolls as `ℚ`.
-/

namespace Orbitbound

/-! ## Grid (source: `lib/grid.ts`) -/

/-- `wrapX(x, width)`: JavaScript `%` is the truncated remainder, which is
`Int.tmod` in Lean. -/
def wrapX (x width : Int) : Int :=
  if width ≤ 0 then 0
  else
    let m := Int.tmod x width
    if m < 0 then m + width else m

/-- `clampY(y, height)`. -/
def clampY (y height : Int) : Int :=
  if height ≤ 0 then 0
  else if y < 0 then 0
  else if height ≤ y then height - 1
  else y

/-- `coordToIndex(width, x, y) = y * width + x`. -/
def coordToIndex (width x y : Int) : Int :=
  y * width + x

/-- `manhattanDistance(width, x1, y1, x2, y2)`: x-distance wraps around the
cylinder. -/
def manhattanDistance (width x1 y1 x2 y2 : Int) : Int :=
  min ((x1 - x2).natAbs : Int) (width - ((x1 - x2).natAbs : Int)) +
    ((y1 - y2).natAbs : Int)

/-- `isAdjacent`. -/
def isAdjacent (width x1 y1 x2 y2 : Int) : Bool :=
  manhattanDistance width x1 y1 x2 y2 = 1

/-! ## Resources (source: `lib/resources.ts`, `lib/constants.ts`) -/

/-- A player's resource pool (`{ biomass, ore, flux }`). -/
structure ResourcePool where
  biomass : Int
  ore : Int
  flux : Int
deriving Repr, DecidableEq

/-- A cost / income / delta record. The source uses
`Partial\x7bRecord<ResourceKey, number>\x7d`; an absent key behaves exactly like
`0` everywhere (`cost[key] ?? 0` when reading, key skipped when adding), so
the embedding makes the three fields total with default `0`. -/
structure Cost where
  biomass : Int := 0
  ore : Int := 0
  flux : Int := 0
deriving Repr, DecidableEq

/-- `STARTING_RESOURCES`. -/
def STARTING_RESOURCES : ResourcePool := ⟨10, 10, 5⟩

/-- `addResources(base, delta)`. -/
def addResources (base : ResourcePool) (delta : Cost) : ResourcePool :=
  ⟨base.biomass + delta.biomass, base.ore + delta.ore, base.flux + delta.flux⟩

/-- `canAfford(resources, cost)`: every component of the cost is within the
balance. -/
def canAfford (resources : ResourcePool) (cost : Cost) : Bool :=
  decide (cost.biomass ≤ resources.biomass) &&
  decide (cost.ore ≤ resources.ore) &&
  decide (cost.flux ≤ resources.flux)

/-- `subtractCost(resources, cost)`: throws `Insufficient resources` unless
affordable, else subtracts every component. -/
def subtractCost (resources : ResourcePool) (cost : Cost) :
    Except String ResourcePool :=
  if canAfford resources cost then
    .ok ⟨resources.biomass - cost.biomass, resources.ore - cost.ore,
         resources.flux - cost.flux⟩
  else .error "Insufficient resources"

/-- `RESOURCE_YIELDS`: what `collectResource` grants per deposit kind,
rendered directly as the singleton delta the source builds with a computed
key. -/
def RESOURCE_YIELDS (deposit : String) : Option Cost :=
  if deposit = "biomass" then some { biomass := 2 }
  else if deposit = "ore" then some { ore := 2 }
  else if deposit = "flux" then some { flux := 1 }
  else none

/-! ## Terrain table (source: `lib/constants.ts` `TERRAIN_DEFS`) -/

/-- One terrain row. `moveCost = none` embeds the source's `Infinity`
(bedrock); optional booleans are totalized with default `false`, matching
JavaScript truthiness of `undefined`. -/
structure TerrainDef where
  moveCost : Option Nat
  passable : Bool
  airOnly : Bool := false
  hazard : Bool := false
deriving Repr, DecidableEq

def TERRAIN_DEFS (t : String) : Option TerrainDef :=
  if t = "sky" then some { moveCost := some 1, passable := true, airOnly := true }
  else if t = "cloud" then some { moveCost := some 1, passable := true, airOnly := true }
  else if t = "surface" then some { moveCost := some 1, passable := true }
  else if t = "grass" then some { moveCost := some 1, passable := true }
  else if t = "sand" then some { moveCost := some 1, passable := true }
  else if t = "dirt" then some { moveCost := some 1, passable := true }
  else if t = "stone" then some { moveCost := some 2, passable := true }
  else if t = "deepstone" then some { moveCost := some 2, passable := true }
  else if t = "crystal" then some { moveCost := some 2, passable := true }
  else if t = "cavern" then some { moveCost := some 1, passable := true }
  else if t = "bedrock" then some { moveCost := none, passable := false }
  else if t = "water" then some { moveCost := some 2, passable := true }
  else if t = "magma" then some { moveCost := some 1, passable := true, hazard := true }
  else if t = "city" then some { moveCost := some 1, passable := true }
  else if t = "fog" then some { moveCost := some 1, passable := false }
  else if t = "ruins" then some { moveCost := some 1, passable := true }
  else none

/-- `TERRAIN_DEFS.surface`, the fallback used by `?? TERRAIN_DEFS.surface`. -/
def surfaceTerrain : TerrainDef := { moveCost := some 1, passable := true }

/-! ## Unit roster (source: `lib/constants.ts` `UNIT_DEFS`) -/

/-- One unit-type row. The source field `def` is a Lean keyword and is
renamed `defense` here; optional fields keep `Option`. -/
structure UnitDef where
  name : String
  category : String
  hp : Int
  maxMoves : Int
  atk : Int
  defense : Int
  range : Int
  vision : Nat
  cost : Cost
  canFly : Bool := false
  abilities : List String := []
  requiredTech : Option String := none
  buildsLeft : Option Int := none
deriving Repr, DecidableEq

def UNIT_DEFS (t : String) : Option UnitDef :=
  if t = "settler" then some
    { name := "Lander", category := "civilian", hp := 10, maxMoves := 2,
      atk := 0, defense := 0, range := 1, vision := 3, cost := {},
      abilities := ["deploy_city"] }
  else if t = "rover" then some
    { name := "Rover", category := "scout", hp := 10, maxMoves := 4,
      atk := 2, defense := 1, range := 1, vision := 4, cost := { ore := 10 },
      abilities := ["radar"], requiredTech := some "logistics" }
  else if t = "worker" then some
    { name := "Worker", category := "civilian", hp := 5, maxMoves := 2,
      atk := 0, defense := 0, range := 1, vision := 2,
      cost := { biomass := 5 }, abilities := ["build"], buildsLeft := some 3 }
  else if t = "marine" then some
    { name := "Marine", category := "infantry", hp := 15, maxMoves := 2,
      atk := 5, defense := 3, range := 1, vision := 2,
      cost := { biomass := 10, ore := 5 }, abilities := ["entrench"],
      requiredTech := some "militarization" }
  else if t = "tank" then some
    { name := "Tank", category := "armored", hp := 40, maxMoves := 2,
      atk := 8, defense := 6, range := 1, vision := 2, cost := { ore := 25 },
      abilities := ["crush"], requiredTech := some "ballistics" }
  else if t = "arty" then some
    { name := "Artillery", category := "siege", hp := 20, maxMoves := 1,
      atk := 12, defense := 1, range := 4, vision := 3,
      cost := { ore := 30, flux := 10 }, abilities := ["arc_fire"],
      requiredTech := some "ballistics" }
  else if t = "gunship" then some
    { name := "Gunship", category := "air", hp := 30, maxMoves := 5,
      atk := 10, defense := 2, range := 1, vision := 4,
      cost := { ore := 40, flux := 20 }, canFly := true,
      requiredTech := some "flight" }
  else none

/-! ## Building roster (source: `lib/constants.ts` `BUILDING_DEFS`) -/

structure BuildingDef where
  name : String
  hp : Int
  income : Cost
  cost : Cost
  providesVision : Option Nat := none
  canSpawnUnits : Bool := false
  spawnableUnits : Option (List String) := none
  terrainRequired : Option (List String) := none
  requiredTech : Option String := none
  defenseBonus : Option Int := none
  requiresResource : Option String := none
  turnsToComplete : Option Int := none
deriving Repr, DecidableEq

def BUILDING_DEFS (t : String) : Option BuildingDef :=
  if t = "city" then some
    { name := "City", hp := 20, income := { biomass := 2, ore := 2 },
      cost := {}, providesVision := some 3, canSpawnUnits := true,
      spawnableUnits := some ["worker"], turnsToComplete := some 0 }
  else if t = "barracks" then some
    { name := "Barracks", hp := 15, income := {}, cost := { ore := 15 },
      canSpawnUnits := true, spawnableUnits := some ["marine", "rover"],
      requiredTech := some "militarization", turnsToComplete := some 1 }
  else if t = "farm" then some
    { name := "Farm", hp := 8, income := { biomass := 2 },
      cost := { ore := 10 }, terrainRequired := some ["surface", "dirt"],
      turnsToComplete := some 1 }
  else if t = "mine" then some
    { name := "Mine", hp := 10, income := { ore := 2 },
      cost := { biomass := 10 },
      terrainRequired := some ["dirt", "stone", "deepstone"],
      requiresResource := some "ore", turnsToComplete := some 2 }
  else if t = "solar_array" then some
    { name := "Solar Array", hp := 8, income := { flux := 1 },
      cost := { ore := 15 }, terrainRequired := some ["surface"],
      turnsToComplete := some 2 }
  else if t = "bunker" then some
    { name := "Bunker", hp := 30, income := {}, cost := { ore := 20 },
      defenseBonus := some 5, turnsToComplete := some 3 }
  else if t = "factory" then some
    { name := "Factory", hp := 25, income := {}, cost := { ore := 30 },
      canSpawnUnits := true, spawnableUnits := some ["tank", "arty"],
      requiredTech := some "ballistics", turnsToComplete := some 3 }
  else if t = "skyport" then some
    { name := "Skyport", hp := 20, income := {},
      cost := { ore := 40, flux := 20 }, canSpawnUnits := true,
      spawnableUnits := some ["gunship"], requiredTech := some "flight",
      turnsToComplete := some 4 }
  else if t = "silo" then some
    { name := "Silo", hp := 50, income := {},
      cost := { ore := 100, flux := 50 }, terrainRequired := some ["surface"],
      requiredTech := some "orbital_mechanics", turnsToComplete := some 5 }
  else none

/-! ## Tech tree (source: `lib/constants.ts` `TECH_DEFS`) -/

structure TechDef where
  name : String
  tier : Nat
  cost : Nat
  prerequisites : List String
  unlocks : List String
deriving Repr, DecidableEq

def TECH_DEFS (t : String) : Option TechDef :=
  if t = "planetary_survival" then some
    { name := "Planetary Survival", tier := 0, cost := 0, prerequisites := [],
      unlocks := ["farm", "mine", "worker"] }
  else if t = "logistics" then some
    { name := "Logistics", tier := 1, cost := 25,
      prerequisites := ["planetary_survival"], unlocks := ["rover"] }
  else if t = "militarization" then some
    { name := "Militarization", tier := 1, cost := 25,
      prerequisites := ["planetary_survival"],
      unlocks := ["marine", "barracks"] }
  else if t = "deep_core" then some
    { name := "Deep Core", tier := 2, cost := 50,
      prerequisites := ["logistics"], unlocks := [] }
  else if t = "heat_shield" then some
    { name := "Heat Shield", tier := 3, cost := 100,
      prerequisites := ["deep_core"], unlocks := [] }
  else if t = "ballistics" then some
    { name := "Ballistics", tier := 2, cost := 50,
      prerequisites := ["militarization"],
      unlocks := ["tank", "arty", "factory"] }
  else if t = "flight" then some
    { name := "Flight", tier := 3, cost := 100,
      prerequisites := ["ballistics"], unlocks := ["gunship", "skyport"] }
  else if t = "orbital_mechanics" then some
    { name := "Orbital Mechanics", tier := 3, cost := 100,
      prerequisites := ["deep_core"], unlocks := ["silo"] }
  else if t = "the_ark_project" then some
    { name := "The Ark Project", tier := 4, cost := 200,
      prerequisites := ["orbital_mechanics", "flight"], unlocks := [] }
  else none

/-! ## Factions (source: `lib/constants.ts` `FACTION_DEFS`) -/

structure FactionDef where
  name : String
  startingBonus : Cost
  trait : String
deriving Repr, DecidableEq

def FACTION_DEFS (f : String) : Option FactionDef :=
  if f = "united_terran" then some
    { name := "United Terran", startingBonus := { ore := 20 },
      trait := "deep_core_mining" }
  else if f = "xeno_hive" then some
    { name := "Xeno Hive", startingBonus := { biomass := 20 },
      trait := "regeneration" }
  else if f = "cyber_synapse" then some
    { name := "Cyber Synapse", startingBonus := { flux := 10 },
      trait := "networked" }
  else none

/-! ## Combat constants (source: `lib/constants.ts` `COMBAT`) -/

structure CombatConstants where
  MIN_DAMAGE : Int
  FLANKING_BONUS : Int
  ENTRENCH_BONUS : Int
  REGEN_HP_PER_TURN : Int
deriving Repr, DecidableEq

def COMBAT : CombatConstants :=
  { MIN_DAMAGE := 1, FLANKING_BONUS := 2, ENTRENCH_BONUS := 2,
    REGEN_HP_PER_TURN := 2 }

/-! ## Ruin rewards (source: `lib/constants.ts` `RUIN_REWARDS`) -/

inductive RuinRewardType where
  | resource
  | tech
  | unit
  | map
deriving Repr, DecidableEq

/-- One entry of the weighted reward table. Only the fields a given entry
sets in the source are `some` here. -/
structure RuinReward where
  weight : ℚ
  type : RuinRewardType
  resource : Option Cost := none
  techPoints : Option Int := none
  unitType : Option String := none
  visionRadius : Option Nat := none
  message : String
deriving Repr, DecidableEq

/-- The configured table: exactly two entries (a map reveal and a tech-log
reward); the `resource` and `unit` reward types are handled by the `move`
code but no table entry carries them. -/
def RUIN_REWARDS : List RuinReward :=
  [ { weight := 10, type := RuinRewardType.map, visionRadius := some 10,
      message := "Downloaded high-res satellite data! (Map Reveal)" },
    { weight := 5, type := RuinRewardType.tech, techPoints := some 50,
      message := "Recovered intact research logs! (+50 Flux)" } ]

/-- The selection loop of `move`: walk the table accumulating weights, pick
the first entry whose cumulative weight exceeds the roll; `selectedReward`
is initialized to `RUIN_REWARDS[0]`, which therefore also catches a roll
beyond the total weight. -/
def pickRuinReward (roll : ℚ) : List RuinReward → ℚ → Option RuinReward
  | [], _ => none
  | r :: rest, acc =>
      if roll < acc + r.weight then some r
      else pickRuinReward roll rest (acc + r.weight)

/-- `selectedReward` as computed by `move` for a given `Math.random()*100`
roll. -/
def selectRuinReward (roll : ℚ) : RuinReward :=
  (pickRuinReward roll RUIN_REWARDS 0).getD
    { weight := 10, type := RuinRewardType.map, visionRadius := some 10,
      message := "Downloaded high-res satellite data! (Map Reveal)" }

/-! ## Weather (source: `lib/constants.ts` `WEATHER_DEFS`) -/

structure WeatherDef where
  name : String
  durationMin : Int
  durationMax : Int
deriving Repr, DecidableEq

def WEATHER_DEFS (w : String) : Option WeatherDef :=
  if w = "dust_storm" then some
    { name := "Dust Storm", durationMin := 2, durationMax := 3 }
  else if w = "solar_flare" then some
    { name := "Solar Flare", durationMin := 1, durationMax := 2 }
  else if w = "acid_rain" then some
    { name := "Acid Rain", durationMin := 2, durationMax := 3 }
  else if w = "clear_skies" then some
    { name := "Clear Skies", durationMin := 2, durationMax := 4 }
  else none

/-- `Object.keys(WEATHER_DEFS)` in insertion order. -/
def weatherTypes : List String :=
  ["dust_storm", "solar_flare", "acid_rain", "clear_skies"]

/-! ## Documents and game state (source: `schema.ts`)

Convex document ids are embedded as naturals allocated from a per-state
counter `nextId`; `ctx.db` queries become list operations. The embedding
covers a single game, so the `gameId` foreign keys are dropped. -/

/-- One tile of `games.map`. -/
structure Tile where
  type : String
  resource : Option String := none
  buildingId : Option Nat := none
  unitId : Option Nat := none
  visibility : List Nat := []
deriving Repr, DecidableEq

/-- `games.activeWeather`. -/
structure Weather where
  type : String
  turnsRemaining : Int
deriving Repr, DecidableEq

/-- A `units` document. -/
structure UnitDoc where
  id : Nat
  playerId : Nat
  type : String
  x : Int
  y : Int
  hp : Int
  movesLeft : Int
  maxMoves : Int
  entrenched : Option Bool := none
  autoExplore : Option Bool := none
  buildsLeft : Option Int := none
deriving Repr, DecidableEq

/-- A `buildings` document. -/
structure BuildingDoc where
  id : Nat
  playerId : Nat
  type : String
  x : Int
  y : Int
  hp : Int
  buildProgress : Option Int := none
  turnsToComplete : Option Int := none
  workerId : Option Nat := none
  isConstructing : Option Bool := none
deriving Repr, DecidableEq

/-- A `players` document. -/
structure PlayerDoc where
  id : Nat
  faction : String
  resources : ResourcePool
  techUnlocked : List String
  isAlive : Bool
  isAI : Option Bool := none
deriving Repr, DecidableEq

/-- The full state of one game: the `games` document plus its `players`,
`units` and `buildings` documents. -/
structure GameState where
  status : String
  turn : Int
  activePlayerIndex : Nat
  width : Nat
  height : Nat
  map : List Tile
  playerOrder : List Nat
  activeWeather : Option Weather := none
  players : List PlayerDoc
  units : List UnitDoc
  buildings : List BuildingDoc
  nextId : Nat
deriving Repr, DecidableEq

/-! ## Database primitives (`ctx.db.get` / `patch` / `delete` / `insert`) -/

def getPlayer? (s : GameState) (pid : Nat) : Option PlayerDoc :=
  s.players.find? (fun p => p.id == pid)

def getUnit? (s : GameState) (uid : Nat) : Option UnitDoc :=
  s.units.find? (fun u => u.id == uid)

def getBuilding? (s : GameState) (bid : Nat) : Option BuildingDoc :=
  s.buildings.find? (fun b => b.id == bid)

def patchPlayer (s : GameState) (pid : Nat) (f : PlayerDoc → PlayerDoc) :
    GameState :=
  { s with players := s.players.map (fun p => if p.id = pid then f p else p) }

def patchUnit (s : GameState) (uid : Nat) (f : UnitDoc → UnitDoc) :
    GameState :=
  { s with units := s.units.map (fun u => if u.id = uid then f u else u) }

def patchBuilding (s : GameState) (bid : Nat) (f : BuildingDoc → BuildingDoc) :
    GameState :=
  { s with buildings :=
      s.buildings.map (fun b => if b.id = bid then f b else b) }

def deleteUnit (s : GameState) (uid : Nat) : GameState :=
  { s with units := s.units.filter (fun u => ¬ u.id = uid) }

def deleteBuilding (s : GameState) (bid : Nat) : GameState :=
  { s with buildings := s.buildings.filter (fun b => ¬ b.id = bid) }

/-- `ctx.db.insert("units", ...)`: the caller builds the document from the
freshly allocated id, which is also returned. -/
def insertUnit (s : GameState) (mk : Nat → UnitDoc) : Nat × GameState :=
  (s.nextId,
   { s with units := s.units ++ [mk s.nextId], nextId := s.nextId + 1 })

def insertBuilding (s : GameState) (mk : Nat → BuildingDoc) :
    Nat × GameState :=
  (s.nextId,
   { s with buildings := s.buildings ++ [mk s.nextId],
            nextId := s.nextId + 1 })

/-- `getPlayerOrThrow`. -/
def getPlayerOrThrow (s : GameState) (pid : Nat) : Except String PlayerDoc :=
  match getPlayer? s pid with
  | some p => .ok p
  | none => .error "Player not found"

/-- `assertPlayerTurn(game, playerId)`. -/
def assertPlayerTurn (s : GameState) (pid : Nat) : Except String Unit :=
  match s.playerOrder[s.activePlayerIndex]? with
  | some apid => if apid = pid then .ok () else .error "It is not your turn"
  | none => .error "It is not your turn"

/-! ## Map access

A JavaScript read `map[idx]` outside the array yields `undefined` and the
subsequent field access throws, aborting the mutation; `getTile?` returns
`none` there and the handlers turn that into an `.error`. Writes in the
source always spread a tile that was (or could have been) read at the same
index, so out-of-range writes only arise in states that violate the
occupancy invariant; `setTile` makes them a no-op to stay total. -/

def getTile? (m : List Tile) (i : Int) : Option Tile :=
  if 0 ≤ i then m[i.toNat]? else none

def setTile (m : List Tile) (i : Int) (t : Tile) : List Tile :=
  if 0 ≤ i then m.set i.toNat t else m

/-- Read-modify-write of one tile (the `map[i] = ( ...map[i], f )` spread
pattern). -/
def modTile (m : List Tile) (i : Int) (f : Tile → Tile) : List Tile :=
  match getTile? m i with
  | some t => setTile m i (f t)
  | none => m

/-! ## Vision (source: `lib/vision.ts` `revealAround`) -/

/-- The weather adjustment of the radius parameter (`modifiedRadius`). The
source computes `Math.max(1, radius - 1)`; on `Nat` truncated subtraction
gives the same value. -/
def modifiedRadius (activeWeather : Option Weather) (radius : Nat) : Nat :=
  match activeWeather with
  | some w =>
      if w.type = "dust_storm" then max 1 (radius - 1)
      else if w.type = "clear_skies" then radius + 1
      else radius
  | none => radius

/-- `[lo, lo+1, ..., hi]`. -/
def intRange (lo hi : Int) : List Int :=
  (List.range (hi + 1 - lo).toNat).map (fun k => lo + k)

/-- The `(dy, dx)` pairs visited by the two nested loops, in loop order. -/
def squareOffsets (mr : Nat) : List (Int × Int) :=
  (intRange (-(mr : Int)) mr).flatMap
    (fun dy => (intRange (-(mr : Int)) mr).map (fun dx => (dy, dx)))

/-- The tile index visited by the loop body of `revealAround` for the
offset pair `d = (dy, dx)`: `coordToIndex(width, wrapX(x+dx), clampY(y+dy))`. -/
def revealIdx (width height : Nat) (x y : Int) (d : Int × Int) : Int :=
  coordToIndex width (wrapX (x + d.2) width) (clampY (y + d.1) height)

/-- One inner-loop iteration of `revealAround`. -/
def revealStep (width height : Nat) (playerId : Nat) (x y : Int)
    (m : List Tile) (d : Int × Int) : Except String (List Tile) :=
  match getTile? m (revealIdx width height x y d) with
  | none => .error "tile out of range"
  | some tile =>
      if tile.visibility.contains playerId then .ok m
      else .ok (setTile m (revealIdx width height x y d)
        { tile with visibility := tile.visibility ++ [playerId] })

/-- `revealAround(game, map, playerId, x, y, radius, activeWeather?)`. -/
def revealAround (width height : Nat) (m : List Tile) (playerId : Nat)
    (x y : Int) (radius : Nat) (activeWeather : Option Weather) :
    Except String (List Tile) :=
  (squareOffsets (modifiedRadius activeWeather radius)).foldlM
    (revealStep width height playerId x y) m

/-! ## Directions (source: `units.ts`) -/

inductive Direction where
  | L
  | R
  | U
  | D
deriving Repr, DecidableEq

/-- `directionToDelta`, as the pair `(dx, dy)`. -/
def directionToDelta : Direction → Int × Int
  | .L => (-1, 0)
  | .R => (1, 0)
  | .U => (0, -1)
  | .D => (0, 1)

/-! ## Movement (source: `units.ts` `move`) -/

/-- The ruins block of `move` (destination tile of type `ruins`): pick a
weighted reward from `RUIN_REWARDS`, apply it, convert the ruin to surface.
`m` is the working map copy, which at this point already has the origin
tile's `unitId` cleared. The `?? 0`-style guards reproduce the JavaScript
truthiness tests on the optional payload fields; the cosmetic
`rewardMessage` is not carried. The source contains two insertion sites for
the `unit` reward type (an earlier one whose map write is the identity
spread, then a corrected one that records the new id on the origin tile);
both are reproduced. The first (`applyRuinRewardCore`) is the
`if/else if` chain on `selectedReward.type` given the already fetched
player; `applyRuinRewardUnitFix` is the second, corrected insertion site
for the `unit` reward type. -/
def applyRuinRewardCore (s : GameState) (m : List Tile) (u : UnitDoc)
    (playerId : Nat) (targetX targetY : Int) (fromIdx : Int)
    (selectedReward : RuinReward) (player : PlayerDoc) :
    Except String (GameState × List Tile) :=
  if selectedReward.type = RuinRewardType.resource ∧
      selectedReward.resource.isSome then
    let delta := selectedReward.resource.getD {}
    .ok (patchPlayer s player.id
      (fun p => { p with resources := addResources player.resources delta }),
      m)
  else if selectedReward.type = RuinRewardType.unit ∧
      ¬ selectedReward.unitType.getD "" = "" then
    let ty := selectedReward.unitType.getD ""
    match UNIT_DEFS ty with
    | some spawnUnitDef =>
        let ins := insertUnit s (fun nid =>
          { id := nid, playerId := player.id, type := ty,
            x := u.x, y := u.y, hp := spawnUnitDef.hp, movesLeft := 0,
            maxMoves := spawnUnitDef.maxMoves,
            buildsLeft := spawnUnitDef.buildsLeft })
        .ok (ins.2, modTile m fromIdx (fun t => t))
    | none => .ok (s, m)
  else if selectedReward.type = RuinRewardType.map ∧
      ¬ selectedReward.visionRadius.getD 0 = 0 then
    match revealAround s.width s.height m playerId targetX targetY
        (selectedReward.visionRadius.getD 0) none with
    | .error e => .error e
    | .ok m2 => .ok (s, m2)
  else if selectedReward.type = RuinRewardType.tech ∧
      ¬ selectedReward.techPoints.getD 0 = 0 then
    let granted := addResources player.resources ({ flux := 30 } : Cost)
    .ok (patchPlayer s player.id (fun p => { p with resources := granted }), m)
  else
    .ok (s, m)

def applyRuinRewardUnitFix (s : GameState) (m : List Tile) (u : UnitDoc)
    (fromIdx : Int) (selectedReward : RuinReward) (player : PlayerDoc) :
    GameState × List Tile :=
  if selectedReward.type = RuinRewardType.unit ∧
      ¬ selectedReward.unitType.getD "" = "" then
    match UNIT_DEFS (selectedReward.unitType.getD "") with
    | some spawnUnitDef =>
        let ins := insertUnit s (fun nid =>
          { id := nid, playerId := player.id,
            type := selectedReward.unitType.getD "",
            x := u.x, y := u.y, hp := spawnUnitDef.hp, movesLeft := 0,
            maxMoves := spawnUnitDef.maxMoves,
            buildsLeft := spawnUnitDef.buildsLeft })
        (ins.2, modTile m fromIdx (fun t => { t with unitId := some ins.1 }))
    | none => (s, m)
  else (s, m)

def applyRuinReward (s : GameState) (m : List Tile) (u : UnitDoc)
    (playerId : Nat) (fromIdx toIdx : Int) (targetX targetY : Int)
    (roll : ℚ) : Except String (GameState × List Tile) :=
  let selectedReward := selectRuinReward roll
  match getPlayerOrThrow s playerId with
  | .error e => .error e
  | .ok player =>
    match applyRuinRewardCore s m u playerId targetX targetY fromIdx
        selectedReward player with
    | .error e => .error e
    | .ok sm =>
      let sm2 := applyRuinRewardUnitFix sm.1 sm.2 u fromIdx selectedReward
        player
      .ok (sm2.1, modTile sm2.2 toIdx (fun t => { t with type := "surface" }))

/-- The last steps of `move`: reveal vision around the destination and
patch the unit document. -/
def moveFinish (s : GameState) (unit : UnitDoc) (unitDef : UnitDef)
    (playerId : Nat) (targetX targetY : Int) (moveCost : Nat)
    (m : List Tile) : Except String GameState :=
  -- `unitDef.vision !== undefined` always holds: every roster row sets it.
  match revealAround s.width s.height m playerId targetX targetY
      unitDef.vision none with
  | .error e => .error e
  | .ok m =>
    let s := { s with map := m }
    .ok (patchUnit s unit.id (fun v =>
      { v with x := targetX, y := targetY,
               movesLeft := unit.movesLeft - (moveCost : Int),
               entrenched := none }))

/-- The non-crush ending: write the unit back-reference onto the target
tile, then finish. -/
def moveResolveNoCrush (s : GameState) (unit : UnitDoc) (unitDef : UnitDef)
    (playerId : Nat) (toIdx : Int) (targetX targetY : Int) (moveCost : Nat)
    (m : List Tile) : Except String GameState :=
  moveFinish s unit unitDef playerId targetX targetY moveCost
    (modTile m toIdx (fun t => { t with unitId := some unit.id }))

/-- The tail of `move` after the origin tile is cleared and the ruins block
has run: when a crush-capable unit enters an enemy building's tile the
building is destroyed (and the tile write folds the back-reference in),
otherwise the plain back-reference write runs; then finish. -/
def moveResolve (s : GameState) (unit : UnitDoc) (unitDef : UnitDef)
    (playerId : Nat) (targetTile : Tile) (toIdx : Int)
    (targetX targetY : Int) (moveCost : Nat) (m : List Tile) :
    Except String GameState :=
  if unitDef.abilities.contains "crush" ∧ targetTile.buildingId.isSome
  then
    match targetTile.buildingId with
    | some bid =>
        match getBuilding? s bid with
        | some building =>
            if ¬ building.playerId = playerId then
              moveFinish (deleteBuilding s bid) unit unitDef playerId
                targetX targetY moveCost
                (modTile m toIdx (fun t =>
                  { t with buildingId := none, type := "surface",
                           unitId := some unit.id }))
            else
              moveResolveNoCrush s unit unitDef playerId toIdx targetX
                targetY moveCost m
        | none =>
            moveResolveNoCrush s unit unitDef playerId toIdx targetX
              targetY moveCost m
    | none =>
        moveResolveNoCrush s unit unitDef playerId toIdx targetX
          targetY moveCost m
  else
    moveResolveNoCrush s unit unitDef playerId toIdx targetX
      targetY moveCost m

/-- The state updates of `move` after all guards have passed: clear the
origin tile, run the ruins block if the destination is a ruin, and resolve
the remaining steps. -/
def moveApply (s : GameState) (unit : UnitDoc) (unitDef : UnitDef)
    (playerId : Nat) (targetTile : Tile) (fromIdx toIdx : Int)
    (targetX targetY : Int) (moveCost : Nat) (roll : ℚ) :
    Except String GameState :=
  let m := modTile s.map fromIdx (fun t => { t with unitId := none })
  let ruins : Except String (GameState × List Tile) :=
    if targetTile.type = "ruins" then
      applyRuinReward s m unit playerId fromIdx toIdx targetX targetY roll
    else .ok (s, m)
  match ruins with
  | .error e => .error e
  | .ok (s, m) =>
    moveResolve s unit unitDef playerId targetTile toIdx targetX targetY
      moveCost m

/-- `move(unitId, playerId, direction)`. `roll` is the `Math.random() * 100`
draw used when the destination is a ruin. -/
def move (s : GameState) (unitId playerId : Nat) (direction : Direction)
    (roll : ℚ) : Except String GameState :=
  match getUnit? s unitId with
  | none => .error "Unit not found"
  | some unit =>
  if ¬ unit.playerId = playerId then
    .error "You do not control this unit"
  else
  match assertPlayerTurn s playerId with
  | .error e => .error e
  | .ok _ =>
  match UNIT_DEFS unit.type with
  | none => .error "Unknown unit type"
  | some unitDef =>
  if unit.movesLeft ≤ 0 then .error "Unit has no moves left"
  else
  if (match s.activeWeather with
      | some w => w.type == "solar_flare"
      | none => false) && unitDef.canFly then
    .error "Air units are grounded during a Solar Flare!"
  else
  let d := directionToDelta direction
  let targetX := wrapX (unit.x + d.1) s.width
  let targetY := clampY (unit.y + d.2) s.height
  let fromIdx := coordToIndex s.width unit.x unit.y
  let toIdx := coordToIndex s.width targetX targetY
  if fromIdx = toIdx then .error "Cannot move out of bounds"
  else
  match getTile? s.map toIdx with
  | none => .error "tile out of range"
  | some targetTile =>
  let terrainDef := (TERRAIN_DEFS targetTile.type).getD surfaceTerrain
  if ¬ terrainDef.passable then .error "Cannot enter this terrain"
  else
  if terrainDef.airOnly ∧ ¬ unitDef.canFly then
    .error "Only air units can enter sky tiles"
  else
  if (match targetTile.unitId with
      | some uid => uid != unit.id
      | none => false) then
    .error "Tile is occupied"
  else
  let moveCostOpt : Option Nat :=
    if unitDef.canFly then some 1 else terrainDef.moveCost
  match moveCostOpt with
  | none => .error "Not enough moves"
  | some moveCost =>
  if unit.movesLeft < (moveCost : Int) then .error "Not enough moves"
  else
  let hazardCheck : Except String Unit :=
    if terrainDef.hazard then
      match getPlayerOrThrow s playerId with
      | .error e => .error e
      | .ok player =>
        if ¬ player.techUnlocked.contains "heat_shield" then
          .error "Hazardous terrain! Research Heat Shield technology to cross Magma."
        else .ok ()
    else .ok ()
  match hazardCheck with
  | .error e => .error e
  | .ok _ =>
    moveApply s unit unitDef playerId targetTile fromIdx toIdx
      targetX targetY moveCost roll

/-! ## Founding a city (source: `units.ts` `foundCity`) -/

def foundCity (s : GameState) (unitId playerId : Nat) :
    Except String GameState :=
  match getUnit? s unitId with
  | none => .error "Unit not found"
  | some unit =>
  if ¬ unit.playerId = playerId then
    .error "You do not control this unit"
  else
  if ¬ unit.type = "settler" then
    .error "Only settlers can found cities"
  else
  match assertPlayerTurn s playerId with
  | .error e => .error e
  | .ok _ =>
  match getPlayerOrThrow s playerId with
  | .error e => .error e
  | .ok player =>
  match BUILDING_DEFS "city" with
  | none => .error "City definition missing"
  | some buildDef =>
  let tileIndex := coordToIndex s.width unit.x unit.y
  match getTile? s.map tileIndex with
  | none => .error "tile out of range"
  | some tile =>
  if tile.type = "water" ∨ tile.type = "bedrock" then
    .error "Cannot found a city here"
  else
  if tile.buildingId.isSome then
    .error "Tile already has a building"
  else
  match subtractCost player.resources buildDef.cost with
  | .error e => .error e
  | .ok updatedResources =>
  let ins := insertBuilding s (fun nid =>
    { id := nid, playerId := player.id, type := "city",
      x := unit.x, y := unit.y, hp := buildDef.hp })
  let buildingId := ins.1
  let s := ins.2
  let m := modTile s.map tileIndex (fun t =>
    { t with type := "city", buildingId := some buildingId,
             unitId := none, resource := none })
  let vis : Except String (List Tile) :=
    if ¬ buildDef.providesVision.getD 0 = 0 then
      revealAround s.width s.height m player.id unit.x unit.y
        (buildDef.providesVision.getD 0) none
    else .ok m
  match vis with
  | .error e => .error e
  | .ok m =>
  let s := { s with map := m }
  let s := patchPlayer s player.id
    (fun p => { p with resources := updatedResources })
  .ok (deleteUnit s unitId)

/-! ## Spawning units (source: `units.ts` `spawnUnit`, `findSpawnTile`) -/

/-- `findSpawnTile`: first free, passable, terrain-compatible tile among the
four neighbors (air units first try the sky tile above). -/
def findSpawnTileGo (width height : Nat) (m : List Tile) (canFly : Bool) :
    List (Int × Int) → Except String (Option (Int × Int))
  | [] => .ok none
  | c :: rest =>
      let wrappedX := wrapX c.1 width
      let clampedY := clampY c.2 height
      let idx := coordToIndex width wrappedX clampedY
      match getTile? m idx with
      | none => .error "tile out of range"
      | some tile =>
        let terrainDef := (TERRAIN_DEFS tile.type).getD surfaceTerrain
        if tile.unitId.isSome then findSpawnTileGo width height m canFly rest
        else if ¬ terrainDef.passable then
          findSpawnTileGo width height m canFly rest
        else if terrainDef.airOnly ∧ ¬ canFly then
          findSpawnTileGo width height m canFly rest
        else .ok (some (wrappedX, clampedY))

def findSpawnTile (width height : Nat) (b : BuildingDoc) (m : List Tile)
    (canFly : Bool) : Except String (Option (Int × Int)) :=
  let candidates : List (Int × Int) :=
    [(b.x + 1, b.y), (b.x - 1, b.y), (b.x, b.y + 1), (b.x, b.y - 1)]
  let candidates :=
    if canFly then (b.x, b.y - 1) :: candidates else candidates
  findSpawnTileGo width height m canFly candidates

def spawnUnit (s : GameState) (playerId buildingId : Nat)
    (unitType : String) : Except String GameState :=
  match UNIT_DEFS unitType with
  | none => .error "Unknown unit type"
  | some unitDef =>
  match getBuilding? s buildingId with
  | none => .error "Building not found"
  | some building =>
  if ¬ building.playerId = playerId then
    .error "Cannot spawn from another player's building"
  else
  match BUILDING_DEFS building.type with
  | none => .error "Unknown building type"
  | some buildingDef =>
  if ¬ buildingDef.canSpawnUnits then
    .error "This building cannot spawn units"
  else
  if (match buildingDef.spawnableUnits with
      | some l => ! l.contains unitType
      | none => false) then
    .error "This building cannot spawn that unit"
  else
  match assertPlayerTurn s playerId with
  | .error e => .error e
  | .ok _ =>
  match getPlayerOrThrow s playerId with
  | .error e => .error e
  | .ok player =>
  if (match unitDef.requiredTech with
      | some t => ! player.techUnlocked.contains t
      | none => false) then
    .error "Requires a technology"
  else
  match subtractCost player.resources unitDef.cost with
  | .error e => .error e
  | .ok updatedResources =>
  match findSpawnTile s.width s.height building s.map unitDef.canFly with
  | .error e => .error e
  | .ok none => .error "No adjacent tile available for spawning"
  | .ok (some spawnLocation) =>
  let ins := insertUnit s (fun nid =>
    { id := nid, playerId := player.id, type := unitType,
      x := spawnLocation.1, y := spawnLocation.2, hp := unitDef.hp,
      movesLeft := unitDef.maxMoves, maxMoves := unitDef.maxMoves,
      buildsLeft := unitDef.buildsLeft })
  let unitId := ins.1
  let s := ins.2
  let spawnIdx := coordToIndex s.width spawnLocation.1 spawnLocation.2
  let m := modTile s.map spawnIdx (fun t => { t with unitId := some unitId })
  let vis : Except String (List Tile) :=
    if ¬ unitDef.vision = 0 then
      revealAround s.width s.height m player.id spawnLocation.1
        spawnLocation.2 unitDef.vision none
    else .ok m
  match vis with
  | .error e => .error e
  | .ok m =>
  let s := { s with map := m }
  .ok (patchPlayer s player.id
    (fun p => { p with resources := updatedResources }))

/-! ## Toggles (source: `units.ts`) -/

def toggleEntrench (s : GameState) (unitId playerId : Nat)
    (entrench : Bool) : Except String GameState :=
  match getUnit? s unitId with
  | none => .error "Unit not found"
  | some unit =>
    if ¬ unit.playerId = playerId then
      .error "You do not control this unit"
    else
      match assertPlayerTurn s playerId with
      | .error e => .error e
      | .ok _ =>
        if ¬ unit.type = "marine" then
          .error "Only Marines can entrench"
        else if entrench ∧ 0 < unit.movesLeft then
          .error "Must use all movement points to entrench"
        else
          .ok (patchUnit s unitId
            (fun u => { u with entrenched := some entrench }))

def toggleAutoExplore (s : GameState) (unitId playerId : Nat)
    (enable : Bool) : Except String GameState :=
  match getUnit? s unitId with
  | none => .error "Unit not found"
  | some unit =>
    if ¬ unit.playerId = playerId then
      .error "You do not control this unit"
    else if ¬ unit.type = "rover" then
      .error "Only Rovers can auto-explore"
    else
      .ok (patchUnit s unitId (fun u => { u with autoExplore := some enable }))

/-! ## Combat (source: `combat.ts`) -/

/-- The per-command result record returned by `attack`. -/
structure AttackResult where
  attackerDamageDealt : Int
  defenderDamageDealt : Int
  attackerDied : Bool
  defenderDied : Bool
deriving Repr, DecidableEq

/-- `checkFlanking`: friendly units of the attacker on both opposite sides
of the defender, horizontally (wrapped) or vertically (clamped). -/
def checkFlanking (s : GameState) (defender : UnitDoc)
    (attackerPlayerId : Nat) : Bool :=
  let friendlyUnits := s.units.filter (fun u => u.playerId == attackerPlayerId)
  let leftX := wrapX (defender.x - 1) s.width
  let rightX := wrapX (defender.x + 1) s.width
  let hasUnitOnLeft :=
    friendlyUnits.any (fun u => u.x == leftX && u.y == defender.y)
  let hasUnitOnRight :=
    friendlyUnits.any (fun u => u.x == rightX && u.y == defender.y)
  if hasUnitOnLeft && hasUnitOnRight then true
  else
    let upY := clampY (defender.y - 1) s.height
    let downY := clampY (defender.y + 1) s.height
    let hasUnitAbove :=
      friendlyUnits.any (fun u => u.x == defender.x && u.y == upY)
    let hasUnitBelow :=
      friendlyUnits.any (fun u => u.x == defender.x && u.y == downY)
    hasUnitAbove && hasUnitBelow

/-- `checkPlayerElimination`: mark alive players with no units and no
buildings as not alive. -/
def checkPlayerElimination (s : GameState) : GameState :=
  { s with players := s.players.map (fun p =>
      if p.isAlive
          && s.units.all (fun u => u.playerId != p.id)
          && s.buildings.all (fun b => b.playerId != p.id) then
        { p with isAlive := false }
      else p) }

/-- The damage roll of unit-versus-unit combat:
`max(effectiveAtk - effectiveDef, MIN_DAMAGE)` with the building, entrench
and flanking modifiers. -/
def attackUnitDamage (s : GameState) (attackerDef : UnitDef)
    (playerId : Nat) (targetTile : Tile) (du : UnitDoc) : Int :=
  let defenderDef := UNIT_DEFS du.type
  let buildingOnTile := targetTile.buildingId.bind (getBuilding? s)
  let buildingDef := buildingOnTile.bind (fun b => BUILDING_DEFS b.type)
  -- `if (buildingDef?.defenseBonus) effectiveDef += ...`: a missing or
  -- zero bonus adds zero either way.
  let defenseBonus := (buildingDef.bind (fun bd => bd.defenseBonus)).getD 0
  let entrenchBonus :=
    if du.type == "marine" && du.entrenched.getD false then
      COMBAT.ENTRENCH_BONUS
    else 0
  let effectiveDef :=
    (defenderDef.map (fun d => d.defense)).getD 0 + defenseBonus +
      entrenchBonus
  let isFlanking := checkFlanking s du playerId
  let effectiveAtk :=
    attackerDef.atk + (if isFlanking then COMBAT.FLANKING_BONUS else 0)
  max (effectiveAtk - effectiveDef) COMBAT.MIN_DAMAGE

/-- Unit-versus-unit combat: the tail of `attack` when a defending unit
stands on the target tile. -/
def attackUnitCombat (s : GameState) (attacker : UnitDoc)
    (attackerDef : UnitDef) (playerId : Nat) (targetTile : Tile)
    (targetIdx : Int) (distance : Int) (du : UnitDoc) :
    GameState × AttackResult :=
  let defenderDef := UNIT_DEFS du.type
  let damage := attackUnitDamage s attackerDef playerId targetTile du
  let newDefenderHp := du.hp - damage
  if newDefenderHp ≤ 0 then
    -- Defender dies (the attacker's moves are not exhausted here).
    let s := deleteUnit s du.id
    let m := modTile s.map targetIdx (fun t => { t with unitId := none })
    let s := checkPlayerElimination { s with map := m }
    (s, { attackerDamageDealt := damage, defenderDamageDealt := 0,
          attackerDied := false, defenderDied := true })
  else
    let s := patchUnit s du.id (fun v => { v with hp := newDefenderHp })
    let defenderRange := (defenderDef.map (fun d => d.range)).getD 1
    match defenderDef with
    | some dd =>
        if distance ≤ defenderRange ∧ 0 < dd.atk then
          -- Counter-attack.
          let counterDamage :=
            max (dd.atk - attackerDef.defense) COMBAT.MIN_DAMAGE
          let newAttackerHp := attacker.hp - counterDamage
          if newAttackerHp ≤ 0 then
            let s := deleteUnit s attacker.id
            let attackerIdx := coordToIndex s.width attacker.x attacker.y
            let m := modTile s.map attackerIdx
              (fun t => { t with unitId := none })
            let s := checkPlayerElimination { s with map := m }
            (s, { attackerDamageDealt := damage,
                  defenderDamageDealt := counterDamage,
                  attackerDied := true, defenderDied := false })
          else
            let s := patchUnit s attacker.id (fun v =>
              { v with hp := newAttackerHp, movesLeft := 0 })
            let s := checkPlayerElimination s
            (s, { attackerDamageDealt := damage,
                  defenderDamageDealt := counterDamage,
                  attackerDied := false, defenderDied := false })
        else
          let s := patchUnit s attacker.id
            (fun v => { v with movesLeft := 0 })
          let s := checkPlayerElimination s
          (s, { attackerDamageDealt := damage,
                defenderDamageDealt := 0,
                attackerDied := false, defenderDied := false })
    | none =>
        let s := patchUnit s attacker.id
          (fun v => { v with movesLeft := 0 })
        let s := checkPlayerElimination s
        (s, { attackerDamageDealt := damage,
              defenderDamageDealt := 0,
              attackerDied := false, defenderDied := false })

/-- Unit-versus-building combat: no counter-attack. -/
def attackBuildingCombat (s : GameState) (attacker : UnitDoc)
    (attackerDef : UnitDef) (targetIdx : Int) (db : BuildingDoc) :
    GameState × AttackResult :=
  let damage := max attackerDef.atk COMBAT.MIN_DAMAGE
  let newBuildingHp := db.hp - damage
  if newBuildingHp ≤ 0 then
    let s := deleteBuilding s db.id
    let m := modTile s.map targetIdx
      (fun t => { t with buildingId := none, type := "surface" })
    let s := { s with map := m }
    let s := patchUnit s attacker.id (fun v => { v with movesLeft := 0 })
    let s := checkPlayerElimination s
    (s, { attackerDamageDealt := damage, defenderDamageDealt := 0,
          attackerDied := false, defenderDied := true })
  else
    let s := patchBuilding s db.id
      (fun b => { b with hp := newBuildingHp })
    let s := patchUnit s attacker.id (fun v => { v with movesLeft := 0 })
    let s := checkPlayerElimination s
    (s, { attackerDamageDealt := damage, defenderDamageDealt := 0,
          attackerDied := false, defenderDied := false })

/-- `attack(attackerUnitId, playerId, targetX, targetY)`. -/
def attack (s : GameState) (attackerUnitId playerId : Nat)
    (targetX0 targetY0 : Int) : Except String (GameState × AttackResult) :=
  match getUnit? s attackerUnitId with
  | none => .error "Attacker unit not found"
  | some attacker =>
  if ¬ attacker.playerId = playerId then
    .error "You do not control this unit"
  else
  match assertPlayerTurn s playerId with
  | .error e => .error e
  | .ok _ =>
  if attacker.movesLeft ≤ 0 then
    .error "Unit has no actions left this turn"
  else
  match (match UNIT_DEFS attacker.type with
    | some d =>
        if d.atk = 0 then Except.error "This unit cannot attack"
        else Except.ok d
    | none => Except.error "This unit cannot attack") with
  | .error e => .error e
  | .ok attackerDef =>
  let targetX := wrapX targetX0 s.width
  let targetY := clampY targetY0 s.height
  let distance :=
    manhattanDistance s.width attacker.x attacker.y targetX targetY
  if attackerDef.range < distance then .error "Target out of range"
  else
  if distance = 0 then .error "Cannot attack your own tile"
  else
  let targetIdx := coordToIndex s.width targetX targetY
  match getTile? s.map targetIdx with
  | none => .error "tile out of range"
  | some targetTile =>
  let defenderUnitE : Except String (Option UnitDoc) :=
    match targetTile.unitId with
    | some duid =>
        match getUnit? s duid with
        | some du =>
            if du.playerId = playerId then
              .error "Cannot attack your own unit"
            else .ok (some du)
        | none => .ok none
    | none => .ok none
  match defenderUnitE with
  | .error e => .error e
  | .ok defenderUnit =>
  let defenderBuildingE : Except String (Option BuildingDoc) :=
    match targetTile.unitId with
    | some _ => .ok none
    | none =>
        match targetTile.buildingId with
        | some dbid =>
            match getBuilding? s dbid with
            | some db =>
                if db.playerId = playerId then
                  .error "Cannot attack your own building"
                else .ok (some db)
            | none => .ok none
        | none => .ok none
  match defenderBuildingE with
  | .error e => .error e
  | .ok defenderBuilding =>
  match defenderUnit, defenderBuilding with
  | none, none => .error "No valid target at that location"
  | some du, _ =>
      .ok (attackUnitCombat s attacker attackerDef playerId targetTile
        targetIdx distance du)
  | none, some db =>
      .ok (attackBuildingCombat s attacker attackerDef targetIdx db)

/-! ## Construction (source: `buildings.ts`) -/

def placeBuilding (s : GameState) (playerId workerId : Nat)
    (buildingType : String) (targetX0 targetY0 : Int) :
    Except String GameState :=
  match BUILDING_DEFS buildingType with
  | none => .error "Unknown building type"
  | some buildingDef =>
  if buildingType = "city" then
    .error "Cities are founded by Settlers, not Workers"
  else
  match getUnit? s workerId with
  | none => .error "Worker not found"
  | some worker =>
  if ¬ worker.playerId = playerId then
    .error "You do not control this worker"
  else
  if ¬ worker.type = "worker" then
    .error "Only Workers can build structures"
  else
  if worker.buildsLeft.getD 0 ≤ 0 then
    .error "Worker has no builds left. Spawn a new Worker from a City."
  else
  match assertPlayerTurn s playerId with
  | .error e => .error e
  | .ok _ =>
  match getPlayerOrThrow s playerId with
  | .error e => .error e
  | .ok player =>
  let targetX := wrapX targetX0 s.width
  let targetY := clampY targetY0 s.height
  if ¬ (worker.x = targetX ∧ worker.y = targetY) then
    .error "Worker must be on tile to start construction"
  else
  let targetIdx := coordToIndex s.width targetX targetY
  match getTile? s.map targetIdx with
  | none => .error "tile out of range"
  | some tile =>
  if ¬ tile.unitId = some worker.id then
    .error "Worker must be alone on tile"
  else
  if tile.buildingId.isSome then
    .error "Tile already has a building"
  else
  if tile.type = "water" ∨ tile.type = "bedrock" then
    .error "Cannot build here"
  else
  if (match buildingDef.requiredTech with
      | some t => ! player.techUnlocked.contains t
      | none => false) then
    .error "Requires a technology"
  else
  if (match buildingDef.terrainRequired with
      | some l => ! l.contains tile.type
      | none => false) then
    .error "Wrong terrain for this building"
  else
  if (match buildingDef.requiresResource with
      | some r => ! tile.resource == some r
      | none => false) then
    .error "Must be built on the required deposit"
  else
  match subtractCost player.resources buildingDef.cost with
  | .error e => .error e
  | .ok updatedResources =>
  let turnsToComplete := buildingDef.turnsToComplete.getD 1
  let ins := insertBuilding s (fun nid =>
    { id := nid, playerId := player.id, type := buildingType,
      x := targetX, y := targetY, hp := 0, buildProgress := some 0,
      turnsToComplete := some turnsToComplete, workerId := some worker.id,
      isConstructing := some true })
  let buildingId := ins.1
  let s := ins.2
  let m := modTile s.map targetIdx (fun t =>
    { t with type := "construction", buildingId := some buildingId })
  let s := { s with map := m }
  let s := patchPlayer s player.id
    (fun p => { p with resources := updatedResources })
  .ok (patchUnit s worker.id (fun u =>
    { u with movesLeft := 0,
             buildsLeft := some (worker.buildsLeft.getD 0 - 1) }))

def continueBuilding (s : GameState) (playerId workerId : Nat) :
    Except String GameState :=
  match getUnit? s workerId with
  | none => .error "Worker not found"
  | some worker =>
  if ¬ worker.playerId = playerId then
    .error "You do not control this worker"
  else
  if ¬ worker.type = "worker" then
    .error "Only Workers can continue construction"
  else
  match assertPlayerTurn s playerId with
  | .error e => .error e
  | .ok _ =>
  let idx := coordToIndex s.width worker.x worker.y
  match getTile? s.map idx with
  | none => .error "tile out of range"
  | some tile =>
  match tile.buildingId with
  | none => .error "No building on this tile"
  | some bid =>
  match getBuilding? s bid with
  | none => .error "Building not found"
  | some building =>
  if ¬ building.isConstructing.getD false then
    .error "This building is already complete"
  else
  if ¬ building.workerId = some worker.id then
    .error "Only the worker who started construction can continue it"
  else
  match BUILDING_DEFS building.type with
  | none => .error "Unknown building type"
  | some buildingDef =>
  let newProgress := building.buildProgress.getD 0 + 1
  let isComplete := building.turnsToComplete.getD 1 ≤ newProgress
  if isComplete then
    let s := deleteBuilding s building.id
    let ins := insertBuilding s (fun nid =>
      { id := nid, playerId := building.playerId, type := building.type,
        x := building.x, y := building.y, hp := buildingDef.hp })
    let completedBuildingId := ins.1
    let s := ins.2
    let m := modTile s.map idx (fun t =>
      { t with type := building.type,
               buildingId := some completedBuildingId })
    let vis : Except String (List Tile) :=
      if ¬ buildingDef.providesVision.getD 0 = 0 then
        revealAround s.width s.height m playerId building.x building.y
          (buildingDef.providesVision.getD 0) none
      else .ok m
    match vis with
    | .error e => .error e
    | .ok m =>
      let s := { s with map := m }
      .ok (patchUnit s worker.id (fun u => { u with movesLeft := 0 }))
  else
    let s := patchBuilding s building.id
      (fun b => { b with buildProgress := some newProgress })
    .ok (patchUnit s worker.id (fun u => { u with movesLeft := 0 }))

/-! ## Resource collection (source: `economy.ts` `collectResource`) -/

def collectResource (s : GameState) (playerId : Nat) (x0 y0 : Int) :
    Except String GameState :=
  match getPlayerOrThrow s playerId with
  | .error e => .error e
  | .ok player =>
  match assertPlayerTurn s player.id with
  | .error e => .error e
  | .ok _ =>
  let targetX := wrapX x0 s.width
  let targetY := clampY y0 s.height
  let idx := coordToIndex s.width targetX targetY
  match getTile? s.map idx with
  | none => .error "tile out of range"
  | some tile =>
  match tile.resource with
  | none => .error "No resource on this tile"
  | some deposit =>
  match RESOURCE_YIELDS deposit with
  | none => .error "Resource cannot be harvested"
  | some yieldDelta =>
  let updatedResources := addResources player.resources yieldDelta
  let m := modTile s.map idx (fun t => { t with resource := none })
  let s := { s with map := m }
  .ok (patchPlayer s player.id
    (fun p => { p with resources := updatedResources }))

/-! ## Tech research (source: `tech.ts` `researchTech`) -/

def researchTech (s : GameState) (playerId : Nat) (techId : String) :
    Except String GameState :=
  match getPlayerOrThrow s playerId with
  | .error e => .error e
  | .ok player =>
  match assertPlayerTurn s player.id with
  | .error e => .error e
  | .ok _ =>
  match TECH_DEFS techId with
  | none => .error "Unknown technology"
  | some techDef =>
  if player.techUnlocked.contains techId then
    .error "Technology already researched"
  else
  if ¬ techDef.prerequisites.all (fun p => player.techUnlocked.contains p) then
    .error "Missing a prerequisite technology"
  else
  -- `Math.floor(fluxCost * 0.9)` on a natural cost is `cost * 9 / 10`.
  let fluxCost : Nat :=
    if (FACTION_DEFS player.faction).map (fun f => f.trait) =
        some "networked" then
      techDef.cost * 9 / 10
    else techDef.cost
  match subtractCost player.resources { flux := (fluxCost : Int) } with
  | .error e => .error e
  | .ok updatedResources =>
  .ok (patchPlayer s player.id (fun p =>
    { p with resources := updatedResources,
             techUnlocked := p.techUnlocked ++ [techId] }))

/-! ## Forfeit (source: `game.ts` `forfeit`) -/

def forfeit (s : GameState) (playerId : Nat) : Except String GameState :=
  match getPlayer? s playerId with
  | none => .error "Player not found"
  | some player =>
  if ¬ player.isAlive then
    .error "Player already eliminated"
  else
  let units := s.units.filter (fun u => u.playerId == playerId)
  let s := { s with units := s.units.filter (fun u => u.playerId != playerId) }
  let buildings := s.buildings.filter (fun b => b.playerId == playerId)
  let s := { s with buildings :=
    s.buildings.filter (fun b => b.playerId != playerId) }
  let m := buildings.foldl (fun m b =>
    modTile m (coordToIndex s.width b.x b.y) (fun t =>
      { t with buildingId := none, type := "surface" })) s.map
  let m := units.foldl (fun m u =>
    modTile m (coordToIndex s.width u.x u.y) (fun t =>
      { t with unitId := none })) m
  let s := { s with map := m }
  .ok (patchPlayer s playerId (fun p => { p with isAlive := false }))

/-! ## Auto-explore pathfinding (source: `lib/pathfinding.ts`) -/

/-- `getNeighbors`: the four neighbors in U, D, L, R order, x wrapped by
`(nx + width) % width` (JavaScript `%`, so `Int.tmod`), y discarded outside
`[0, height)`; tiles without a terrain row are skipped; for ground units
impassable terrain is skipped. A `width` of zero makes the source index by
`NaN` and fault on the missing tile, hence the error. -/
def getNeighborsGo (width height : Nat) (m : List Tile) (canFly : Bool)
    (x y : Int) : List (Int × Int) → Except String (List (Int × Int))
  | [] => .ok []
  | d :: rest =>
      let nx := Int.tmod (x + d.1 + (width : Int)) width
      let ny := y + d.2
      if ny < 0 ∨ (height : Int) ≤ ny then
        getNeighborsGo width height m canFly x y rest
      else
        let idx := coordToIndex width nx ny
        match getTile? m idx with
        | none => .error "tile out of range"
        | some tile =>
        match TERRAIN_DEFS tile.type with
        | none => getNeighborsGo width height m canFly x y rest
        | some terrain =>
            if ¬ canFly ∧ ¬ terrain.passable then
              getNeighborsGo width height m canFly x y rest
            else
              match getNeighborsGo width height m canFly x y rest with
              | .error e => .error e
              | .ok others => .ok ((nx, ny) :: others)

def getNeighbors (width height : Nat) (m : List Tile) (canFly : Bool)
    (x y : Int) : Except String (List (Int × Int)) :=
  if width = 0 then Except.error "invalid grid"
  else getNeighborsGo width height m canFly x y
    [(0, -1), (0, 1), (-1, 0), (1, 0)]

/-- The BFS bookkeeping: pending queue, visited keys, and the parent map
`child ↦ (parent, direction taken from the parent)`. -/
structure BfsState where
  queue : List (Int × Int)
  visited : List (Int × Int)
  parents : List ((Int × Int) × (Int × Int × Direction))
deriving Repr

def lookupParent (parents : List ((Int × Int) × (Int × Int × Direction)))
    (p : Int × Int) : Option (Int × Int × Direction) :=
  (parents.find? (fun e => e.1 == p)).map (fun e => e.2)

/-- The path-reconstruction loop of `findNearestFog`; each key is inserted
into the parent map once and parents precede children, so the chain length
is bounded by the map size, which the caller passes as fuel. -/
def reconstructFirstStep (startX startY : Int)
    (parents : List ((Int × Int) × (Int × Int × Direction))) :
    Nat → (Int × Int) → Option Direction
  | 0, _ => none
  | fuel + 1, curr =>
      match lookupParent parents curr with
      | none => none
      | some (px, py, dir) =>
          if px = startX ∧ py = startY then some dir
          else reconstructFirstStep startX startY parents fuel (px, py)

/-- The direction label recorded for a BFS edge. -/
def neighborDirection (current neighbor : Int × Int) : Direction :=
  let diffX := neighbor.1 - current.1
  let diffY := neighbor.2 - current.2
  if diffY = -1 then .U
  else if diffY = 1 then .D
  else if diffX = 1 ∨ diffX < -1 then .R
  else if diffX = -1 ∨ 1 < diffX then .L
  else .U

/-- Enqueue the unvisited neighbors, recording parent and direction. -/
def enqueueNeighbors (current : Int × Int) (st : BfsState) :
    List (Int × Int) → BfsState
  | [] => st
  | n :: rest =>
      if st.visited.contains n then enqueueNeighbors current st rest
      else
        enqueueNeighbors current
          { queue := st.queue ++ [n], visited := st.visited ++ [n],
            parents := st.parents ++
              [(n, (current.1, current.2, neighborDirection current n))] }
          rest

/-- The BFS loop of `findNearestFog`; the fuel is `MAX_STEPS = 500` minus
the steps taken. -/
def findNearestFogGo (width height : Nat) (m : List Tile) (playerId : Nat)
    (canFly : Bool) (startX startY : Int) :
    Nat → BfsState → Except String (Option Direction)
  | 0, _ => .ok none
  | fuel + 1, st =>
      match st.queue with
      | [] => .ok none
      | current :: rest =>
          let idx := coordToIndex width current.1 current.2
          match getTile? m idx with
          | none => .error "tile out of range"
          | some tile =>
          let isVisible := tile.visibility.contains playerId
          if ¬ isVisible ∧ ¬ (current.1 = startX ∧ current.2 = startY) then
            .ok (reconstructFirstStep startX startY st.parents
              (st.parents.length + 1) current)
          else
            match getNeighbors width height m canFly current.1 current.2 with
            | .error e => .error e
            | .ok neighbors =>
            let st := enqueueNeighbors current { st with queue := rest }
              neighbors
            findNearestFogGo width height m playerId canFly startX startY
              fuel st

/-- `findNearestFog(startX, startY, map, width, height, playerId, canFly)`. -/
def findNearestFog (startX startY : Int) (m : List Tile)
    (width height : Nat) (playerId : Nat) (canFly : Bool) :
    Except String (Option Direction) :=
  findNearestFogGo width height m playerId canFly startX startY 500
    { queue := [(startX, startY)], visited := [(startX, startY)],
      parents := [] }

/-! ## End of turn (source: `economy.ts` `endTurn` and helpers) -/

/-- The `Math.random()` draws `endTurn` can make during the weather cycle. -/
structure EndTurnRng where
  weatherChance : ℚ
  weatherType : ℚ
  weatherDuration : ℚ
deriving Repr, DecidableEq

/-- The auto-explore movement loop for one unit (`while (moves > 0)`).
Every executed step costs at least one move (flying cost is the constant 1,
and every passable terrain row costs 1 or 2), so `movesLeft.toNat` steps of
fuel make the embedded loop exhaust `moves` exactly when the source loop
does. -/
def exploreLoop (width height : Nat) (playerId : Nat) (u : UnitDoc)
    (unitDef : UnitDef) :
    Nat → List Tile → Int → Int → Int →
    Except String (List Tile × Int × Int)
  | 0, m, cx, cy, _ => .ok (m, cx, cy)
  | fuel + 1, m, cx, cy, moves =>
      if moves ≤ 0 then .ok (m, cx, cy)
      else
        match findNearestFog cx cy m width height playerId unitDef.canFly with
        | .error e => .error e
        | .ok none => .ok (m, cx, cy)
        | .ok (some dir) =>
            let d := directionToDelta dir
            let nextX := wrapX (cx + d.1) width
            let nextY := clampY (cy + d.2) height
            let fromIdx := coordToIndex width cx cy
            let toIdx := coordToIndex width nextX nextY
            match getTile? m toIdx with
            | none => .error "tile out of range"
            | some targetTile =>
            let terrainDef :=
              (TERRAIN_DEFS targetTile.type).getD surfaceTerrain
            let moveCostOpt : Option Nat :=
              if unitDef.canFly then some 1 else terrainDef.moveCost
            match moveCostOpt with
            | none => .ok (m, cx, cy)
            | some c =>
                if moves < (c : Int) then .ok (m, cx, cy)
                else if (match targetTile.unitId with
                    | some uid => uid != u.id
                    | none => false) then .ok (m, cx, cy)
                else
                  let m := modTile m fromIdx
                    (fun t => { t with unitId := none })
                  let m := modTile m toIdx
                    (fun t => { t with unitId := some u.id })
                  let vis : Except String (List Tile) :=
                    if ¬ unitDef.vision = 0 then
                      revealAround width height m playerId nextX nextY
                        unitDef.vision none
                    else .ok m
                  match vis with
                  | .error e => .error e
                  | .ok m =>
                    exploreLoop width height playerId u unitDef fuel m
                      nextX nextY (moves - (c : Int))

/-- The outer auto-explore pass: for each auto-exploring unit of the acting
player (snapshot list), run the loop and, when the unit moved, patch its
position and zero its moves. The source queues the unit patches and applies
them with the single map patch; since the loop reads only the map and the
unit's own snapshot, patching units as we go is equivalent. -/
def autoExploreGo (width height : Nat) (playerId : Nat) :
    List UnitDoc → List Tile → List UnitDoc →
    Except String (List Tile × List UnitDoc)
  | [], m, allUnits => .ok (m, allUnits)
  | u :: rest, m, allUnits =>
      if u.autoExplore.getD false && decide (0 < u.movesLeft) then
        match UNIT_DEFS u.type with
        | none => autoExploreGo width height playerId rest m allUnits
        | some unitDef =>
            match exploreLoop width height playerId u unitDef
                u.movesLeft.toNat m u.x u.y u.movesLeft with
            | .error e => .error e
            | .ok (m, cx, cy) =>
              let allUnits :=
                if ¬ (cx = u.x ∧ cy = u.y) then
                  allUnits.map (fun v =>
                    if v.id = u.id then
                      { v with x := cx, y := cy, movesLeft := 0 }
                    else v)
                else allUnits
              autoExploreGo width height playerId rest m allUnits
      else autoExploreGo width height playerId rest m allUnits

/-- `calculateIncome`: fold the income of the player's completed buildings,
with the United Terran +1 ore on mines (the bonus rides on the `ore` key of
the mine's income row) and the solar-flare flux multiplier,
`Math.floor(flux * 1.5) = 3 * flux / 2` rounding toward minus infinity. -/
def calculateIncome (s : GameState) (player : PlayerDoc) : Cost :=
  let buildings := s.buildings.filter (fun b => b.playerId == player.id)
  let factionTrait := (FACTION_DEFS player.faction).map (fun f => f.trait)
  let total : Cost := buildings.foldl (fun total building =>
    match BUILDING_DEFS building.type with
    | none => total
    | some bdef =>
        if building.isConstructing.getD false then total
        else
          { biomass := total.biomass + bdef.income.biomass,
            ore := total.ore + bdef.income.ore +
              (if factionTrait = some "deep_core_mining" ∧
                  building.type = "mine" then 1 else 0),
            flux := total.flux + bdef.income.flux }) {}
  if (match s.activeWeather with
      | some w => w.type == "solar_flare"
      | none => false) then
    { total with flux := 3 * total.flux / 2 }
  else total

/-- `applyFactionTurnEffects` (Xeno Hive regeneration): heal the player's
units standing on biomass tiles. The source passes the game document
fetched before the auto-explore map patch, so the tiles come from the stale
map, while the unit list is fresh. -/
def regenHealGo (staleMap : List Tile) (width : Nat) :
    List UnitDoc → GameState → Except String GameState
  | [], s => .ok s
  | u :: rest, s =>
      let idx := coordToIndex width u.x u.y
      match getTile? staleMap idx with
      | none => .error "tile out of range"
      | some tile =>
      let hasBiomass :=
        tile.resource == some "biomass" || tile.type == "farm"
      if hasBiomass then
        let maxHp := ((UNIT_DEFS u.type).map (fun d => d.hp)).getD u.hp
        let newHp := min (u.hp + COMBAT.REGEN_HP_PER_TURN) maxHp
        if u.hp < newHp then
          regenHealGo staleMap width rest
            (patchUnit s u.id (fun v => { v with hp := newHp }))
        else regenHealGo staleMap width rest s
      else regenHealGo staleMap width rest s

def applyFactionTurnEffects (staleMap : List Tile) (s : GameState)
    (player : PlayerDoc) : Except String GameState :=
  if (FACTION_DEFS player.faction).map (fun f => f.trait) =
      some "regeneration" then
    regenHealGo staleMap s.width
      (s.units.filter (fun u => u.playerId == player.id)) s
  else .ok s

/-- `resetPlayerUnits`: refill moves; a marine that spent no moves becomes
entrenched, every other unit's flag is reset to `undefined`. -/
def resetPlayerUnits (s : GameState) (playerId : Nat) : GameState :=
  { s with units := s.units.map (fun u =>
      if u.playerId = playerId then
        { u with movesLeft := u.maxMoves,
                 entrenched :=
                   if u.type == "marine" && u.movesLeft == u.maxMoves then
                     some true
                   else none }
      else u) }

/-- The skip-eliminated search of `endTurn`: the first index at offset
`0 ≤ i < playerOrder.length` from `nextIndex` (cyclically) whose player
document exists and is alive. -/
def findAliveFrom (s : GameState) (nextIndex : Nat) : Option Nat :=
  ((List.range s.playerOrder.length).find? (fun i =>
    match s.playerOrder[(nextIndex + i) % s.playerOrder.length]? with
    | some pid =>
        match getPlayer? s pid with
        | some p => p.isAlive
        | none => false
    | none => false)).map
    (fun i => (nextIndex + i) % s.playerOrder.length)

/-- The acid-rain damage pass: every unit outside a city or bunker takes 2
damage, floored at 1 hp. Tiles come from the stale pre-explore map, the
unit list and the buildings are fresh. -/
def acidRainGo (staleMap : List Tile) (width : Nat) :
    List UnitDoc → GameState → Except String GameState
  | [], s => .ok s
  | u :: rest, s =>
      let idx := coordToIndex width u.x u.y
      match getTile? staleMap idx with
      | none => .error "tile out of range"
      | some tile =>
      let safe :=
        match tile.buildingId with
        | some bid =>
            match getBuilding? s bid with
            | some b => b.type == "city" || b.type == "bunker"
            | none => false
        | none => false
      if safe then acidRainGo staleMap width rest s
      else
        acidRainGo staleMap width rest
          (patchUnit s u.id (fun v => { v with hp := max 1 (u.hp - 2) }))

/-- The weather advance/spawn step run when the rotation wraps to index 0;
reads the stale turn counter and weather. An out-of-range type draw makes
the source index `WEATHER_DEFS` with `undefined` and throw. -/
def weatherCycle (staleTurn : Int) (staleWeather : Option Weather)
    (rng : EndTurnRng) (s : GameState) : Except String GameState :=
  match staleWeather with
  | some w =>
      let nextDuration := w.turnsRemaining - 1
      if nextDuration ≤ 0 then .ok { s with activeWeather := none }
      else
        let w := { w with turnsRemaining := nextDuration }
        .ok { s with activeWeather := some w }
  | none =>
      if 5 ≤ staleTurn ∧ rng.weatherChance < (1 / 5 : ℚ) then
        let tIdx := Int.floor (rng.weatherType * 4)
        let ty? := if 0 ≤ tIdx then weatherTypes[tIdx.toNat]? else none
        match ty? with
        | none => .error "Weather def not found"
        | some ty =>
            match WEATHER_DEFS ty with
            | none => .error "Weather def not found"
            | some wdef =>
                let duration := Int.floor (rng.weatherDuration *
                    (((wdef.durationMax - wdef.durationMin + 1) : Int) : ℚ)) +
                  wdef.durationMin
                let w : Weather := { type := ty, turnsRemaining := duration }
                .ok { s with activeWeather := some w }
      else .ok s

/-- `endTurn(gameId, playerId)`. Reads of the in-memory `game` document
(`game.turn`, `game.activeWeather`, `game.map`, `game.activePlayerIndex`)
are stale reads of the incoming state `s0` even after the database has been
patched; the embedding passes those explicitly. -/
def endTurn (s0 : GameState) (playerId : Nat) (rng : EndTurnRng) :
    Except String GameState :=
  match assertPlayerTurn s0 playerId with
  | .error e => .error e
  | .ok _ =>
  let snapshot := s0.units.filter (fun u => u.playerId == playerId)
  match autoExploreGo s0.width s0.height playerId snapshot s0.map
      s0.units with
  | .error e => .error e
  | .ok (m, allUnits) =>
  let s := { s0 with map := m, units := allUnits }
  if s.playerOrder.length = 0 then .error "No players in game"
  else
  let nextIndex := (s.activePlayerIndex + 1) % s.playerOrder.length
  match s.playerOrder[nextIndex]? with
  | none => .error "Next player not found"
  | some nextPlayerId =>
  match getPlayerOrThrow s nextPlayerId with
  | .error e => .error e
  | .ok nextPlayer =>
  if ¬ nextPlayer.isAlive then
    match findAliveFrom s nextIndex with
    | none => .error "No alive players remaining"
    | some searchIndex =>
        match s.playerOrder[searchIndex]? with
        | none => .error "Player not found"
        | some alivePlayerId =>
        match getPlayerOrThrow s alivePlayerId with
        | .error e => .error e
        | .ok alivePlayer =>
        let income := calculateIncome s alivePlayer
        let updatedResources := addResources alivePlayer.resources income
        match applyFactionTurnEffects s0.map s alivePlayer with
        | .error e => .error e
        | .ok s =>
        let s := patchPlayer s alivePlayerId
          (fun p => { p with resources := updatedResources })
        let s := resetPlayerUnits s alivePlayerId
        -- Early return: the weather cycle is skipped on this branch.
        .ok { s with activePlayerIndex := searchIndex,
                     turn := if searchIndex ≤ s0.activePlayerIndex then
                         s0.turn + 1
                       else s0.turn,
                     status := "active" }
  else
    let income := calculateIncome s nextPlayer
    let updatedResources := addResources nextPlayer.resources income
    match applyFactionTurnEffects s0.map s nextPlayer with
    | .error e => .error e
    | .ok s =>
    let s := patchPlayer s nextPlayerId
      (fun p => { p with resources := updatedResources })
    let s := resetPlayerUnits s nextPlayerId
    let s := { s with activePlayerIndex := nextIndex,
                      turn := if nextIndex = 0 then s0.turn + 1 else s0.turn,
                      status := "active" }
    if nextIndex = 0 then
      match weatherCycle s0.turn s0.activeWeather rng s with
      | .error e => .error e
      | .ok s =>
        if (match s0.activeWeather with
            | some w => w.type == "acid_rain"
            | none => false) then
          acidRainGo s0.map s.width s.units s
        else .ok s
    else .ok s

/-! ## The command surface -/

/-- One player-issued (or AI-issued) command, with any `Math.random()`
draws it may consume passed in explicitly. -/
inductive Command where
  | move (unitId playerId : Nat) (direction : Direction) (roll : ℚ)
  | attack (attackerUnitId playerId : Nat) (targetX targetY : Int)
  | foundCity (unitId playerId : Nat)
  | spawnUnit (playerId buildingId : Nat) (unitType : String)
  | placeBuilding (playerId workerId : Nat) (buildingType : String)
      (targetX targetY : Int)
  | continueBuilding (playerId workerId : Nat)
  | collectResource (playerId : Nat) (x y : Int)
  | researchTech (playerId : Nat) (techId : String)
  | toggleEntrench (unitId playerId : Nat) (entrench : Bool)
  | toggleAutoExplore (unitId playerId : Nat) (enable : Bool)
  | endTurn (playerId : Nat) (rng : EndTurnRng)
  | forfeit (playerId : Nat)
deriving Repr

/-- Dispatch one command to its handler (dropping the per-command result
payload of `attack`). -/
def step (c : Command) (s : GameState) : Except String GameState :=
  match c with
  | .move unitId playerId direction roll => move s unitId playerId direction roll
  | .attack attackerUnitId playerId targetX targetY =>
      (attack s attackerUnitId playerId targetX targetY).map (fun r => r.1)
  | .foundCity unitId playerId => foundCity s unitId playerId
  | .spawnUnit playerId buildingId unitType =>
      spawnUnit s playerId buildingId unitType
  | .placeBuilding playerId workerId buildingType targetX targetY =>
      placeBuilding s playerId workerId buildingType targetX targetY
  | .continueBuilding playerId workerId => continueBuilding s playerId workerId
  | .collectResource playerId x y => collectResource s playerId x y
  | .researchTech playerId techId => researchTech s playerId techId
  | .toggleEntrench unitId playerId entrench =>
      toggleEntrench s unitId playerId entrench
  | .toggleAutoExplore unitId playerId enable =>
      toggleAutoExplore s unitId playerId enable
  | .endTurn playerId rng => endTurn s playerId rng
  | .forfeit playerId => forfeit s playerId

/-- Run a sequence of commands; the whole run fails as soon as one command
is rejected. -/
def runCommands : List Command → GameState → Except String GameState
  | [], s => .ok s
  | c :: cs, s =>
      match step c s with
      | .ok s2 => runCommands cs s2
      | .error e => .error e

/-! ## The occupancy invariant -/

/-- The unit id stored on tile `i` of the map (`none` when the index is
outside the map). -/
def occUnit (m : List Tile) (i : Int) : Option Nat :=
  (getTile? m i).bind (fun t => t.unitId)

/-- The building id stored on tile `i`. -/
def occBuilding (m : List Tile) (i : Int) : Option Nat :=
  (getTile? m i).bind (fun t => t.buildingId)

/-- Coordinates lie on the `w × h` grid. -/
def inBoundsPos (w h : Nat) (x y : Int) : Prop :=
  0 ≤ x ∧ x < (w : Int) ∧ 0 ≤ y ∧ y < (h : Int)

instance (w h : Nat) (x y : Int) : Decidable (inBoundsPos w h x y) := by
  unfold inBoundsPos; infer_instance

instance decidableForallEqSome (o : Option Nat) (P : Nat → Prop)
    [dp : ∀ n, Decidable (P n)] : Decidable (∀ n, o = some n → P n) :=
  match o with
  | none => isTrue (fun _ h => nomatch h)
  | some k =>
      decidable_of_iff (P k)
        (Iff.intro (fun hp n hn => Option.some.inj hn ▸ hp)
          (fun h => h k rfl))

/-- Unit-side occupancy consistency of a map/unit-list pair: units occupy
pairwise distinct ids, sit inside the grid, every unit's tile refers back to
it, and every tile reference resolves to a unit at that tile. -/
def UOcc (w h : Nat) (m : List Tile) (us : List UnitDoc) : Prop :=
  m.length = w * h ∧
  (us.map (fun u => u.id)).Nodup ∧
  (∀ u ∈ us, inBoundsPos w h u.x u.y ∧
    occUnit m (coordToIndex w u.x u.y) = some u.id) ∧
  (∀ i : Nat, i < m.length → ∀ uid, occUnit m (i : Int) = some uid →
    ∃ u ∈ us, u.id = uid ∧ coordToIndex w u.x u.y = (i : Int))

/-- Building-side occupancy consistency. -/
def BOcc (w h : Nat) (m : List Tile) (bs : List BuildingDoc) : Prop :=
  m.length = w * h ∧
  (bs.map (fun b => b.id)).Nodup ∧
  (∀ b ∈ bs, inBoundsPos w h b.x b.y ∧
    occBuilding m (coordToIndex w b.x b.y) = some b.id) ∧
  (∀ i : Nat, i < m.length → ∀ bid, occBuilding m (i : Int) = some bid →
    ∃ b ∈ bs, b.id = bid ∧ coordToIndex w b.x b.y = (i : Int))

/-- The engine invariant: both occupancy sides, plus freshness of the id
allocator. -/
def Inv (s : GameState) : Prop :=
  UOcc s.width s.height s.map s.units ∧
  BOcc s.width s.height s.map s.buildings ∧
  (∀ u ∈ s.units, u.id < s.nextId) ∧
  (∀ b ∈ s.buildings, b.id < s.nextId)

/-- The claim's phrasing, unit side: a tile stores `some uid` exactly when
exactly one unit record with that id has the tile's coordinates as its
position. -/
def tileUnitIff (s : GameState) : Prop :=
  ∀ i : Nat, i < s.map.length → ∀ uid,
    occUnit s.map (i : Int) = some uid ↔
      (s.units.filter (fun u => u.id == uid &&
        u.x == ((i % s.width : Nat) : Int) &&
        u.y == ((i / s.width : Nat) : Int))).length = 1

/-- The claim's phrasing, building side. -/
def tileBuildingIff (s : GameState) : Prop :=
  ∀ i : Nat, i < s.map.length → ∀ bid,
    occBuilding s.map (i : Int) = some bid ↔
      (s.buildings.filter (fun b => b.id == bid &&
        b.x == ((i % s.width : Nat) : Int) &&
        b.y == ((i / s.width : Nat) : Int))).length = 1

/-! ## Support definitions for the other claims -/

/-- Per-player componentwise non-negativity of every resource pool. -/
def resNonneg (s : GameState) : Prop :=
  ∀ p ∈ s.players, 0 ≤ p.resources.biomass ∧ 0 ≤ p.resources.ore ∧
    0 ≤ p.resources.flux

/-- The initial resource pool of a freshly started player: the starting
resources plus the faction bonus (`joinGame` then `startGame`). -/
def initialResources (fd : FactionDef) : ResourcePool :=
  addResources STARTING_RESOURCES fd.startingBonus

/-- Componentwise non-negativity of one pool. -/
def poolNonneg (r : ResourcePool) : Prop :=
  0 ≤ r.biomass ∧ 0 ≤ r.ore ∧ 0 ≤ r.flux

/-- Componentwise non-negativity of a delta. -/
def costNonneg (c : Cost) : Prop :=
  0 ≤ c.biomass ∧ 0 ≤ c.ore ∧ 0 ≤ c.flux

/-- Tile-wise visibility growth between two maps of equal length. -/
def visMonotone (m m' : List Tile) : Prop :=
  m'.length = m.length ∧
  ∀ (i : Int) (t : Tile), getTile? m i = some t →
    ∃ t', getTile? m' i = some t' ∧ ∀ p ∈ t.visibility, p ∈ t'.visibility

/-- Extension of visibility only: lengths equal and every tile keeps its
type, resource and occupants while its visibility may grow. -/
def visExt (m m' : List Tile) : Prop :=
  m'.length = m.length ∧
  ∀ (i : Int) (t : Tile), getTile? m i = some t →
    ∃ t', getTile? m' i = some t' ∧ t'.type = t.type ∧
      t'.resource = t.resource ∧ t'.unitId = t.unitId ∧
      t'.buildingId = t.buildingId ∧ ∀ p ∈ t.visibility, p ∈ t'.visibility

/-- Membership of tile index `i` in the wrapped-x / clamped-y square of
radius `r` around `(x, y)`. -/
def inRevealSquare (w h : Nat) (x y : Int) (r : Nat) (i : Int) : Prop :=
  ∃ dy dx : Int, -(r : Int) ≤ dy ∧ dy ≤ (r : Int) ∧ -(r : Int) ≤ dx ∧
    dx ≤ (r : Int) ∧ i = coordToIndex w (wrapX (x + dx) w) (clampY (y + dy) h)

/-- The wrapped/clamped destination of a move command. -/
def moveTarget (s : GameState) (u : UnitDoc) (dir : Direction) : Int × Int :=
  ((wrapX (u.x + (directionToDelta dir).1) s.width),
   (clampY (u.y + (directionToDelta dir).2) s.height))

/-- Modelled from the spec: "advance activePlayerIndex to the next index
modulo player count, skipping any player marked not-alive (search forward
until an alive player is found, or fail if none remain)". The candidate
indices from the next index onward, cyclically; the result is the first one
whose player document exists and is marked alive. -/
def specNextAliveIndex (s : GameState) : Option Nat :=
  let n := s.playerOrder.length
  if n = 0 then none
  else
    ((List.range n).map (fun k => ((s.activePlayerIndex + 1) % n + k) % n)).find?
      (fun j =>
        match s.playerOrder[j]? with
        | some pid =>
            match getPlayer? s pid with
            | some p => p.isAlive
            | none => false
        | none => false)

/-- The per-command preservation payload: the occupancy invariant and
resource non-negativity are preserved, and visibility only grows. -/
def StepOK (s s' : GameState) : Prop :=
  (Inv s → Inv s') ∧ (resNonneg s → resNonneg s') ∧
  visMonotone s.map s'.map

instance (s : GameState) : Decidable (Inv s) := by
  unfold Inv UOcc BOcc
  infer_instance

instance (r : ResourcePool) : Decidable (poolNonneg r) := by
  unfold poolNonneg
  infer_instance

instance (s : GameState) : Decidable (resNonneg s) := by
  unfold resNonneg
  infer_instance

/-! ## The claim-level spend predicate and concrete scenarios -/

/-- The atomic-spend shape shared by the four resource-spending commands:
the acting player was fetched, the cost passed the affordability guard, and
exactly that player's pool lost every cost component at once while every
other pool is untouched. -/
def SpendAtomic (s : GameState) (playerId : Nat) (cost : Cost)
    (s' : GameState) : Prop :=
  ∃ player, getPlayerOrThrow s playerId = .ok player ∧
    canAfford player.resources cost = true ∧
    s'.players.map (fun p => (p.id, p.resources)) =
      s.players.map (fun p => (p.id,
        if p.id = player.id then
          (⟨player.resources.biomass - cost.biomass,
            player.resources.ore - cost.ore,
            player.resources.flux - cost.flux⟩ : ResourcePool)
        else p.resources))

/-- A plain unexplored surface tile. -/
def surfaceTile : Tile := { type := "surface" }

/-- A 3 × 2 world: one settler of player 1 at the origin, a ruin at
`(2, 0)`, magma at `(2, 1)`. -/
def tMap : List Tile :=
  [ { type := "surface", unitId := some 10, visibility := [1] },
    { type := "surface", visibility := [1] },
    { type := "ruins" },
    surfaceTile,
    surfaceTile,
    { type := "magma" } ]

def tSettler : UnitDoc :=
  { id := 10, playerId := 1, type := "settler", x := 0, y := 0, hp := 10,
    movesLeft := 2, maxMoves := 2 }

def tState : GameState :=
  { status := "active", turn := 1, activePlayerIndex := 0,
    width := 3, height := 2, map := tMap, playerOrder := [1],
    players := [ { id := 1, faction := "united_terran",
                   resources := ⟨10, 30, 5⟩,
                   techUnlocked := ["planetary_survival"],
                   isAlive := true } ],
    units := [tSettler], buildings := [], nextId := 20 }

/-- Adjacent marines of two players, ready to trade blows. -/
def aState : GameState :=
  { status := "active", turn := 1, activePlayerIndex := 0,
    width := 3, height := 2,
    map := [ { type := "surface", unitId := some 10 },
             { type := "surface", unitId := some 11 },
             surfaceTile, surfaceTile, surfaceTile, surfaceTile ],
    playerOrder := [1, 2],
    players := [ { id := 1, faction := "united_terran",
                   resources := ⟨10, 10, 5⟩, techUnlocked := [],
                   isAlive := true },
                 { id := 2, faction := "xeno_hive",
                   resources := ⟨10, 10, 5⟩, techUnlocked := [],
                   isAlive := true } ],
    units := [ { id := 10, playerId := 1, type := "marine", x := 0, y := 0,
                 hp := 12, movesLeft := 2, maxMoves := 2 },
               { id := 11, playerId := 2, type := "marine", x := 1, y := 0,
                 hp := 12, movesLeft := 2, maxMoves := 2 } ],
    buildings := [], nextId := 20 }

/-- A player with 10 ore facing a tank that costs 25 ore: the spec's own
rejection example. The factory is completed and the tech is unlocked, so
the affordability guard is the rejecting one. -/
def c3State : GameState :=
  { status := "active", turn := 1, activePlayerIndex := 0,
    width := 3, height := 2,
    map := [ surfaceTile,
             { type := "surface", buildingId := some 30 },
             surfaceTile, surfaceTile, surfaceTile, surfaceTile ],
    playerOrder := [1],
    players := [ { id := 1, faction := "united_terran",
                   resources := ⟨10, 10, 5⟩,
                   techUnlocked := ["ballistics"], isAlive := true } ],
    units := [],
    buildings := [ { id := 30, playerId := 1, type := "factory", x := 1,
                     y := 0, hp := 25 } ],
    nextId := 40 }

/-- A barracks and a mine, both still under construction
(`isConstructing = some true`), owned by a player whose tech and resources
would otherwise allow spawning a marine from the barracks. -/
def c4State : GameState :=
  { status := "active", turn := 1, activePlayerIndex := 0,
    width := 3, height := 2,
    map := [ surfaceTile,
             { type := "surface", buildingId := some 30 },
             surfaceTile,
             { type := "surface", buildingId := some 31 },
             surfaceTile, surfaceTile ],
    playerOrder := [1],
    players := [ { id := 1, faction := "united_terran",
                   resources := ⟨20, 20, 5⟩,
                   techUnlocked := ["militarization"], isAlive := true } ],
    units := [],
    buildings := [ { id := 30, playerId := 1, type := "barracks", x := 1,
                     y := 0, hp := 0, isConstructing := some true },
                   { id := 31, playerId := 1, type := "mine", x := 0,
                     y := 1, hp := 0, isConstructing := some true } ],
    nextId := 40 }

def c4Player : PlayerDoc :=
  { id := 1, faction := "united_terran", resources := ⟨20, 20, 5⟩,
    techUnlocked := ["militarization"], isAlive := true }

/-- A 7 × 1 strip under an active dust storm: the settler (vision 3) at the
origin is about to step right. Under the spec's weather-modified radius
(3 − 1 = 2) the tile at `x = 4` would stay hidden. -/
def c6State : GameState :=
  { status := "active", turn := 1, activePlayerIndex := 0,
    width := 7, height := 1,
    map := [ { type := "surface", unitId := some 10, visibility := [1] },
             surfaceTile, surfaceTile, surfaceTile, surfaceTile,
             surfaceTile, surfaceTile ],
    playerOrder := [1],
    activeWeather := some { type := "dust_storm", turnsRemaining := 3 },
    players := [ { id := 1, faction := "united_terran",
                   resources := ⟨10, 10, 5⟩, techUnlocked := [],
                   isAlive := true } ],
    units := [ { id := 10, playerId := 1, type := "settler", x := 0, y := 0,
                 hp := 10, movesLeft := 2, maxMoves := 2 } ],
    buildings := [], nextId := 20 }

/-- Three players in rotation. Player 2's only asset is the city at
`(1, 0)`; player 1's tank is about to crush it, leaving player 2 with no
units and no buildings but still flagged alive. -/
def c7State : GameState :=
  { status := "active", turn := 1, activePlayerIndex := 0,
    width := 3, height := 2,
    map := [ { type := "surface", unitId := some 10 },
             { type := "city", buildingId := some 30 },
             surfaceTile, surfaceTile, surfaceTile,
             { type := "surface", unitId := some 11 } ],
    playerOrder := [1, 2, 3],
    players := [ { id := 1, faction := "united_terran",
                   resources := ⟨10, 10, 5⟩, techUnlocked := [],
                   isAlive := true },
                 { id := 2, faction := "united_terran",
                   resources := ⟨10, 10, 5⟩, techUnlocked := [],
                   isAlive := true },
                 { id := 3, faction := "united_terran",
                   resources := ⟨10, 10, 5⟩, techUnlocked := [],
                   isAlive := true } ],
    units := [ { id := 10, playerId := 1, type := "tank", x := 0, y := 0,
                 hp := 40, movesLeft := 2, maxMoves := 2 },
               { id := 11, playerId := 3, type := "marine", x := 2, y := 1,
                 hp := 15, movesLeft := 2, maxMoves := 2 } ],
    buildings := [ { id := 30, playerId := 2, type := "city", x := 1,
                     y := 0, hp := 25 } ],
    nextId := 40 }

/-- The settler roster row, for driving `moveFinish` directly. -/
def settlerDef : UnitDef :=
  { name := "Lander", category := "civilian", hp := 10, maxMoves := 2,
    atk := 0, defense := 0, range := 1, vision := 3, cost := {},
    abilities := ["deploy_city"] }

/-- The state after one move command on the settler world. -/
def c1Result : GameState :=
  match runCommands [Command.move 10 1 Direction.R 0] tState with
  | .ok s => s
  | .error _ => tState

/-- The result of walking the settler onto the ruin with roll 3: the map
reveal fires, the ruin reverts to surface, the state is untouched. -/
def c5Out : GameState × List Tile :=
  (tState,
   [ { type := "surface", unitId := some 10, visibility := [1] },
     { type := "surface", visibility := [1] },
     { type := "surface", visibility := [1] },
     { type := "surface", visibility := [1] },
     { type := "surface", visibility := [1] },
     { type := "magma", visibility := [1] } ])

/-- The state `moveFinish` produces for the settler stepping to `(1, 0)`. -/
def c6WOut : GameState :=
  match moveFinish tState tSettler settlerDef 1 1 0 1 tMap with
  | .ok s => s
  | .error _ => tState

/-- The state the buggy constructing-barracks spawn produces. -/
def c4Out : GameState :=
  match spawnUnit c4State 1 30 "marine" with
  | .ok s => s
  | .error _ => c4State

/-- The state after player 1 ends the turn in the settler world. -/
def c7Out : GameState :=
  match endTurn tState 1 ⟨1, 0, 0⟩ with
  | .ok s => s
  | .error _ => tState

/-- The state after the tank crushes player 2's last city and player 1
ends the turn. -/
def c7CEOut : GameState :=
  match runCommands [Command.move 10 1 Direction.R 0,
      Command.endTurn 1 ⟨1, 0, 0⟩] c7State with
  | .ok s => s
  | .error _ => c7State

/-- The outcome of the marine-versus-marine attack. -/
def c8Out : GameState × AttackResult :=
  match attack aState 10 1 1 0 with
  | .ok r => r
  | .error _ => (aState, ⟨0, 0, false, false⟩)

/-! # Lemmas and theorems -/

/-! ## Grid arithmetic -/

theorem wrapX_eq_emod (x w : Int) (hw : 0 < w) : wrapX x w = x % w := by
  unfold wrapX
  rw [if_neg (by omega)]
  have hx : x % w = (x.tmod w) % w := by
    conv_lhs => rw [← Int.tdiv_add_tmod x w]
    rw [Int.add_comm, Int.add_mul_emod_self_left]
  have hub : x.tmod w < w := Int.tmod_lt_of_pos x hw
  have hlb : -w < x.tmod w := by
    rcases le_or_lt 0 x with hx0 | hx0
    · have := Int.tmod_nonneg w hx0
      omega
    · have h1 := Int.tdiv_add_tmod x w
      have h2 := Int.tdiv_add_tmod (-x) w
      have h3 : w * ((-x).tdiv w) = -(w * (x.tdiv w)) := by
        rw [Int.neg_tdiv, mul_neg]
      have h4 : (-x).tmod w < w := Int.tmod_lt_of_pos (-x) hw
      omega
  by_cases hm : x.tmod w < 0
  · rw [if_pos hm, hx]
    have hshift : (x.tmod w) % w = (x.tmod w + w) % w := by
      conv_lhs => rw [← Int.add_mul_emod_self_left (x.tmod w) w 1]
      ring_nf
    rw [hshift, Int.emod_eq_of_lt (by omega) (by omega)]
  · rw [if_neg hm, hx, Int.emod_eq_of_lt (by omega) hub]

theorem wrapX_nonneg (x w : Int) : 0 ≤ wrapX x w := by
  rcases le_or_lt w 0 with h | h
  · unfold wrapX
    rw [if_pos h]
  · rw [wrapX_eq_emod x w h]
    exact Int.emod_nonneg x (by omega)

theorem wrapX_lt (x w : Int) (hw : 0 < w) : wrapX x w < w := by
  rw [wrapX_eq_emod x w hw]
  exact Int.emod_lt_of_pos x hw

theorem clampY_nonneg (y h : Int) : 0 ≤ clampY y h := by
  unfold clampY
  split
  · omega
  split
  · omega
  split <;> omega

theorem clampY_lt (y h : Int) (hh : 0 < h) : clampY y h < h := by
  unfold clampY
  rw [if_neg (by omega)]
  split
  · omega
  split <;> omega

/-- C9: for every integer `x` and width `> 0`, `wrapX(x, width)` lies in
`[0, width)` and is invariant under adding any integer multiple of the
width. -/
theorem wrapX_wrap_invariant (x width : Int) (hw : 0 < width) :
    (0 ≤ wrapX x width ∧ wrapX x width < width) ∧
    ∀ k : Int, wrapX (x + k * width) width = wrapX x width := by
  refine ⟨⟨wrapX_nonneg x width, wrapX_lt x width hw⟩, fun k => ?_⟩
  rw [wrapX_eq_emod _ _ hw, wrapX_eq_emod _ _ hw, Int.add_mul_emod_self]

/-- Witness for C9 at `x = -7`, `width = 5`, `k = 3`. -/
theorem wrapX_wrap_invariant_witness :
    (0 : Int) < 5 ∧ (0 ≤ wrapX (-7) 5 ∧ wrapX (-7) 5 < 5) ∧
    wrapX (-7 + 3 * 5) 5 = wrapX (-7) 5 :=
  ⟨by decide,
   (wrapX_wrap_invariant (-7) 5 (by decide)).1,
   (wrapX_wrap_invariant (-7) 5 (by decide)).2 3⟩

/-! ## Tile access lemmas -/

theorem getTile?_eq_some_iff (m : List Tile) (i : Int) (t : Tile) :
    getTile? m i = some t ↔ 0 ≤ i ∧ i.toNat < m.length ∧ m[i.toNat]? = some t := by
  unfold getTile?
  split <;> rename_i hi
  · constructor
    · intro h
      exact ⟨hi, (List.getElem?_eq_some_iff.mp h).1, h⟩
    · intro h
      exact h.2.2
  · constructor
    · intro h
      exact absurd h (by simp)
    · intro h
      exact absurd h.1 hi

theorem getTile?_isSome_iff (m : List Tile) (i : Int) :
    (getTile? m i).isSome = true ↔ 0 ≤ i ∧ i.toNat < m.length := by
  unfold getTile?
  split <;> rename_i hi
  · rw [Option.isSome_iff_exists]
    constructor
    · rintro ⟨a, ha⟩
      exact ⟨hi, (List.getElem?_eq_some_iff.mp ha).1⟩
    · intro h
      exact ⟨_, List.getElem?_eq_some_iff.mpr ⟨h.2, rfl⟩⟩
  · constructor
    · intro h
      exact absurd h (by simp)
    · intro h
      exact absurd h.1 hi

theorem getTile?_eq_none_iff (m : List Tile) (i : Int) :
    getTile? m i = none ↔ ¬ (0 ≤ i ∧ i.toNat < m.length) := by
  constructor
  · intro h hb
    have := (getTile?_isSome_iff m i).mpr hb
    rw [h] at this
    exact absurd this (by simp)
  · intro hb
    cases h : getTile? m i with
    | none => rfl
    | some t =>
        have := (getTile?_isSome_iff m i).mp (by rw [h]; rfl)
        exact absurd this hb

theorem length_setTile (m : List Tile) (i : Int) (t : Tile) :
    (setTile m i t).length = m.length := by
  unfold setTile
  split
  · exact List.length_set m i.toNat t
  · rfl

theorem length_modTile (m : List Tile) (i : Int) (f : Tile → Tile) :
    (modTile m i f).length = m.length := by
  unfold modTile
  split
  · exact length_setTile m i _
  · rfl

theorem getTile?_setTile_of_some (m : List Tile) (i : Int) (t0 t : Tile)
    (h : getTile? m i = some t0) (j : Int) :
    getTile? (setTile m i t) j = if j = i then some t else getTile? m j := by
  obtain ⟨hi0, hilen, -⟩ := (getTile?_eq_some_iff m i t0).mp h
  unfold setTile
  rw [if_pos hi0]
  unfold getTile?
  by_cases hj : 0 ≤ j
  · rw [if_pos hj, List.getElem?_set]
    by_cases hij : j = i
    · subst hij
      simp [hilen]
    · rw [if_neg (by omega), if_neg hij, if_pos hj]
  · rw [if_neg hj, if_neg (by omega), if_neg hj]

theorem getTile?_modTile (m : List Tile) (i : Int) (f : Tile → Tile)
    (j : Int) :
    getTile? (modTile m i f) j =
      if j = i then (getTile? m i).map f else getTile? m j := by
  unfold modTile
  cases h : getTile? m i with
  | none =>
      by_cases hij : j = i
      · rw [if_pos hij, hij, h]
        rfl
      · rw [if_neg hij]
  | some t =>
      rw [getTile?_setTile_of_some m i t (f t) h j]
      rfl

theorem occUnit_modTile_preserve (m : List Tile) (i : Int) (f : Tile → Tile)
    (hf : ∀ t, (f t).unitId = t.unitId) (j : Int) :
    occUnit (modTile m i f) j = occUnit m j := by
  unfold occUnit
  rw [getTile?_modTile]
  by_cases hij : j = i
  · subst hij
    rw [if_pos rfl]
    cases getTile? m j with
    | none => rfl
    | some t => simp [hf]
  · rw [if_neg hij]

theorem occBuilding_modTile_preserve (m : List Tile) (i : Int)
    (f : Tile → Tile) (hf : ∀ t, (f t).buildingId = t.buildingId) (j : Int) :
    occBuilding (modTile m i f) j = occBuilding m j := by
  unfold occBuilding
  rw [getTile?_modTile]
  by_cases hij : j = i
  · subst hij
    rw [if_pos rfl]
    cases getTile? m j with
    | none => rfl
    | some t => simp [hf]
  · rw [if_neg hij]

theorem occUnit_modTile_clear (m : List Tile) (i : Int) (f : Tile → Tile)
    (hf : ∀ t, (f t).unitId = none) (j : Int) :
    occUnit (modTile m i f) j = if j = i then none else occUnit m j := by
  unfold occUnit
  rw [getTile?_modTile]
  by_cases hij : j = i
  · rw [if_pos hij, if_pos hij]
    cases getTile? m i with
    | none => rfl
    | some t => simp [hf]
  · rw [if_neg hij, if_neg hij]

theorem occUnit_modTile_set (m : List Tile) (i : Int) (f : Tile → Tile)
    (v : Nat) (hf : ∀ t, (f t).unitId = some v)
    (hsome : (getTile? m i).isSome = true) (j : Int) :
    occUnit (modTile m i f) j = if j = i then some v else occUnit m j := by
  unfold occUnit
  rw [getTile?_modTile]
  by_cases hij : j = i
  · rw [if_pos hij, if_pos hij]
    cases h : getTile? m i with
    | none => rw [h] at hsome; exact absurd hsome (by simp)
    | some t => simp [hf]
  · rw [if_neg hij, if_neg hij]

theorem occBuilding_modTile_clear (m : List Tile) (i : Int)
    (f : Tile → Tile) (hf : ∀ t, (f t).buildingId = none) (j : Int) :
    occBuilding (modTile m i f) j = if j = i then none else occBuilding m j := by
  unfold occBuilding
  rw [getTile?_modTile]
  by_cases hij : j = i
  · rw [if_pos hij, if_pos hij]
    cases getTile? m i with
    | none => rfl
    | some t => simp [hf]
  · rw [if_neg hij, if_neg hij]

theorem occBuilding_modTile_set (m : List Tile) (i : Int) (f : Tile → Tile)
    (v : Nat) (hf : ∀ t, (f t).buildingId = some v)
    (hsome : (getTile? m i).isSome = true) (j : Int) :
    occBuilding (modTile m i f) j = if j = i then some v else occBuilding m j := by
  unfold occBuilding
  rw [getTile?_modTile]
  by_cases hij : j = i
  · rw [if_pos hij, if_pos hij]
    cases h : getTile? m i with
    | none => rw [h] at hsome; exact absurd hsome (by simp)
    | some t => simp [hf]
  · rw [if_neg hij, if_neg hij]

theorem occUnit_isSome_bounds (m : List Tile) (i : Int) (uid : Nat)
    (h : occUnit m i = some uid) : 0 ≤ i ∧ i.toNat < m.length := by
  unfold occUnit at h
  cases hg : getTile? m i with
  | none => rw [hg] at h; exact absurd h (by simp)
  | some t =>
      obtain ⟨h1, h2, -⟩ := (getTile?_eq_some_iff m i t).mp hg
      exact ⟨h1, h2⟩

theorem occBuilding_isSome_bounds (m : List Tile) (i : Int) (bid : Nat)
    (h : occBuilding m i = some bid) : 0 ≤ i ∧ i.toNat < m.length := by
  unfold occBuilding at h
  cases hg : getTile? m i with
  | none => rw [hg] at h; exact absurd h (by simp)
  | some t =>
      obtain ⟨h1, h2, -⟩ := (getTile?_eq_some_iff m i t).mp hg
      exact ⟨h1, h2⟩

/-! ## Visibility relations -/

theorem visExt_refl (m : List Tile) : visExt m m :=
  ⟨rfl, fun _ t ht => ⟨t, ht, rfl, rfl, rfl, rfl, fun _ hp => hp⟩⟩

theorem visExt_trans {m1 m2 m3 : List Tile} (h12 : visExt m1 m2)
    (h23 : visExt m2 m3) : visExt m1 m3 := by
  obtain ⟨hl12, ht12⟩ := h12
  obtain ⟨hl23, ht23⟩ := h23
  refine ⟨hl23.trans hl12, fun i t ht => ?_⟩
  obtain ⟨t2, ht2, hty2, hr2, hu2, hb2, hv2⟩ := ht12 i t ht
  obtain ⟨t3, ht3, hty3, hr3, hu3, hb3, hv3⟩ := ht23 i t2 ht2
  exact ⟨t3, ht3, hty3.trans hty2, hr3.trans hr2, hu3.trans hu2,
    hb3.trans hb2, fun p hp => hv3 p (hv2 p hp)⟩

theorem visExt_getTile?_none {m m' : List Tile} (hv : visExt m m') (i : Int)
    (h : getTile? m i = none) : getTile? m' i = none := by
  rw [getTile?_eq_none_iff] at h ⊢
  rw [hv.1]
  exact h

theorem visExt_occUnit {m m' : List Tile} (hv : visExt m m') (i : Int) :
    occUnit m' i = occUnit m i := by
  unfold occUnit
  cases h : getTile? m i with
  | none => rw [visExt_getTile?_none hv i h]
  | some t =>
      obtain ⟨t', ht', _, _, hu, _, _⟩ := hv.2 i t h
      rw [ht']
      simp [hu]

theorem visExt_occBuilding {m m' : List Tile} (hv : visExt m m') (i : Int) :
    occBuilding m' i = occBuilding m i := by
  unfold occBuilding
  cases h : getTile? m i with
  | none => rw [visExt_getTile?_none hv i h]
  | some t =>
      obtain ⟨t', ht', _, _, _, hb, _⟩ := hv.2 i t h
      rw [ht']
      simp [hb]

theorem visMonotone_refl (m : List Tile) : visMonotone m m :=
  ⟨rfl, fun _ t ht => ⟨t, ht, fun _ hp => hp⟩⟩

theorem visMonotone_trans {m1 m2 m3 : List Tile} (h12 : visMonotone m1 m2)
    (h23 : visMonotone m2 m3) : visMonotone m1 m3 := by
  refine ⟨h23.1.trans h12.1, fun i t ht => ?_⟩
  obtain ⟨t2, ht2, hv2⟩ := h12.2 i t ht
  obtain ⟨t3, ht3, hv3⟩ := h23.2 i t2 ht2
  exact ⟨t3, ht3, fun p hp => hv3 p (hv2 p hp)⟩

theorem visMonotone_of_visExt {m m' : List Tile} (hv : visExt m m') :
    visMonotone m m' :=
  ⟨hv.1, fun i t ht => by
    obtain ⟨t', ht', _, _, _, _, hvis⟩ := hv.2 i t ht
    exact ⟨t', ht', hvis⟩⟩

theorem visMonotone_modTile (m : List Tile) (i : Int) (f : Tile → Tile)
    (hf : ∀ t, ∀ p ∈ t.visibility, p ∈ (f t).visibility) :
    visMonotone m (modTile m i f) := by
  refine ⟨length_modTile m i f, fun j t ht => ?_⟩
  rw [getTile?_modTile]
  by_cases hij : j = i
  · subst hij
    rw [if_pos rfl, ht]
    exact ⟨f t, rfl, hf t⟩
  · rw [if_neg hij]
    exact ⟨t, ht, fun _ hp => hp⟩

/-- `modTile` with a tile function that leaves `visibility` untouched is a
`visMonotone` step. -/
theorem visMonotone_modTile_keep (m : List Tile) (i : Int) (f : Tile → Tile)
    (hf : ∀ t, (f t).visibility = t.visibility) :
    visMonotone m (modTile m i f) :=
  visMonotone_modTile m i f (fun t p hp => by rw [hf]; exact hp)

/-! ## `revealAround` lemmas -/

theorem revealStep_visExt (width height playerId : Nat) (x y : Int)
    (m : List Tile) (d : Int × Int) (m' : List Tile)
    (h : revealStep width height playerId x y m d = .ok m') :
    visExt m m' := by
  unfold revealStep at h
  split at h
  · exact absurd h (by simp)
  · rename_i tile hg
    split at h
    · cases h
      exact visExt_refl m
    · cases h
      refine ⟨length_setTile m (revealIdx width height x y d) _,
        fun j t ht => ?_⟩
      rw [getTile?_setTile_of_some m (revealIdx width height x y d) tile _ hg j]
      by_cases hij : j = revealIdx width height x y d
      · rw [if_pos hij]
        rw [hij, hg] at ht
        cases ht
        exact ⟨_, rfl, rfl, rfl, rfl, rfl,
          fun p hp => List.mem_append_left _ hp⟩
      · rw [if_neg hij]
        exact ⟨t, ht, rfl, rfl, rfl, rfl, fun _ hp => hp⟩

theorem foldlM_revealStep_visExt (width height playerId : Nat) (x y : Int) :
    ∀ (L : List (Int × Int)) (m m' : List Tile),
      List.foldlM (revealStep width height playerId x y) m L = .ok m' →
      visExt m m'
  | [], m, m', h => by
      cases h
      exact visExt_refl m
  | d :: L, m, m', h => by
      rw [List.foldlM_cons] at h
      cases hs : revealStep width height playerId x y m d with
      | error e =>
          rw [hs] at h
          exact Except.noConfusion h
      | ok m1 =>
          rw [hs] at h
          have h1 := revealStep_visExt width height playerId x y m d m1 hs
          have h2 := foldlM_revealStep_visExt width height playerId x y L m1 m' h
          exact visExt_trans h1 h2

theorem revealAround_visExt (width height : Nat) (m : List Tile)
    (playerId : Nat) (x y : Int) (radius : Nat)
    (activeWeather : Option Weather) (m' : List Tile)
    (h : revealAround width height m playerId x y radius activeWeather = .ok m') :
    visExt m m' :=
  foldlM_revealStep_visExt width height playerId x y _ m m' h

/-! ## Coordinate index lemmas -/

theorem coordToIndex_nonneg {w h : Nat} {x y : Int}
    (hb : inBoundsPos w h x y) : 0 ≤ coordToIndex w x y := by
  obtain ⟨hx0, _, hy0, _⟩ := hb
  unfold coordToIndex
  have : 0 ≤ y * (w : Int) := mul_nonneg hy0 (by positivity)
  omega

theorem coordToIndex_lt {w h : Nat} {x y : Int} (hb : inBoundsPos w h x y) :
    coordToIndex w x y < (w : Int) * h := by
  obtain ⟨hx0, hxw, hy0, hyh⟩ := hb
  unfold coordToIndex
  have h1 : y * (w : Int) ≤ (h - 1) * w := by
    apply mul_le_mul_of_nonneg_right (by omega) (by positivity)
  have h2 : ((h : Int) - 1) * w = (w : Int) * h - w := by ring
  omega

theorem coordToIndex_toNat_lt {w h : Nat} {x y : Int}
    (hb : inBoundsPos w h x y) : (coordToIndex w x y).toNat < w * h := by
  have h1 := coordToIndex_nonneg hb
  have h2 := coordToIndex_lt hb
  have h3 : ((w * h : Nat) : Int) = (w : Int) * h := by push_cast; ring
  omega

theorem coordToIndex_inj {w h : Nat} {x1 y1 x2 y2 : Int}
    (hb1 : inBoundsPos w h x1 y1) (hb2 : inBoundsPos w h x2 y2)
    (he : coordToIndex w x1 y1 = coordToIndex w x2 y2) :
    x1 = x2 ∧ y1 = y2 := by
  obtain ⟨hx10, hx1w, hy10, hy1h⟩ := hb1
  obtain ⟨hx20, hx2w, hy20, hy2h⟩ := hb2
  unfold coordToIndex at he
  by_cases hy : y1 = y2
  · subst hy
    exact ⟨by omega, rfl⟩
  · exfalso
    have hmul : (y1 - y2) * w = x2 - x1 := by
      have : y1 * (w : Int) - y2 * w = (y1 - y2) * w := by ring
      omega
    rcases lt_or_gt_of_ne hy with hlt | hgt
    · have : (y1 - y2) * w ≤ (-1) * w :=
        mul_le_mul_of_nonneg_right (by omega) (by positivity)
      omega
    · have : (1 : Int) * w ≤ (y1 - y2) * w :=
        mul_le_mul_of_nonneg_right (by omega) (by positivity)
      omega

/-- Decode the coordinates of a valid tile index. -/
theorem coordToIndex_decode {w h : Nat} {x y : Int} {i : Nat}
    (hb : inBoundsPos w h x y) (he : coordToIndex w x y = (i : Int)) :
    x = ((i % w : Nat) : Int) ∧ y = ((i / w : Nat) : Int) := by
  obtain ⟨hx0, hxw, hy0, hyh⟩ := hb
  have hxn : ((x.toNat : Nat) : Int) = x := Int.toNat_of_nonneg hx0
  have hyn : ((y.toNat : Nat) : Int) = y := Int.toNat_of_nonneg hy0
  have hnat : x.toNat + y.toNat * w = i := by
    have : ((x.toNat + y.toNat * w : Nat) : Int) = (i : Int) := by
      push_cast
      rw [hxn, hyn]
      unfold coordToIndex at he
      omega
    exact_mod_cast this
  have hxlt : x.toNat < w := by omega
  constructor
  · rw [← hnat, Nat.add_mul_mod_self_right, Nat.mod_eq_of_lt hxlt, hxn]
  · rw [← hnat, Nat.add_mul_div_right _ _ (by omega : 0 < w),
      Nat.div_eq_of_lt hxlt, Nat.zero_add, hyn]

/-- Encode: a unit at decoded coordinates sits at the tile index. -/
theorem coordToIndex_encode {w h : Nat} {x y : Int} {i : Nat}
    (hb : inBoundsPos w h x y) (hi : i < w * h)
    (hx : x = ((i % w : Nat) : Int)) (hy : y = ((i / w : Nat) : Int)) :
    coordToIndex w x y = (i : Int) := by
  have hw : 0 < w := by
    rcases Nat.eq_zero_or_pos w with h0 | h0
    · subst h0
      omega
    · exact h0
  subst hx
  subst hy
  unfold coordToIndex
  have hnat : i / w * w + i % w = i := by
    have hdm := Nat.div_add_mod i w
    rw [Nat.mul_comm] at hdm
    exact hdm
  exact_mod_cast hnat

/-! ## Occupancy toolkit -/

theorem nodup_map_inj {α β : Type} {f : α → β} {l : List α}
    (h : (l.map f).Nodup) {a b : α} (ha : a ∈ l) (hb : b ∈ l)
    (hf : f a = f b) : a = b :=
  List.inj_on_of_nodup_map h ha hb hf

/-- Transport `UOcc` along an occupancy-and-length-preserving map change. -/
theorem UOcc_mapEq {w h : Nat} {m : List Tile} {us : List UnitDoc}
    (ho : UOcc w h m us) (m' : List Tile) (hlen : m'.length = m.length)
    (hocc : ∀ j : Int, occUnit m' j = occUnit m j) : UOcc w h m' us := by
  obtain ⟨hl, hnd, hpos, hback⟩ := ho
  refine ⟨hlen.trans hl, hnd, fun u hu => ?_, fun i hi uid hocc' => ?_⟩
  · obtain ⟨hb, ho2⟩ := hpos u hu
    refine ⟨hb, ?_⟩
    rw [hocc]
    exact ho2
  · rw [hocc] at hocc'
    exact hback i (hlen ▸ hi) uid hocc'

/-- Transport `UOcc` along a pointwise key-preserving change of the unit
list (patches to hp, moves, flags…). -/
theorem UOcc_listKeys {w h : Nat} {m : List Tile} {us : List UnitDoc}
    (ho : UOcc w h m us) (f : UnitDoc → UnitDoc)
    (hf : ∀ u ∈ us, (f u).id = u.id ∧ (f u).x = u.x ∧ (f u).y = u.y) :
    UOcc w h m (us.map f) := by
  obtain ⟨hl, hnd, hpos, hback⟩ := ho
  refine ⟨hl, ?_, ?_, ?_⟩
  · rw [List.map_map]
    have : us.map (fun u => (f u).id) = us.map (fun u => u.id) :=
      List.map_congr_left (fun u hu => (hf u hu).1)
    simpa [Function.comp] using this ▸ hnd
  · intro v hv
    obtain ⟨u, hu, rfl⟩ := List.mem_map.mp hv
    obtain ⟨h1, h2, h3⟩ := hf u hu
    obtain ⟨hb, ho⟩ := hpos u hu
    rw [h1, h2, h3]
    exact ⟨hb, ho⟩
  · intro i hi uid hocc'
    obtain ⟨u, hu, hid, hidx⟩ := hback i hi uid hocc'
    obtain ⟨h1, h2, h3⟩ := hf u hu
    exact ⟨f u, List.mem_map_of_mem f hu, h1.trans hid, by rw [h2, h3]; exact hidx⟩

/-- The conditional patch of one unit's non-positional fields. -/
theorem UOcc_patch {w h : Nat} {m : List Tile} {us : List UnitDoc}
    (ho : UOcc w h m us) (uid : Nat) (g : UnitDoc → UnitDoc)
    (hg : ∀ u, (g u).id = u.id ∧ (g u).x = u.x ∧ (g u).y = u.y) :
    UOcc w h m (us.map (fun u => if u.id = uid then g u else u)) :=
  UOcc_listKeys ho _ (fun u _ => by
    by_cases hi : u.id = uid
    · rw [if_pos hi]
      exact hg u
    · rw [if_neg hi]
      exact ⟨rfl, rfl, rfl⟩)

/-- Inserting a fresh unit on an empty, in-bounds tile. -/
theorem UOcc_insert {w h : Nat} {m : List Tile} {us : List UnitDoc}
    (ho : UOcc w h m us) (nu : UnitDoc)
    (hfresh : ∀ u ∈ us, ¬ u.id = nu.id)
    (hb : inBoundsPos w h nu.x nu.y)
    (hempty : occUnit m (coordToIndex w nu.x nu.y) = none)
    (m' : List Tile) (hlen : m'.length = m.length)
    (hocc : ∀ j : Int, occUnit m' j =
      if j = coordToIndex w nu.x nu.y then some nu.id else occUnit m j) :
    UOcc w h m' (us ++ [nu]) := by
  obtain ⟨hl, hnd, hpos, hback⟩ := ho
  refine ⟨hlen.trans hl, ?_, ?_, ?_⟩
  · rw [List.map_append, List.nodup_append]
    refine ⟨hnd, List.nodup_singleton _, ?_⟩
    intro a ha hb'
    simp only [List.map_cons, List.map_nil, List.mem_singleton] at hb'
    obtain ⟨u, hu, rfl⟩ := List.mem_map.mp ha
    exact hfresh u hu hb'
  · intro v hv
    rcases List.mem_append.mp hv with hv | hv
    · obtain ⟨hbv, hov⟩ := hpos v hv
      refine ⟨hbv, ?_⟩
      rw [hocc]
      split <;> rename_i hj
      · rw [hj, hempty] at hov
        exact absurd hov (by simp)
      · exact hov
    · rw [List.mem_singleton.mp hv]
      refine ⟨hb, ?_⟩
      rw [hocc, if_pos rfl]
  · intro i hi uid hocc'
    rw [hocc] at hocc'
    by_cases hj : (i : Int) = coordToIndex w nu.x nu.y
    · rw [if_pos hj] at hocc'
      refine ⟨nu, List.mem_append_right _ (List.mem_singleton_self _),
        Option.some.inj hocc', hj.symm⟩
    · rw [if_neg hj] at hocc'
      obtain ⟨u, hu, hid, hidx⟩ := hback i (hlen ▸ hi) uid hocc'
      exact ⟨u, List.mem_append_left _ hu, hid, hidx⟩

/-- Deleting a unit and clearing its tile. -/
theorem UOcc_delete {w h : Nat} {m : List Tile} {us : List UnitDoc}
    (ho : UOcc w h m us) (u : UnitDoc) (hu : u ∈ us)
    (m' : List Tile) (hlen : m'.length = m.length)
    (hocc : ∀ j : Int, occUnit m' j =
      if j = coordToIndex w u.x u.y then none else occUnit m j) :
    UOcc w h m' (us.filter (fun v => ¬ v.id = u.id)) := by
  obtain ⟨hl, hnd, hpos, hback⟩ := ho
  refine ⟨hlen.trans hl, ?_, ?_, ?_⟩
  · exact hnd.sublist (List.Sublist.map _ (List.filter_sublist us))
  · intro v hv
    rw [List.mem_filter] at hv
    obtain ⟨hv, hvne⟩ := hv
    have hvne : ¬ v.id = u.id := by simpa using hvne
    obtain ⟨hbv, hov⟩ := hpos v hv
    refine ⟨hbv, ?_⟩
    rw [hocc]
    split <;> rename_i hj
    · exfalso
      obtain ⟨hbu, hou⟩ := hpos u hu
      rw [hj, hou] at hov
      exact hvne (Option.some.inj hov).symm
    · exact hov
  · intro i hi uid hocc'
    rw [hocc] at hocc'
    by_cases hj : (i : Int) = coordToIndex w u.x u.y
    · rw [if_pos hj] at hocc'
      exact absurd hocc' (by simp)
    · rw [if_neg hj] at hocc'
      obtain ⟨v, hv, hid, hidx⟩ := hback i (hlen ▸ hi) uid hocc'
      refine ⟨v, ?_, hid, hidx⟩
      rw [List.mem_filter]
      refine ⟨hv, ?_⟩
      simp only [decide_eq_true_eq]
      intro hveq
      have : v = u := nodup_map_inj hnd hv hu hveq
      rw [this] at hidx
      exact hj (hidx ▸ rfl)

/-- Moving a unit from its tile to an empty in-bounds target tile. -/
theorem UOcc_move {w h : Nat} {m : List Tile} {us : List UnitDoc}
    (ho : UOcc w h m us) (u : UnitDoc) (hu : u ∈ us) (tx ty : Int)
    (hb : inBoundsPos w h tx ty)
    (hne : ¬ coordToIndex w tx ty = coordToIndex w u.x u.y)
    (hempty : occUnit m (coordToIndex w tx ty) = none)
    (m' : List Tile) (hlen : m'.length = m.length)
    (hocc : ∀ j : Int, occUnit m' j =
      if j = coordToIndex w tx ty then some u.id
      else if j = coordToIndex w u.x u.y then none else occUnit m j)
    (g : UnitDoc → UnitDoc)
    (hg : (g u).id = u.id ∧ (g u).x = tx ∧ (g u).y = ty) :
    UOcc w h m' (us.map (fun v => if v.id = u.id then g v else v)) := by
  obtain ⟨hl, hnd, hpos, hback⟩ := ho
  have hval : ∀ v ∈ us, ¬ v.id = u.id → (if v.id = u.id then g v else v) = v :=
    fun v _ hne' => if_neg hne'
  refine ⟨hlen.trans hl, ?_, ?_, ?_⟩
  · rw [List.map_map]
    have : us.map (fun v => (if v.id = u.id then g v else v).id) =
        us.map (fun v => v.id) := by
      refine List.map_congr_left (fun v hv => ?_)
      by_cases hvi : v.id = u.id
      · rw [if_pos hvi]
        have hveq : v = u := nodup_map_inj hnd hv hu hvi
        rw [hveq, hg.1]
      · rw [if_neg hvi]
    simpa [Function.comp] using this ▸ hnd
  · intro v' hv'
    obtain ⟨v, hv, rfl⟩ := List.mem_map.mp hv'
    by_cases hvi : v.id = u.id
    · have hveq : v = u := nodup_map_inj hnd hv hu hvi
      subst hveq
      rw [if_pos hvi, hg.2.1, hg.2.2, hg.1]
      refine ⟨hb, ?_⟩
      rw [hocc, if_pos rfl]
    · rw [if_neg hvi]
      obtain ⟨hbv, hov⟩ := hpos v hv
      refine ⟨hbv, ?_⟩
      rw [hocc]
      split <;> rename_i hj1
      · exfalso
        rw [hj1, hempty] at hov
        exact absurd hov (by simp)
      · split <;> rename_i hj2
        · exfalso
          obtain ⟨hbu, hou⟩ := hpos u hu
          rw [hj2, hou] at hov
          exact hvi (Option.some.inj hov).symm
        · exact hov
  · intro i hi uid hocc'
    rw [hocc] at hocc'
    by_cases hj1 : (i : Int) = coordToIndex w tx ty
    · rw [if_pos hj1] at hocc'
      refine ⟨g u, ?_, ?_, ?_⟩
      · have := List.mem_map_of_mem (fun v => if v.id = u.id then g v else v) hu
        simpa using this
      · rw [hg.1]
        exact Option.some.inj hocc'
      · rw [hg.2.1, hg.2.2]
        exact hj1.symm
    · rw [if_neg hj1] at hocc'
      by_cases hj2 : (i : Int) = coordToIndex w u.x u.y
      · rw [if_pos hj2] at hocc'
        exact absurd hocc' (by simp)
      · rw [if_neg hj2] at hocc'
        obtain ⟨v, hv, hid, hidx⟩ := hback i (hlen ▸ hi) uid hocc'
        have hvne : ¬ v.id = u.id := by
          intro hveq
          have : v = u := nodup_map_inj hnd hv hu hveq
          rw [this] at hidx
          exact hj2 hidx.symm
        refine ⟨v, ?_, hid, hidx⟩
        have hmem := List.mem_map_of_mem (fun x => if x.id = u.id then g x else x) hv
        simp only [if_neg hvne] at hmem
        exact hmem

/-! ## Building-side occupancy toolkit (mirror of the unit side) -/

theorem BOcc_mapEq {w h : Nat} {m : List Tile} {bs : List BuildingDoc}
    (ho : BOcc w h m bs) (m' : List Tile) (hlen : m'.length = m.length)
    (hocc : ∀ j : Int, occBuilding m' j = occBuilding m j) :
    BOcc w h m' bs := by
  obtain ⟨hl, hnd, hpos, hback⟩ := ho
  refine ⟨hlen.trans hl, hnd, fun b hb => ?_, fun i hi bid hocc' => ?_⟩
  · obtain ⟨hbb, ho2⟩ := hpos b hb
    refine ⟨hbb, ?_⟩
    rw [hocc]
    exact ho2
  · rw [hocc] at hocc'
    exact hback i (hlen ▸ hi) bid hocc'

theorem BOcc_listKeys {w h : Nat} {m : List Tile} {bs : List BuildingDoc}
    (ho : BOcc w h m bs) (f : BuildingDoc → BuildingDoc)
    (hf : ∀ b ∈ bs, (f b).id = b.id ∧ (f b).x = b.x ∧ (f b).y = b.y) :
    BOcc w h m (bs.map f) := by
  obtain ⟨hl, hnd, hpos, hback⟩ := ho
  refine ⟨hl, ?_, ?_, ?_⟩
  · rw [List.map_map]
    have : bs.map (fun b => (f b).id) = bs.map (fun b => b.id) :=
      List.map_congr_left (fun b hb => (hf b hb).1)
    simpa [Function.comp] using this ▸ hnd
  · intro v hv
    obtain ⟨b, hb, rfl⟩ := List.mem_map.mp hv
    obtain ⟨h1, h2, h3⟩ := hf b hb
    obtain ⟨hbb, ho2⟩ := hpos b hb
    rw [h1, h2, h3]
    exact ⟨hbb, ho2⟩
  · intro i hi bid hocc'
    obtain ⟨b, hb, hid, hidx⟩ := hback i hi bid hocc'
    obtain ⟨h1, h2, h3⟩ := hf b hb
    exact ⟨f b, List.mem_map_of_mem f hb, h1.trans hid,
      by rw [h2, h3]; exact hidx⟩

theorem BOcc_patch {w h : Nat} {m : List Tile} {bs : List BuildingDoc}
    (ho : BOcc w h m bs) (bid : Nat) (g : BuildingDoc → BuildingDoc)
    (hg : ∀ b, (g b).id = b.id ∧ (g b).x = b.x ∧ (g b).y = b.y) :
    BOcc w h m (bs.map (fun b => if b.id = bid then g b else b)) :=
  BOcc_listKeys ho _ (fun b _ => by
    by_cases hi : b.id = bid
    · rw [if_pos hi]
      exact hg b
    · rw [if_neg hi]
      exact ⟨rfl, rfl, rfl⟩)

theorem BOcc_insert {w h : Nat} {m : List Tile} {bs : List BuildingDoc}
    (ho : BOcc w h m bs) (nb : BuildingDoc)
    (hfresh : ∀ b ∈ bs, ¬ b.id = nb.id)
    (hbnd : inBoundsPos w h nb.x nb.y)
    (hempty : occBuilding m (coordToIndex w nb.x nb.y) = none)
    (m' : List Tile) (hlen : m'.length = m.length)
    (hocc : ∀ j : Int, occBuilding m' j =
      if j = coordToIndex w nb.x nb.y then some nb.id else occBuilding m j) :
    BOcc w h m' (bs ++ [nb]) := by
  obtain ⟨hl, hnd, hpos, hback⟩ := ho
  refine ⟨hlen.trans hl, ?_, ?_, ?_⟩
  · rw [List.map_append, List.nodup_append]
    refine ⟨hnd, List.nodup_singleton _, ?_⟩
    intro a ha hb'
    simp only [List.map_cons, List.map_nil, List.mem_singleton] at hb'
    obtain ⟨b, hb, rfl⟩ := List.mem_map.mp ha
    exact hfresh b hb hb'
  · intro v hv
    rcases List.mem_append.mp hv with hv | hv
    · obtain ⟨hbv, hov⟩ := hpos v hv
      refine ⟨hbv, ?_⟩
      rw [hocc]
      split <;> rename_i hj
      · rw [hj, hempty] at hov
        exact absurd hov (by simp)
      · exact hov
    · rw [List.mem_singleton.mp hv]
      refine ⟨hbnd, ?_⟩
      rw [hocc, if_pos rfl]
  · intro i hi bid hocc'
    rw [hocc] at hocc'
    by_cases hj : (i : Int) = coordToIndex w nb.x nb.y
    · rw [if_pos hj] at hocc'
      exact ⟨nb, List.mem_append_right _ (List.mem_singleton_self _),
        Option.some.inj hocc', hj.symm⟩
    · rw [if_neg hj] at hocc'
      obtain ⟨b, hb, hid, hidx⟩ := hback i (hlen ▸ hi) bid hocc'
      exact ⟨b, List.mem_append_left _ hb, hid, hidx⟩

theorem BOcc_delete {w h : Nat} {m : List Tile} {bs : List BuildingDoc}
    (ho : BOcc w h m bs) (b : BuildingDoc) (hb : b ∈ bs)
    (m' : List Tile) (hlen : m'.length = m.length)
    (hocc : ∀ j : Int, occBuilding m' j =
      if j = coordToIndex w b.x b.y then none else occBuilding m j) :
    BOcc w h m' (bs.filter (fun v => ¬ v.id = b.id)) := by
  obtain ⟨hl, hnd, hpos, hback⟩ := ho
  refine ⟨hlen.trans hl, ?_, ?_, ?_⟩
  · exact hnd.sublist (List.Sublist.map _ (List.filter_sublist bs))
  · intro v hv
    rw [List.mem_filter] at hv
    obtain ⟨hv, hvne⟩ := hv
    have hvne : ¬ v.id = b.id := by simpa using hvne
    obtain ⟨hbv, hov⟩ := hpos v hv
    refine ⟨hbv, ?_⟩
    rw [hocc]
    split <;> rename_i hj
    · exfalso
      obtain ⟨hbb, hob⟩ := hpos b hb
      rw [hj, hob] at hov
      exact hvne (Option.some.inj hov).symm
    · exact hov
  · intro i hi bid hocc'
    rw [hocc] at hocc'
    by_cases hj : (i : Int) = coordToIndex w b.x b.y
    · rw [if_pos hj] at hocc'
      exact absurd hocc' (by simp)
    · rw [if_neg hj] at hocc'
      obtain ⟨v, hv, hid, hidx⟩ := hback i (hlen ▸ hi) bid hocc'
      refine ⟨v, ?_, hid, hidx⟩
      rw [List.mem_filter]
      refine ⟨hv, ?_⟩
      simp only [decide_eq_true_eq]
      intro hveq
      have : v = b := nodup_map_inj hnd hv hb hveq
      rw [this] at hidx
      exact hj (hidx ▸ rfl)

/-! ## Fold lemmas (bulk tile clears in `forfeit`) -/

theorem foldl_modTile_length {α : Type} (F : α → Int) (G : α → Tile → Tile) :
    ∀ (L : List α) (m : List Tile),
      (L.foldl (fun mm e => modTile mm (F e) (G e)) m).length = m.length
  | [], _ => rfl
  | e :: L, m => by
      rw [List.foldl_cons]
      rw [foldl_modTile_length F G L _]
      exact length_modTile m (F e) (G e)

theorem occUnit_foldl_preserve {α : Type} (F : α → Int) (G : α → Tile → Tile)
    (hG : ∀ e t, (G e t).unitId = t.unitId) :
    ∀ (L : List α) (m : List Tile) (j : Int),
      occUnit (L.foldl (fun mm e => modTile mm (F e) (G e)) m) j =
        occUnit m j
  | [], _, _ => rfl
  | e :: L, m, j => by
      rw [List.foldl_cons, occUnit_foldl_preserve F G hG L _ j,
        occUnit_modTile_preserve m (F e) (G e) (hG e) j]

theorem occBuilding_foldl_preserve {α : Type} (F : α → Int)
    (G : α → Tile → Tile) (hG : ∀ e t, (G e t).buildingId = t.buildingId) :
    ∀ (L : List α) (m : List Tile) (j : Int),
      occBuilding (L.foldl (fun mm e => modTile mm (F e) (G e)) m) j =
        occBuilding m j
  | [], _, _ => rfl
  | e :: L, m, j => by
      rw [List.foldl_cons, occBuilding_foldl_preserve F G hG L _ j,
        occBuilding_modTile_preserve m (F e) (G e) (hG e) j]

theorem visMonotone_foldl_modTile {α : Type} (F : α → Int)
    (G : α → Tile → Tile) (hG : ∀ e t, (G e t).visibility = t.visibility) :
    ∀ (L : List α) (m : List Tile),
      visMonotone m (L.foldl (fun mm e => modTile mm (F e) (G e)) m)
  | [], m => visMonotone_refl m
  | e :: L, m => by
      rw [List.foldl_cons]
      exact visMonotone_trans
        (visMonotone_modTile_keep m (F e) (G e) (hG e))
        (visMonotone_foldl_modTile F G hG L _)

theorem occUnit_foldl_clear {α : Type} (F : α → Int) (G : α → Tile → Tile)
    (hG : ∀ e t, (G e t).unitId = none) :
    ∀ (L : List α) (m : List Tile) (j : Int),
      ((∃ e ∈ L, F e = j) →
        occUnit (L.foldl (fun mm e => modTile mm (F e) (G e)) m) j = none) ∧
      ((∀ e ∈ L, ¬ F e = j) →
        occUnit (L.foldl (fun mm e => modTile mm (F e) (G e)) m) j =
          occUnit m j)
  | [], m, j => by
      constructor
      · rintro ⟨e, he, -⟩
        exact absurd he (List.not_mem_nil e)
      · intro
        rfl
  | e0 :: L, m, j => by
      rw [List.foldl_cons]
      constructor
      · rintro ⟨e, he, hFe⟩
        by_cases hL : ∃ e ∈ L, F e = j
        · exact (occUnit_foldl_clear F G hG L _ j).1 hL
        · push_neg at hL
          have heL : e = e0 := by
            rcases List.mem_cons.mp he with h | h
            · exact h
            · exact absurd hFe (hL e h)
          rw [(occUnit_foldl_clear F G hG L _ j).2 hL,
            occUnit_modTile_clear m (F e0) (G e0) (hG e0) j,
            if_pos (by rw [← heL, hFe])]
      · intro hnone
        have h0 : ¬ F e0 = j := hnone e0 (List.mem_cons_self e0 L)
        rw [(occUnit_foldl_clear F G hG L _ j).2
            (fun e he => hnone e (List.mem_cons_of_mem e0 he)),
          occUnit_modTile_clear m (F e0) (G e0) (hG e0) j,
          if_neg (fun hj => h0 (by rw [hj]))]

theorem occBuilding_foldl_clear {α : Type} (F : α → Int)
    (G : α → Tile → Tile) (hG : ∀ e t, (G e t).buildingId = none) :
    ∀ (L : List α) (m : List Tile) (j : Int),
      ((∃ e ∈ L, F e = j) →
        occBuilding (L.foldl (fun mm e => modTile mm (F e) (G e)) m) j = none) ∧
      ((∀ e ∈ L, ¬ F e = j) →
        occBuilding (L.foldl (fun mm e => modTile mm (F e) (G e)) m) j =
          occBuilding m j)
  | [], m, j => by
      constructor
      · rintro ⟨e, he, -⟩
        exact absurd he (List.not_mem_nil e)
      · intro
        rfl
  | e0 :: L, m, j => by
      rw [List.foldl_cons]
      constructor
      · rintro ⟨e, he, hFe⟩
        by_cases hL : ∃ e ∈ L, F e = j
        · exact (occBuilding_foldl_clear F G hG L _ j).1 hL
        · push_neg at hL
          have heL : e = e0 := by
            rcases List.mem_cons.mp he with h | h
            · exact h
            · exact absurd hFe (hL e h)
          rw [(occBuilding_foldl_clear F G hG L _ j).2 hL,
            occBuilding_modTile_clear m (F e0) (G e0) (hG e0) j,
            if_pos (by rw [← heL, hFe])]
      · intro hnone
        have h0 : ¬ F e0 = j := hnone e0 (List.mem_cons_self e0 L)
        rw [(occBuilding_foldl_clear F G hG L _ j).2
            (fun e he => hnone e (List.mem_cons_of_mem e0 he)),
          occBuilding_modTile_clear m (F e0) (G e0) (hG e0) j,
          if_neg (fun hj => h0 (by rw [hj]))]

/-- Bulk removal of one player's units together with their tile markers. -/
theorem UOcc_bulk_delete {w h : Nat} {m : List Tile} {us : List UnitDoc}
    (ho : UOcc w h m us) (pid : Nat)
    (m' : List Tile) (hlen : m'.length = m.length)
    (hocc : ∀ j : Int,
      ((∃ u ∈ us, u.playerId = pid ∧ coordToIndex w u.x u.y = j) →
        occUnit m' j = none) ∧
      ((¬ ∃ u ∈ us, u.playerId = pid ∧ coordToIndex w u.x u.y = j) →
        occUnit m' j = occUnit m j)) :
    UOcc w h m' (us.filter (fun v => v.playerId != pid)) := by
  obtain ⟨hl, hnd, hpos, hback⟩ := ho
  refine ⟨hlen.trans hl, ?_, ?_, ?_⟩
  · exact hnd.sublist (List.Sublist.map _ (List.filter_sublist us))
  · intro v hv
    rw [List.mem_filter] at hv
    obtain ⟨hv, hvne⟩ := hv
    have hvne : ¬ v.playerId = pid := by simpa using hvne
    obtain ⟨hbv, hov⟩ := hpos v hv
    refine ⟨hbv, ?_⟩
    rw [(hocc _).2 ?_]
    · exact hov
    · rintro ⟨u, hu, hupid, huidx⟩
      obtain ⟨hbu, hou⟩ := hpos u hu
      rw [huidx, hov] at hou
      have : u = v := nodup_map_inj hnd hu hv (Option.some.inj hou).symm
      rw [this] at hupid
      exact hvne hupid
  · intro i hi uid hocc'
    by_cases hhit : ∃ u ∈ us, u.playerId = pid ∧
        coordToIndex w u.x u.y = (i : Int)
    · rw [(hocc _).1 hhit] at hocc'
      exact absurd hocc' (by simp)
    · rw [(hocc _).2 hhit] at hocc'
      obtain ⟨u, hu, hid, hidx⟩ := hback i (hlen ▸ hi) uid hocc'
      refine ⟨u, ?_, hid, hidx⟩
      rw [List.mem_filter]
      refine ⟨hu, ?_⟩
      simp only [bne_iff_ne, ne_eq, decide_eq_true_eq]
      intro hupid
      exact hhit ⟨u, hu, hupid, hidx⟩

/-- Bulk removal of one player's buildings together with their markers. -/
theorem BOcc_bulk_delete {w h : Nat} {m : List Tile} {bs : List BuildingDoc}
    (ho : BOcc w h m bs) (pid : Nat)
    (m' : List Tile) (hlen : m'.length = m.length)
    (hocc : ∀ j : Int,
      ((∃ b ∈ bs, b.playerId = pid ∧ coordToIndex w b.x b.y = j) →
        occBuilding m' j = none) ∧
      ((¬ ∃ b ∈ bs, b.playerId = pid ∧ coordToIndex w b.x b.y = j) →
        occBuilding m' j = occBuilding m j)) :
    BOcc w h m' (bs.filter (fun v => v.playerId != pid)) := by
  obtain ⟨hl, hnd, hpos, hback⟩ := ho
  refine ⟨hlen.trans hl, ?_, ?_, ?_⟩
  · exact hnd.sublist (List.Sublist.map _ (List.filter_sublist bs))
  · intro v hv
    rw [List.mem_filter] at hv
    obtain ⟨hv, hvne⟩ := hv
    have hvne : ¬ v.playerId = pid := by simpa using hvne
    obtain ⟨hbv, hov⟩ := hpos v hv
    refine ⟨hbv, ?_⟩
    rw [(hocc _).2 ?_]
    · exact hov
    · rintro ⟨b, hb, hbpid, hbidx⟩
      obtain ⟨hbb, hob⟩ := hpos b hb
      rw [hbidx, hov] at hob
      have : b = v := nodup_map_inj hnd hb hv (Option.some.inj hob).symm
      rw [this] at hbpid
      exact hvne hbpid
  · intro i hi bid hocc'
    by_cases hhit : ∃ b ∈ bs, b.playerId = pid ∧
        coordToIndex w b.x b.y = (i : Int)
    · rw [(hocc _).1 hhit] at hocc'
      exact absurd hocc' (by simp)
    · rw [(hocc _).2 hhit] at hocc'
      obtain ⟨b, hb, hid, hidx⟩ := hback i (hlen ▸ hi) bid hocc'
      refine ⟨b, ?_, hid, hidx⟩
      rw [List.mem_filter]
      refine ⟨hb, ?_⟩
      simp only [bne_iff_ne, ne_eq, decide_eq_true_eq]
      intro hbpid
      exact hhit ⟨b, hb, hbpid, hidx⟩


/-! ## Database lookup facts -/

theorem getPlayer?_mem {s : GameState} {pid : Nat} {p : PlayerDoc}
    (h : getPlayer? s pid = some p) : p ∈ s.players ∧ p.id = pid := by
  unfold getPlayer? at h
  refine ⟨List.mem_of_find?_eq_some h, ?_⟩
  have := List.find?_some h
  simpa using this

theorem getUnit?_mem {s : GameState} {uid : Nat} {u : UnitDoc}
    (h : getUnit? s uid = some u) : u ∈ s.units ∧ u.id = uid := by
  unfold getUnit? at h
  refine ⟨List.mem_of_find?_eq_some h, ?_⟩
  have := List.find?_some h
  simpa using this

theorem getBuilding?_mem {s : GameState} {bid : Nat} {b : BuildingDoc}
    (h : getBuilding? s bid = some b) : b ∈ s.buildings ∧ b.id = bid := by
  unfold getBuilding? at h
  refine ⟨List.mem_of_find?_eq_some h, ?_⟩
  have := List.find?_some h
  simpa using this

theorem getPlayerOrThrow_ok {s : GameState} {pid : Nat} {p : PlayerDoc}
    (h : getPlayerOrThrow s pid = .ok p) : p ∈ s.players ∧ p.id = pid := by
  unfold getPlayerOrThrow at h
  split at h
  · rename_i hp
    cases h
    exact getPlayer?_mem hp
  · exact Except.noConfusion h

/-! ## Resource arithmetic facts -/

theorem subtractCost_ok_nonneg {r : ResourcePool} {c : Cost}
    {r' : ResourcePool} (h : subtractCost r c = .ok r') : poolNonneg r' := by
  unfold subtractCost at h
  split at h
  · rename_i hc
    cases h
    unfold canAfford at hc
    simp only [Bool.and_eq_true, decide_eq_true_eq] at hc
    refine ⟨?_, ?_, ?_⟩ <;> dsimp only <;> omega
  · exact Except.noConfusion h

theorem subtractCost_ok_eq {r : ResourcePool} {c : Cost} {r' : ResourcePool}
    (h : subtractCost r c = .ok r') :
    canAfford r c = true ∧
    r' = ⟨r.biomass - c.biomass, r.ore - c.ore, r.flux - c.flux⟩ := by
  unfold subtractCost at h
  split at h
  · rename_i hc
    cases h
    exact ⟨hc, rfl⟩
  · exact Except.noConfusion h

theorem subtractCost_not_afford {r : ResourcePool} {c : Cost}
    (h : canAfford r c = false) :
    subtractCost r c = .error "Insufficient resources" := by
  unfold subtractCost
  rw [h]
  rfl

theorem addResources_nonneg {r : ResourcePool} {c : Cost}
    (hr : poolNonneg r) (hc : costNonneg c) :
    poolNonneg (addResources r c) := by
  obtain ⟨h1, h2, h3⟩ := hr
  obtain ⟨g1, g2, g3⟩ := hc
  exact ⟨by simpa [addResources] using add_nonneg h1 g1,
    by simpa [addResources] using add_nonneg h2 g2,
    by simpa [addResources] using add_nonneg h3 g3⟩

theorem RESOURCE_YIELDS_nonneg {d : String} {c : Cost}
    (h : RESOURCE_YIELDS d = some c) : costNonneg c := by
  unfold RESOURCE_YIELDS at h
  repeat' split at h
  all_goals first
    | (cases h; exact ⟨by norm_num, by norm_num, by norm_num⟩)
    | exact Option.noConfusion h

theorem BUILDING_DEFS_income_nonneg {t : String} {d : BuildingDef}
    (h : BUILDING_DEFS t = some d) : costNonneg d.income := by
  unfold BUILDING_DEFS at h
  repeat' split at h
  all_goals first
    | (cases h; exact ⟨by norm_num, by norm_num, by norm_num⟩)
    | exact Option.noConfusion h

theorem calculateIncome_foldl_nonneg (factionTrait : Option String) :
    ∀ (bs : List BuildingDoc) (acc : Cost), costNonneg acc →
      costNonneg (bs.foldl (fun total building =>
        match BUILDING_DEFS building.type with
        | none => total
        | some bdef =>
            if building.isConstructing.getD false then total
            else
              { biomass := total.biomass + bdef.income.biomass,
                ore := total.ore + bdef.income.ore +
                  (if factionTrait = some "deep_core_mining" ∧
                      building.type = "mine" then 1 else 0),
                flux := total.flux + bdef.income.flux }) acc)
  | [], acc, hacc => hacc
  | b :: bs, acc, hacc => by
      rw [List.foldl_cons]
      refine calculateIncome_foldl_nonneg factionTrait bs _ ?_
      cases hbd : BUILDING_DEFS b.type with
      | none => exact hacc
      | some bdef =>
          dsimp only
          by_cases hc : b.isConstructing.getD false = true
          · rw [if_pos hc]
            exact hacc
          · rw [if_neg hc]
            obtain ⟨h1, h2, h3⟩ := hacc
            obtain ⟨g1, g2, g3⟩ := BUILDING_DEFS_income_nonneg hbd
            refine ⟨?_, ?_, ?_⟩ <;> dsimp only
            · omega
            · split <;> omega
            · omega

/-- The per-turn income of a player is componentwise non-negative. -/
theorem calculateIncome_nonneg (s : GameState) (player : PlayerDoc) :
    costNonneg (calculateIncome s player) := by
  unfold calculateIncome
  have hfold := calculateIncome_foldl_nonneg
    ((FACTION_DEFS player.faction).map (fun f => f.trait))
    (s.buildings.filter (fun b => b.playerId == player.id)) {}
    ⟨le_refl 0, le_refl 0, le_refl 0⟩
  dsimp only at hfold ⊢
  split
  · obtain ⟨h1, h2, h3⟩ := hfold
    refine ⟨h1, h2, ?_⟩
    dsimp only
    positivity
  · exact hfold

/-! ## Generic state-transformer preservation lemmas -/

theorem Inv_patchPlayer (s : GameState) (pid : Nat)
    (f : PlayerDoc → PlayerDoc) (h : Inv s) : Inv (patchPlayer s pid f) := h

theorem Inv_patchUnit (s : GameState) (uid : Nat) (f : UnitDoc → UnitDoc)
    (hf : ∀ u, (f u).id = u.id ∧ (f u).x = u.x ∧ (f u).y = u.y)
    (h : Inv s) : Inv (patchUnit s uid f) := by
  obtain ⟨hU, hB, hfu, hfb⟩ := h
  refine ⟨UOcc_patch hU uid f hf, hB, ?_, hfb⟩
  intro u hu
  simp only [patchUnit, List.mem_map] at hu
  obtain ⟨v, hv, rfl⟩ := hu
  by_cases hvi : v.id = uid
  · rw [if_pos hvi, (hf v).1]
    exact hfu v hv
  · rw [if_neg hvi]
    exact hfu v hv

theorem Inv_patchBuilding (s : GameState) (bid : Nat)
    (f : BuildingDoc → BuildingDoc)
    (hf : ∀ b, (f b).id = b.id ∧ (f b).x = b.x ∧ (f b).y = b.y)
    (h : Inv s) : Inv (patchBuilding s bid f) := by
  obtain ⟨hU, hB, hfu, hfb⟩ := h
  refine ⟨hU, BOcc_patch hB bid f hf, hfu, ?_⟩
  intro b hb
  simp only [patchBuilding, List.mem_map] at hb
  obtain ⟨v, hv, rfl⟩ := hb
  by_cases hvi : v.id = bid
  · rw [if_pos hvi, (hf v).1]
    exact hfb v hv
  · rw [if_neg hvi]
    exact hfb v hv

theorem Inv_checkPlayerElimination (s : GameState) (h : Inv s) :
    Inv (checkPlayerElimination s) := h

theorem resNonneg_patchPlayer {s : GameState} (pid : Nat)
    (f : PlayerDoc → PlayerDoc) (hres : resNonneg s)
    (hf : ∀ p ∈ s.players, poolNonneg p.resources →
      poolNonneg (f p).resources) :
    resNonneg (patchPlayer s pid f) := by
  intro p hp
  simp only [patchPlayer, List.mem_map] at hp
  obtain ⟨q, hq, rfl⟩ := hp
  by_cases hqi : q.id = pid
  · rw [if_pos hqi]
    exact hf q hq (hres q hq)
  · rw [if_neg hqi]
    exact hres q hq

theorem resNonneg_checkPlayerElimination {s : GameState}
    (hres : resNonneg s) : resNonneg (checkPlayerElimination s) := by
  intro p hp
  simp only [checkPlayerElimination, List.mem_map] at hp
  obtain ⟨q, hq, rfl⟩ := hp
  split
  · exact hres q hq
  · exact hres q hq

theorem StepOK_refl (s : GameState) : StepOK s s :=
  ⟨id, id, visMonotone_refl _⟩

theorem StepOK_trans {s1 s2 s3 : GameState} (h12 : StepOK s1 s2)
    (h23 : StepOK s2 s3) : StepOK s1 s3 :=
  ⟨fun h => h23.1 (h12.1 h), fun h => h23.2.1 (h12.2.1 h),
   visMonotone_trans h12.2.2 h23.2.2⟩

/-! ## Per-command preservation: the simple handlers -/

theorem toggleEntrench_stepOK {s : GameState} {unitId playerId : Nat}
    {e : Bool} {s' : GameState}
    (hstep : toggleEntrench s unitId playerId e = .ok s') :
    StepOK s s' := by
  unfold toggleEntrench at hstep
  split at hstep
  · exact Except.noConfusion hstep
  · split at hstep
    · exact Except.noConfusion hstep
    · split at hstep
      · exact Except.noConfusion hstep
      · split at hstep
        · exact Except.noConfusion hstep
        · split at hstep
          · exact Except.noConfusion hstep
          · cases hstep
            exact ⟨Inv_patchUnit s unitId _ (fun u => ⟨rfl, rfl, rfl⟩),
              fun hres => hres, visMonotone_refl _⟩

theorem toggleAutoExplore_stepOK {s : GameState} {unitId playerId : Nat}
    {e : Bool} {s' : GameState}
    (hstep : toggleAutoExplore s unitId playerId e = .ok s') :
    StepOK s s' := by
  unfold toggleAutoExplore at hstep
  split at hstep
  · exact Except.noConfusion hstep
  · split at hstep
    · exact Except.noConfusion hstep
    · split at hstep
      · exact Except.noConfusion hstep
      · cases hstep
        exact ⟨Inv_patchUnit s unitId _ (fun u => ⟨rfl, rfl, rfl⟩),
          fun hres => hres, visMonotone_refl _⟩

theorem collectResource_stepOK {s : GameState} {playerId : Nat} {x0 y0 : Int}
    {s' : GameState} (hstep : collectResource s playerId x0 y0 = .ok s') :
    StepOK s s' := by
  unfold collectResource at hstep
  split at hstep
  · exact Except.noConfusion hstep
  · rename_i player hplayer
    split at hstep
    · exact Except.noConfusion hstep
    · dsimp only at hstep
      split at hstep
      · exact Except.noConfusion hstep
      · split at hstep
        · exact Except.noConfusion hstep
        · split at hstep
          · exact Except.noConfusion hstep
          · rename_i tile htile deposit hdep yieldDelta hyield
            cases hstep
            obtain ⟨hpmem, hpid⟩ := getPlayerOrThrow_ok hplayer
            set idx := coordToIndex s.width (wrapX x0 s.width)
              (clampY y0 s.height) with hidx
            refine ⟨?_, ?_, ?_⟩
            · intro hInv
              obtain ⟨hU, hB, hfu, hfb⟩ := hInv
              refine ⟨?_, ?_, hfu, hfb⟩
              · exact UOcc_mapEq hU _ (length_modTile _ _ _)
                  (occUnit_modTile_preserve _ _ _ (fun t => rfl))
              · exact BOcc_mapEq hB _ (length_modTile _ _ _)
                  (occBuilding_modTile_preserve _ _ _ (fun t => rfl))
            · intro hres
              refine resNonneg_patchPlayer player.id _ hres ?_
              intro p hp hpnn
              exact addResources_nonneg (hres player hpmem)
                (RESOURCE_YIELDS_nonneg hyield)
            · exact visMonotone_modTile_keep _ _ _ (fun t => rfl)

theorem researchTech_stepOK {s : GameState} {playerId : Nat}
    {techId : String} {s' : GameState}
    (hstep : researchTech s playerId techId = .ok s') : StepOK s s' := by
  unfold researchTech at hstep
  split at hstep
  · exact Except.noConfusion hstep
  · rename_i player hplayer
    split at hstep
    · exact Except.noConfusion hstep
    · split at hstep
      · exact Except.noConfusion hstep
      · split at hstep
        · exact Except.noConfusion hstep
        · split at hstep
          · exact Except.noConfusion hstep
          · dsimp only at hstep
            split at hstep
            · exact Except.noConfusion hstep
            · rename_i updatedResources hupd
              cases hstep
              refine ⟨fun hInv => hInv, ?_, visMonotone_refl _⟩
              intro hres
              refine resNonneg_patchPlayer player.id _ hres ?_
              intro p hp hpnn
              exact subtractCost_ok_nonneg hupd

/-- The state produced by a successful `forfeit`, as one explicit update. -/
theorem forfeit_shape (s : GameState) (playerId : Nat) :
    StepOK s (patchPlayer { s with
        units := s.units.filter (fun u => u.playerId != playerId),
        buildings := s.buildings.filter (fun b => b.playerId != playerId),
        map := (s.units.filter (fun u => u.playerId == playerId)).foldl
            (fun m u => modTile m (coordToIndex s.width u.x u.y)
              (fun t => { t with unitId := none }))
            ((s.buildings.filter (fun b => b.playerId == playerId)).foldl
              (fun m b => modTile m (coordToIndex s.width b.x b.y)
                (fun t => { t with buildingId := none, type := "surface" }))
              s.map) }
      playerId (fun p => { p with isAlive := false })) := by
  set FU : UnitDoc → Int := fun u => coordToIndex s.width u.x u.y with hFU
  set GU : UnitDoc → Tile → Tile := fun u t => { t with unitId := none }
    with hGU
  set FB : BuildingDoc → Int := fun b => coordToIndex s.width b.x b.y
    with hFB
  set GB : BuildingDoc → Tile → Tile :=
    fun b t => { t with buildingId := none, type := "surface" } with hGB
  set selU := s.units.filter (fun u => u.playerId == playerId) with hselU
  set selB := s.buildings.filter (fun b => b.playerId == playerId) with hselB
  set m1 := selB.foldl (fun m b => modTile m (FB b) (GB b)) s.map with hm1
  set m2 := selU.foldl (fun m u => modTile m (FU u) (GU u)) m1 with hm2
  have hlen1 : m1.length = s.map.length := foldl_modTile_length FB GB selB s.map
  have hlen2 : m2.length = s.map.length :=
    (foldl_modTile_length FU GU selU m1).trans hlen1
  have hmemU : ∀ u, u ∈ selU ↔ u ∈ s.units ∧ u.playerId = playerId := by
    intro u
    rw [hselU, List.mem_filter]
    simp
  have hmemB : ∀ b, b ∈ selB ↔ b ∈ s.buildings ∧ b.playerId = playerId := by
    intro b
    rw [hselB, List.mem_filter]
    simp
  have houMid : ∀ j, occUnit m1 j = occUnit s.map j :=
    fun j => occUnit_foldl_preserve FB GB (fun e t => rfl) selB s.map j
  have hobMid : ∀ j, occBuilding m2 j = occBuilding m1 j :=
    fun j => occBuilding_foldl_preserve FU GU (fun e t => rfl) selU m1 j
  refine ⟨?_, ?_, ?_⟩
  · intro hInv
    obtain ⟨hU, hB, hfu, hfb⟩ := hInv
    refine ⟨?_, ?_, ?_, ?_⟩
    · refine UOcc_bulk_delete hU playerId m2 hlen2 ?_
      intro j
      constructor
      · rintro ⟨u, hu, hupid, huidx⟩
        refine (occUnit_foldl_clear FU GU (fun e t => rfl) selU m1 j).1 ?_
        exact ⟨u, (hmemU u).mpr ⟨hu, hupid⟩, huidx⟩
      · intro hmiss
        rw [(occUnit_foldl_clear FU GU (fun e t => rfl) selU m1 j).2 ?_,
          houMid j]
        intro e he hFe
        obtain ⟨heu, hepid⟩ := (hmemU e).mp he
        exact hmiss ⟨e, heu, hepid, hFe⟩
    · refine BOcc_bulk_delete hB playerId m2 hlen2 ?_
      intro j
      constructor
      · rintro ⟨b, hb, hbpid, hbidx⟩
        rw [hobMid j]
        refine (occBuilding_foldl_clear FB GB (fun e t => rfl) selB
          s.map j).1 ?_
        exact ⟨b, (hmemB b).mpr ⟨hb, hbpid⟩, hbidx⟩
      · intro hmiss
        rw [hobMid j,
          (occBuilding_foldl_clear FB GB (fun e t => rfl) selB s.map j).2 ?_]
        intro e he hFe
        obtain ⟨heb, hepid⟩ := (hmemB e).mp he
        exact hmiss ⟨e, heb, hepid, hFe⟩
    · intro u hu
      exact hfu u (List.mem_of_mem_filter hu)
    · intro b hb
      exact hfb b (List.mem_of_mem_filter hb)
  · intro hres
    refine resNonneg_patchPlayer playerId _ hres ?_
    intro p hp hpnn
    exact hpnn
  · refine visMonotone_trans
      (visMonotone_foldl_modTile FB GB (fun e t => rfl) selB s.map)
      (visMonotone_foldl_modTile FU GU (fun e t => rfl) selU m1)

theorem forfeit_stepOK {s : GameState} {playerId : Nat} {s' : GameState}
    (hstep : forfeit s playerId = .ok s') : StepOK s s' := by
  unfold forfeit at hstep
  split at hstep
  · exact Except.noConfusion hstep
  · split at hstep
    · exact Except.noConfusion hstep
    · cases hstep
      exact forfeit_shape s playerId

/-! ## Grid positivity helpers -/

theorem grid_pos {w h : Nat} (hpos : 0 < w * h) : 0 < w ∧ 0 < h := by
  rcases Nat.eq_zero_or_pos w with hw | hw
  · rw [hw, Nat.zero_mul] at hpos
    exact absurd hpos (lt_irrefl 0)
  · rcases Nat.eq_zero_or_pos h with hh | hh
    · rw [hh, Nat.mul_zero] at hpos
      exact absurd hpos (lt_irrefl 0)
    · exact ⟨hw, hh⟩

theorem getTile?_some_grid_pos {w h : Nat} {m : List Tile}
    (hlen : m.length = w * h) {i : Int} {t : Tile}
    (ht : getTile? m i = some t) : 0 < w ∧ 0 < h := by
  obtain ⟨h0, hlt, -⟩ := (getTile?_eq_some_iff m i t).mp ht
  refine grid_pos ?_
  rw [← hlen]
  omega

theorem wrap_clamp_inBounds {w h : Nat} (hw : 0 < w) (hh : 0 < h)
    (x y : Int) : inBoundsPos w h (wrapX x w) (clampY y h) :=
  ⟨wrapX_nonneg x w, wrapX_lt x w (by exact_mod_cast hw), clampY_nonneg y h,
   clampY_lt y h (by exact_mod_cast hh)⟩

/-! ## Construction handlers preserve the invariants -/

theorem placeBuilding_stepOK {s : GameState} {playerId workerId : Nat}
    {buildingType : String} {tX tY : Int} {s' : GameState}
    (hstep : placeBuilding s playerId workerId buildingType tX tY = .ok s') :
    StepOK s s' := by
  unfold placeBuilding at hstep
  split at hstep
  · exact Except.noConfusion hstep
  · rename_i buildingDef hbdef
    by_cases hcity : buildingType = "city"
    · rw [if_pos hcity] at hstep
      exact Except.noConfusion hstep
    · rw [if_neg hcity] at hstep
      split at hstep
      · exact Except.noConfusion hstep
      · rename_i worker hworker
        by_cases h1 : ¬ worker.playerId = playerId
        · rw [if_pos h1] at hstep
          exact Except.noConfusion hstep
        · rw [if_neg h1] at hstep
          by_cases h2 : ¬ worker.type = "worker"
          · rw [if_pos h2] at hstep
            exact Except.noConfusion hstep
          · rw [if_neg h2] at hstep
            by_cases h3 : worker.buildsLeft.getD 0 ≤ 0
            · rw [if_pos h3] at hstep
              exact Except.noConfusion hstep
            · rw [if_neg h3] at hstep
              split at hstep
              · exact Except.noConfusion hstep
              · split at hstep
                · exact Except.noConfusion hstep
                · rename_i player hplayer
                  dsimp only at hstep
                  by_cases h4 : ¬ (worker.x = wrapX tX s.width ∧
                      worker.y = clampY tY s.height)
                  · rw [if_pos h4] at hstep
                    exact Except.noConfusion hstep
                  · rw [if_neg h4] at hstep
                    split at hstep
                    · exact Except.noConfusion hstep
                    · rename_i tile htile
                      by_cases h5 : ¬ tile.unitId = some worker.id
                      · rw [if_pos h5] at hstep
                        exact Except.noConfusion hstep
                      · rw [if_neg h5] at hstep
                        by_cases h6 : tile.buildingId.isSome = true
                        · rw [if_pos h6] at hstep
                          exact Except.noConfusion hstep
                        · rw [if_neg h6] at hstep
                          by_cases h7 : tile.type = "water" ∨
                              tile.type = "bedrock"
                          · rw [if_pos h7] at hstep
                            exact Except.noConfusion hstep
                          · rw [if_neg h7] at hstep
                            by_cases h8 : (match buildingDef.requiredTech with
                                | some t => ! player.techUnlocked.contains t
                                | none => false) = true
                            · rw [if_pos h8] at hstep
                              exact Except.noConfusion hstep
                            · rw [if_neg h8] at hstep
                              by_cases h9 :
                                  (match buildingDef.terrainRequired with
                                  | some l => ! l.contains tile.type
                                  | none => false) = true
                              · rw [if_pos h9] at hstep
                                exact Except.noConfusion hstep
                              · rw [if_neg h9] at hstep
                                by_cases h10 :
                                    (match buildingDef.requiresResource with
                                    | some r => ! tile.resource == some r
                                    | none => false) = true
                                · rw [if_pos h10] at hstep
                                  exact Except.noConfusion hstep
                                · rw [if_neg h10] at hstep
                                  split at hstep
                                  · exact Except.noConfusion hstep
                                  · rename_i updatedResources hupd
                                    cases hstep
                                    refine ⟨?_, ?_, ?_⟩
                                    · intro hInv
                                      obtain ⟨hU, hB, hfu, hfb⟩ := hInv
                                      obtain ⟨hw, hh⟩ :=
                                        getTile?_some_grid_pos hU.1 htile
                                      refine ⟨?_, ?_, ?_, ?_⟩
                                      · refine UOcc_patch ?_ worker.id _
                                          (fun u => ⟨rfl, rfl, rfl⟩)
                                        exact UOcc_mapEq hU _
                                          (length_modTile _ _ _)
                                          (occUnit_modTile_preserve _ _ _
                                            (fun t => rfl))
                                      · refine BOcc_insert hB _
                                          (fun b hb hbid =>
                                            absurd hbid
                                              (Nat.ne_of_lt (hfb b hb)))
                                          (wrap_clamp_inBounds hw hh tX tY)
                                          ?_ _ (length_modTile _ _ _) ?_
                                        · have h6n : tile.buildingId = none :=
                                            Option.not_isSome_iff_eq_none.mp h6
                                          unfold occBuilding
                                          rw [htile]
                                          simpa using h6n
                                        · intro j
                                          exact occBuilding_modTile_set
                                            s.map _ _ s.nextId (fun t => rfl)
                                            (by rw [htile]; rfl) j
                                      · intro u hu
                                        simp only [patchUnit,
                                          List.mem_map] at hu
                                        obtain ⟨v, hv, rfl⟩ := hu
                                        have hvlt := hfu v hv
                                        split <;> exact Nat.lt_succ_of_lt hvlt
                                      · intro b hb
                                        rcases List.mem_append.mp hb with
                                          hb | hb
                                        · exact Nat.lt_succ_of_lt (hfb b hb)
                                        · rw [List.mem_singleton.mp hb]
                                          exact Nat.lt_succ_self _
                                    · intro hres
                                      refine resNonneg_patchPlayer player.id _
                                        (fun p hp => hres p hp) ?_
                                      intro p hp hpnn
                                      exact subtractCost_ok_nonneg hupd
                                    · exact visMonotone_modTile_keep _ _ _
                                        (fun t => rfl)

/-- Occupancy shape of the completed-building rebuild: delete the
construction stub and insert the completed building on the same tile. -/
theorem BOcc_rebuild {w h : Nat} {m : List Tile} {bs : List BuildingDoc}
    (hB : BOcc w h m bs) (b : BuildingDoc) (hmem : b ∈ bs)
    (nb : BuildingDoc) (hfreshAll : ∀ v ∈ bs, ¬ v.id = nb.id)
    (hnx : nb.x = b.x) (hny : nb.y = b.y)
    (m' : List Tile) (hlen : m'.length = m.length)
    (hocc : ∀ j : Int, occBuilding m' j =
      if j = coordToIndex w b.x b.y then some nb.id else occBuilding m j) :
    BOcc w h m' (bs.filter (fun v => ¬ v.id = b.id) ++ [nb]) := by
  have hmid : BOcc w h (modTile m (coordToIndex w b.x b.y)
      (fun t => { t with buildingId := none }))
      (bs.filter (fun v => ¬ v.id = b.id)) :=
    BOcc_delete hB b hmem _ (length_modTile _ _ _)
      (fun j => occBuilding_modTile_clear m _ _ (fun t => rfl) j)
  refine BOcc_insert hmid nb
    (fun v hv => hfreshAll v (List.mem_of_mem_filter hv))
    ?_ ?_ m' (hlen.trans (length_modTile _ _ _).symm) ?_
  · rw [hnx, hny]
    exact (hB.2.2.1 b hmem).1
  · rw [hnx, hny,
      occBuilding_modTile_clear m _ _ (fun t => rfl) _, if_pos rfl]
  · intro j
    rw [hocc j, hnx, hny,
      occBuilding_modTile_clear m _ _ (fun t => rfl) j]
    by_cases hj : j = coordToIndex w b.x b.y
    · rw [if_pos hj, if_pos hj]
    · rw [if_neg hj, if_neg hj, if_neg hj]

/-- The state assembled by the completion branch of `continueBuilding`. -/
theorem continueBuilding_complete_shape (s : GameState)
    (worker : UnitDoc) (tile : Tile) (bid : Nat) (building : BuildingDoc)
    (bd : BuildingDef) (m' : List Tile)
    (htile : getTile? s.map (coordToIndex s.width worker.x worker.y) =
      some tile)
    (hbid : tile.buildingId = some bid)
    (hbuilding : getBuilding? s bid = some building)
    (hve : visExt (modTile s.map (coordToIndex s.width worker.x worker.y)
      (fun t => { t with
                  type := building.type,
                  buildingId :=
                    some (deleteBuilding s building.id).nextId })) m') :
    StepOK s (patchUnit
      { (insertBuilding (deleteBuilding s building.id) (fun nid =>
          { id := nid, playerId := building.playerId, type := building.type,
            x := building.x, y := building.y, hp := bd.hp })).2
        with map := m' }
      worker.id (fun u => { u with movesLeft := 0 })) := by
  have hoccB : occBuilding s.map (coordToIndex s.width worker.x worker.y) =
      some bid := by
    unfold occBuilding
    rw [htile]
    simpa using hbid
  obtain ⟨hge, hlt⟩ := occBuilding_isSome_bounds _ _ _ hoccB
  obtain ⟨hbmem, hbid2⟩ := getBuilding?_mem hbuilding
  have hIDX : (((coordToIndex s.width worker.x worker.y).toNat : Nat) : Int) =
      coordToIndex s.width worker.x worker.y := Int.toNat_of_nonneg hge
  have hlen' : m'.length = s.map.length :=
    hve.1.trans (length_modTile _ _ _)
  refine ⟨?_, fun hres => hres, ?_⟩
  · intro hInv
    obtain ⟨hU, hB, hfu, hfb⟩ := hInv
    obtain ⟨hl, hnd, hpos, hback⟩ := hB
    obtain ⟨b', hb'mem, hb'id, hb'idx⟩ := hback _ hlt bid
      (by rw [hIDX]; exact hoccB)
    have hb'eq : b' = building :=
      nodup_map_inj hnd hb'mem hbmem (hb'id.trans hbid2.symm)
    have hbidx : coordToIndex s.width building.x building.y =
        coordToIndex s.width worker.x worker.y := by
      rw [← hb'eq, hb'idx, hIDX]
    refine ⟨?_, ?_, ?_, ?_⟩
    · refine UOcc_patch ?_ worker.id _ (fun u => ⟨rfl, rfl, rfl⟩)
      refine UOcc_mapEq hU m' hlen' ?_
      intro j
      rw [visExt_occUnit hve j]
      exact occUnit_modTile_preserve s.map
        (coordToIndex s.width worker.x worker.y)
        (fun t => { t with
                    type := building.type,
                    buildingId :=
                      some (deleteBuilding s building.id).nextId })
        (fun t => rfl) j
    · refine BOcc_rebuild ⟨hl, hnd, hpos, hback⟩ building hbmem
        { id := (deleteBuilding s building.id).nextId,
          playerId := building.playerId, type := building.type,
          x := building.x, y := building.y, hp := bd.hp }
        (fun v hv => Nat.ne_of_lt (hfb v hv)) rfl rfl m' hlen' ?_
      intro j
      rw [visExt_occBuilding hve j, hbidx,
        occBuilding_modTile_set s.map _ _ (deleteBuilding s building.id).nextId
          (fun t => rfl) (by rw [htile]; rfl) j]
    · intro u hu
      simp only [patchUnit, List.mem_map] at hu
      obtain ⟨v, hv, rfl⟩ := hu
      have hvlt := hfu v hv
      split <;> exact Nat.lt_succ_of_lt hvlt
    · intro b hb
      rcases List.mem_append.mp hb with hb | hb
      · exact Nat.lt_succ_of_lt (hfb b (List.mem_of_mem_filter hb))
      · rw [List.mem_singleton.mp hb]
        exact Nat.lt_succ_self _
  · exact visMonotone_trans
      (visMonotone_modTile_keep s.map
        (coordToIndex s.width worker.x worker.y)
        (fun t => { t with
                    type := building.type,
                    buildingId :=
                      some (deleteBuilding s building.id).nextId })
        (fun t => rfl))
      (visMonotone_of_visExt hve)

theorem continueBuilding_stepOK {s : GameState} {playerId workerId : Nat}
    {s' : GameState}
    (hstep : continueBuilding s playerId workerId = .ok s') :
    StepOK s s' := by
  unfold continueBuilding at hstep
  split at hstep
  · exact Except.noConfusion hstep
  · rename_i worker hworker
    by_cases h1 : ¬ worker.playerId = playerId
    · rw [if_pos h1] at hstep
      exact Except.noConfusion hstep
    · rw [if_neg h1] at hstep
      by_cases h2 : ¬ worker.type = "worker"
      · rw [if_pos h2] at hstep
        exact Except.noConfusion hstep
      · rw [if_neg h2] at hstep
        split at hstep
        · exact Except.noConfusion hstep
        · dsimp only at hstep
          split at hstep
          · exact Except.noConfusion hstep
          · rename_i tile htile
            split at hstep
            · exact Except.noConfusion hstep
            · rename_i bid hbid
              split at hstep
              · exact Except.noConfusion hstep
              · rename_i building hbuilding
                by_cases h3 : ¬ building.isConstructing.getD false = true
                · rw [if_pos h3] at hstep
                  exact Except.noConfusion hstep
                · rw [if_neg h3] at hstep
                  by_cases h4 : ¬ building.workerId = some worker.id
                  · rw [if_pos h4] at hstep
                    exact Except.noConfusion hstep
                  · rw [if_neg h4] at hstep
                    split at hstep
                    · exact Except.noConfusion hstep
                    · rename_i buildingDef hbdef
                      by_cases h5 : building.turnsToComplete.getD 1 ≤
                          building.buildProgress.getD 0 + 1
                      · rw [if_pos h5] at hstep
                        by_cases h6 : ¬ buildingDef.providesVision.getD 0 = 0
                        · rw [if_pos h6] at hstep
                          split at hstep
                          · exact Except.noConfusion hstep
                          · rename_i mfinal hrev
                            cases hstep
                            exact continueBuilding_complete_shape s worker
                              tile bid building buildingDef mfinal htile hbid
                              hbuilding (revealAround_visExt _ _ _ _ _ _ _ _ _
                                hrev)
                        · rw [if_neg h6] at hstep
                          dsimp only at hstep
                          cases hstep
                          exact continueBuilding_complete_shape s worker
                            tile bid building buildingDef _ htile hbid
                            hbuilding (visExt_refl _)
                      · rw [if_neg h5] at hstep
                        cases hstep
                        refine ⟨?_, fun hres => hres, visMonotone_refl _⟩
                        intro hInv
                        exact Inv_patchUnit _ worker.id _
                          (fun u => ⟨rfl, rfl, rfl⟩)
                          (Inv_patchBuilding _ building.id _
                            (fun b => ⟨rfl, rfl, rfl⟩) hInv)

/-- The state assembled by a successful `foundCity`. -/
theorem foundCity_shape (s : GameState) (unit : UnitDoc) (tile : Tile)
    (bd : BuildingDef) (updatedResources : ResourcePool) (ppid : Nat)
    (m' : List Tile)
    (hunit : unit ∈ s.units)
    (htile : getTile? s.map (coordToIndex s.width unit.x unit.y) = some tile)
    (hnob : tile.buildingId = none)
    (hupd : poolNonneg updatedResources)
    (hve : visExt (modTile s.map (coordToIndex s.width unit.x unit.y)
      (fun t => { t with
                  type := "city", buildingId := some s.nextId,
                  unitId := none, resource := none })) m') :
    StepOK s (deleteUnit (patchPlayer
      { (insertBuilding s (fun nid =>
          { id := nid, playerId := ppid, type := "city",
            x := unit.x, y := unit.y, hp := bd.hp })).2 with map := m' }
      ppid (fun p => { p with resources := updatedResources }))
      unit.id) := by
  have hlen' : m'.length = s.map.length :=
    hve.1.trans (length_modTile _ _ _)
  refine ⟨?_, ?_, ?_⟩
  · intro hInv
    obtain ⟨hU, hB, hfu, hfb⟩ := hInv
    refine ⟨?_, ?_, ?_, ?_⟩
    · refine UOcc_delete hU unit hunit m' hlen' ?_
      intro j
      rw [visExt_occUnit hve j]
      exact occUnit_modTile_clear s.map _ _ (fun t => rfl) j
    · refine BOcc_insert hB
        { id := s.nextId, playerId := ppid, type := "city",
          x := unit.x, y := unit.y, hp := bd.hp }
        (fun v hv => Nat.ne_of_lt (hfb v hv))
        (hU.2.2.1 unit hunit).1 ?_ m' hlen' ?_
      · unfold occBuilding
        rw [htile]
        simpa using hnob
      · intro j
        rw [visExt_occBuilding hve j]
        exact occBuilding_modTile_set s.map _ _ s.nextId (fun t => rfl)
          (by rw [htile]; rfl) j
    · intro u hu
      exact Nat.lt_succ_of_lt (hfu u (List.mem_of_mem_filter hu))
    · intro b hb
      rcases List.mem_append.mp hb with hb | hb
      · exact Nat.lt_succ_of_lt (hfb b hb)
      · rw [List.mem_singleton.mp hb]
        exact Nat.lt_succ_self _
  · intro hres
    refine resNonneg_patchPlayer ppid _ (fun p hp => hres p hp) ?_
    intro p hp hpnn
    exact hupd
  · exact visMonotone_trans
      (visMonotone_modTile_keep s.map
        (coordToIndex s.width unit.x unit.y)
        (fun t => { t with
                    type := "city", buildingId := some s.nextId,
                    unitId := none, resource := none })
        (fun t => rfl))
      (visMonotone_of_visExt hve)

theorem foundCity_stepOK {s : GameState} {unitId playerId : Nat}
    {s' : GameState} (hstep : foundCity s unitId playerId = .ok s') :
    StepOK s s' := by
  unfold foundCity at hstep
  split at hstep
  · exact Except.noConfusion hstep
  · rename_i unit hunit
    by_cases h1 : ¬ unit.playerId = playerId
    · rw [if_pos h1] at hstep
      exact Except.noConfusion hstep
    · rw [if_neg h1] at hstep
      by_cases h2 : ¬ unit.type = "settler"
      · rw [if_pos h2] at hstep
        exact Except.noConfusion hstep
      · rw [if_neg h2] at hstep
        split at hstep
        · exact Except.noConfusion hstep
        · split at hstep
          · exact Except.noConfusion hstep
          · rename_i player hplayer
            split at hstep
            · exact Except.noConfusion hstep
            · rename_i buildDef hbdef
              dsimp only at hstep
              split at hstep
              · exact Except.noConfusion hstep
              · rename_i tile htile
                by_cases h3 : tile.type = "water" ∨ tile.type = "bedrock"
                · rw [if_pos h3] at hstep
                  exact Except.noConfusion hstep
                · rw [if_neg h3] at hstep
                  by_cases h4 : tile.buildingId.isSome = true
                  · rw [if_pos h4] at hstep
                    exact Except.noConfusion hstep
                  · rw [if_neg h4] at hstep
                    split at hstep
                    · exact Except.noConfusion hstep
                    · rename_i updatedResources hupd
                      obtain ⟨humem, huid⟩ := getUnit?_mem hunit
                      subst huid
                      by_cases h5 : ¬ buildDef.providesVision.getD 0 = 0
                      · rw [if_pos h5] at hstep
                        split at hstep
                        · exact Except.noConfusion hstep
                        · rename_i mfinal hrev
                          cases hstep
                          exact foundCity_shape s unit tile buildDef
                            updatedResources player.id mfinal humem htile
                            (Option.not_isSome_iff_eq_none.mp h4)
                            (subtractCost_ok_nonneg hupd)
                            (revealAround_visExt _ _ _ _ _ _ _ _ _ hrev)
                      · rw [if_neg h5] at hstep
                        dsimp only at hstep
                        cases hstep
                        exact foundCity_shape s unit tile buildDef
                          updatedResources player.id _ humem htile
                          (Option.not_isSome_iff_eq_none.mp h4)
                          (subtractCost_ok_nonneg hupd)
                          (visExt_refl _)

/-- A successful `findSpawnTile` candidate is a wrapped/clamped coordinate
whose tile exists and holds no unit. -/
theorem findSpawnTileGo_ok_some (width height : Nat) (m : List Tile)
    (canFly : Bool) :
    ∀ (cs : List (Int × Int)) (loc : Int × Int),
      findSpawnTileGo width height m canFly cs = .ok (some loc) →
      (∃ cx cy : Int, loc = (wrapX cx width, clampY cy height)) ∧
      ∃ t, getTile? m (coordToIndex width loc.1 loc.2) = some t ∧
        t.unitId = none
  | [], loc, h => by
      rw [show findSpawnTileGo width height m canFly [] =
        (.ok none : Except String (Option (Int × Int))) from rfl] at h
      exact Option.noConfusion (Except.ok.inj h)
  | c :: rest, loc, h => by
      unfold findSpawnTileGo at h
      dsimp only at h
      split at h
      · exact Except.noConfusion h
      · rename_i tile htile
        split at h
        · exact findSpawnTileGo_ok_some width height m canFly rest loc h
        · split at h
          · exact findSpawnTileGo_ok_some width height m canFly rest loc h
          · split at h
            · exact findSpawnTileGo_ok_some width height m canFly rest loc h
            · rename_i hocc hpass hair
              cases Option.some.inj (Except.ok.inj h)
              refine ⟨⟨c.1, c.2, rfl⟩, tile, htile, ?_⟩
              simpa using Option.not_isSome_iff_eq_none.mp (by simpa using hocc)

theorem findSpawnTile_ok_some {width height : Nat} {b : BuildingDoc}
    {m : List Tile} {canFly : Bool} {loc : Int × Int}
    (h : findSpawnTile width height b m canFly = .ok (some loc)) :
    (∃ cx cy : Int, loc = (wrapX cx width, clampY cy height)) ∧
    ∃ t, getTile? m (coordToIndex width loc.1 loc.2) = some t ∧
      t.unitId = none := by
  unfold findSpawnTile at h
  exact findSpawnTileGo_ok_some width height m canFly _ loc h

/-- The state assembled by a successful `spawnUnit`. -/
theorem spawnUnit_shape (s : GameState) (loc : Int × Int)
    (unitType : String) (ud : UnitDef) (updatedResources : ResourcePool)
    (ppid : Nat) (m' : List Tile) (t : Tile)
    (htile : getTile? s.map (coordToIndex s.width loc.1 loc.2) = some t)
    (hempty : t.unitId = none)
    (hwrap : ∃ cx cy : Int, loc = (wrapX cx s.width, clampY cy s.height))
    (hupd : poolNonneg updatedResources)
    (hve : visExt (modTile s.map (coordToIndex s.width loc.1 loc.2)
      (fun tt => { tt with unitId := some s.nextId })) m') :
    StepOK s (patchPlayer
      { (insertUnit s (fun nid =>
          { id := nid, playerId := ppid, type := unitType,
            x := loc.1, y := loc.2, hp := ud.hp,
            movesLeft := ud.maxMoves, maxMoves := ud.maxMoves,
            buildsLeft := ud.buildsLeft })).2 with map := m' }
      ppid (fun p => { p with resources := updatedResources })) := by
  have hlen' : m'.length = s.map.length :=
    hve.1.trans (length_modTile _ _ _)
  have hoccU : occUnit s.map (coordToIndex s.width loc.1 loc.2) = none := by
    unfold occUnit
    rw [htile]
    simpa using hempty
  refine ⟨?_, ?_, ?_⟩
  · intro hInv
    obtain ⟨hU, hB, hfu, hfb⟩ := hInv
    obtain ⟨hw, hh⟩ := getTile?_some_grid_pos hU.1 htile
    refine ⟨?_, ?_, ?_, ?_⟩
    · refine UOcc_insert hU
        { id := s.nextId, playerId := ppid, type := unitType,
          x := loc.1, y := loc.2, hp := ud.hp,
          movesLeft := ud.maxMoves, maxMoves := ud.maxMoves,
          buildsLeft := ud.buildsLeft }
        (fun v hv => Nat.ne_of_lt (hfu v hv)) ?_ hoccU m' hlen' ?_
      · obtain ⟨cx, cy, hloc⟩ := hwrap
        rw [hloc]
        exact wrap_clamp_inBounds hw hh cx cy
      · intro j
        rw [visExt_occUnit hve j]
        exact occUnit_modTile_set s.map _ _ s.nextId (fun tt => rfl)
          (by rw [htile]; rfl) j
    · refine BOcc_mapEq hB m' hlen' ?_
      intro j
      rw [visExt_occBuilding hve j]
      exact occBuilding_modTile_preserve s.map
        (coordToIndex s.width loc.1 loc.2)
        (fun tt => { tt with unitId := some s.nextId }) (fun tt => rfl) j
    · intro u hu
      rcases List.mem_append.mp hu with hu | hu
      · exact Nat.lt_succ_of_lt (hfu u hu)
      · rw [List.mem_singleton.mp hu]
        exact Nat.lt_succ_self _
    · intro b hb
      exact Nat.lt_succ_of_lt (hfb b hb)
  · intro hres
    refine resNonneg_patchPlayer ppid _ (fun p hp => hres p hp) ?_
    intro p hp hpnn
    exact hupd
  · exact visMonotone_trans
      (visMonotone_modTile_keep s.map (coordToIndex s.width loc.1 loc.2)
        (fun tt => { tt with unitId := some s.nextId }) (fun tt => rfl))
      (visMonotone_of_visExt hve)

theorem spawnUnit_stepOK {s : GameState} {playerId buildingId : Nat}
    {unitType : String} {s' : GameState}
    (hstep : spawnUnit s playerId buildingId unitType = .ok s') :
    StepOK s s' := by
  unfold spawnUnit at hstep
  split at hstep
  · exact Except.noConfusion hstep
  · rename_i unitDef hudef
    split at hstep
    · exact Except.noConfusion hstep
    · rename_i building hbuilding
      by_cases h1 : ¬ building.playerId = playerId
      · rw [if_pos h1] at hstep
        exact Except.noConfusion hstep
      · rw [if_neg h1] at hstep
        split at hstep
        · exact Except.noConfusion hstep
        · rename_i buildingDef hbdef
          by_cases h2 : ¬ buildingDef.canSpawnUnits = true
          · rw [if_pos h2] at hstep
            exact Except.noConfusion hstep
          · rw [if_neg h2] at hstep
            by_cases h3 : (match buildingDef.spawnableUnits with
                | some l => ! l.contains unitType
                | none => false) = true
            · rw [if_pos h3] at hstep
              exact Except.noConfusion hstep
            · rw [if_neg h3] at hstep
              split at hstep
              · exact Except.noConfusion hstep
              · split at hstep
                · exact Except.noConfusion hstep
                · rename_i player hplayer
                  by_cases h4 : (match unitDef.requiredTech with
                      | some t => ! player.techUnlocked.contains t
                      | none => false) = true
                  · rw [if_pos h4] at hstep
                    exact Except.noConfusion hstep
                  · rw [if_neg h4] at hstep
                    split at hstep
                    · exact Except.noConfusion hstep
                    · rename_i updatedResources hupd
                      split at hstep
                      · exact Except.noConfusion hstep
                      · exact Except.noConfusion hstep
                      · rename_i spawnLocation hfind
                        dsimp only at hstep
                        obtain ⟨hwrap, t, htile, hempty⟩ :=
                          findSpawnTile_ok_some hfind
                        by_cases h5 : ¬ unitDef.vision = 0
                        · rw [if_pos h5] at hstep
                          split at hstep
                          · exact Except.noConfusion hstep
                          · rename_i mfinal hrev
                            cases hstep
                            exact spawnUnit_shape s spawnLocation unitType
                              unitDef updatedResources player.id mfinal t
                              htile hempty hwrap
                              (subtractCost_ok_nonneg hupd)
                              (revealAround_visExt _ _ _ _ _ _ _ _ _ hrev)
                        · rw [if_neg h5] at hstep
                          dsimp only at hstep
                          cases hstep
                          exact spawnUnit_shape s spawnLocation unitType
                            unitDef updatedResources player.id _ t
                            htile hempty hwrap
                            (subtractCost_ok_nonneg hupd)
                            (visExt_refl _)

/-! ## Combat preservation -/

/-- Resolve a tile's unit back-reference to the unit document it denotes. -/
theorem occUnit_resolve {s : GameState} {duid : Nat} {du : UnitDoc} {i : Int}
    (hdu : getUnit? s duid = some du)
    (hocc : occUnit s.map i = some duid) (hInv : Inv s) :
    du ∈ s.units ∧ coordToIndex s.width du.x du.y = i := by
  obtain ⟨hU, hB, hfu, hfb⟩ := hInv
  obtain ⟨hl, hnd, hpos, hback⟩ := hU
  obtain ⟨hge, hlt⟩ := occUnit_isSome_bounds _ _ _ hocc
  obtain ⟨hmem, hid⟩ := getUnit?_mem hdu
  obtain ⟨u2, hu2mem, hu2id, hu2idx⟩ := hback _ hlt duid
    (by rw [Int.toNat_of_nonneg hge]; exact hocc)
  have he : u2 = du := nodup_map_inj hnd hu2mem hmem (hu2id.trans hid.symm)
  rw [he] at hu2idx
  exact ⟨hmem, hu2idx.trans (Int.toNat_of_nonneg hge)⟩

/-- Resolve a tile's building back-reference. -/
theorem occBuilding_resolve {s : GameState} {dbid : Nat} {db : BuildingDoc}
    {i : Int} (hdb : getBuilding? s dbid = some db)
    (hocc : occBuilding s.map i = some dbid) (hInv : Inv s) :
    db ∈ s.buildings ∧ coordToIndex s.width db.x db.y = i := by
  obtain ⟨hU, hB, hfu, hfb⟩ := hInv
  obtain ⟨hl, hnd, hpos, hback⟩ := hB
  obtain ⟨hge, hlt⟩ := occBuilding_isSome_bounds _ _ _ hocc
  obtain ⟨hmem, hid⟩ := getBuilding?_mem hdb
  obtain ⟨b2, hb2mem, hb2id, hb2idx⟩ := hback _ hlt dbid
    (by rw [Int.toNat_of_nonneg hge]; exact hocc)
  have he : b2 = db := nodup_map_inj hnd hb2mem hmem (hb2id.trans hid.symm)
  rw [he] at hb2idx
  exact ⟨hmem, hb2idx.trans (Int.toNat_of_nonneg hge)⟩

/-- Deleting a unit together with its tile marker, then re-checking player
elimination, preserves everything. The membership facts are only needed
under `Inv`. -/
theorem kill_unit_shape (s : GameState) (du : UnitDoc) (targetIdx : Int)
    (hfact : Inv s → du ∈ s.units ∧
      coordToIndex s.width du.x du.y = targetIdx) :
    StepOK s (checkPlayerElimination
      { deleteUnit s du.id with
        map := modTile s.map targetIdx
          (fun t => { t with unitId := none }) }) := by
  refine ⟨?_, ?_, ?_⟩
  · intro hInv
    obtain ⟨hmem, hidx⟩ := hfact hInv
    obtain ⟨hU, hB, hfu, hfb⟩ := hInv
    refine Inv_checkPlayerElimination _ ⟨?_, ?_, ?_, ?_⟩
    · refine UOcc_delete hU du hmem _ (length_modTile _ _ _) ?_
      intro j
      rw [hidx]
      exact occUnit_modTile_clear s.map targetIdx
        (fun t => { t with unitId := none }) (fun t => rfl) j
    · refine BOcc_mapEq hB _ (length_modTile _ _ _) ?_
      intro j
      exact occBuilding_modTile_preserve s.map targetIdx
        (fun t => { t with unitId := none }) (fun t => rfl) j
    · intro u hu
      exact hfu u (List.mem_of_mem_filter hu)
    · exact hfb
  · intro hres
    exact resNonneg_checkPlayerElimination hres
  · exact visMonotone_modTile_keep s.map targetIdx
      (fun t => { t with unitId := none }) (fun t => rfl)

/-- Destroying a building: delete the document, clear the tile (reverting
its terrain), exhaust the attacker, re-check elimination. -/
theorem kill_building_shape (s : GameState) (db : BuildingDoc)
    (attackerId : Nat) (targetIdx : Int)
    (hfact : Inv s → db ∈ s.buildings ∧
      coordToIndex s.width db.x db.y = targetIdx) :
    StepOK s (checkPlayerElimination (patchUnit
      { deleteBuilding s db.id with
        map := modTile s.map targetIdx
          (fun t => { t with buildingId := none, type := "surface" }) }
      attackerId (fun v => { v with movesLeft := 0 }))) := by
  refine ⟨?_, ?_, ?_⟩
  · intro hInv
    obtain ⟨hmem, hidx⟩ := hfact hInv
    obtain ⟨hU, hB, hfu, hfb⟩ := hInv
    refine Inv_checkPlayerElimination _ ⟨?_, ?_, ?_, ?_⟩
    · refine UOcc_patch ?_ attackerId _ (fun u => ⟨rfl, rfl, rfl⟩)
      refine UOcc_mapEq hU _ (length_modTile _ _ _) ?_
      intro j
      exact occUnit_modTile_preserve s.map targetIdx
        (fun t => { t with buildingId := none, type := "surface" })
        (fun t => rfl) j
    · refine BOcc_delete hB db hmem _ (length_modTile _ _ _) ?_
      intro j
      rw [hidx]
      exact occBuilding_modTile_clear s.map targetIdx
        (fun t => { t with buildingId := none, type := "surface" })
        (fun t => rfl) j
    · intro u hu
      simp only [patchUnit, List.mem_map] at hu
      obtain ⟨v, hv, rfl⟩ := hu
      split <;> exact hfu v hv
    · intro b hb
      exact hfb b (List.mem_of_mem_filter hb)
  · intro hres
    exact resNonneg_checkPlayerElimination hres
  · exact visMonotone_modTile_keep s.map targetIdx
      (fun t => { t with buildingId := none, type := "surface" })
      (fun t => rfl)

theorem patchUnit_mem_of_ne {s : GameState} {uid : Nat}
    {g : UnitDoc → UnitDoc} {v : UnitDoc} (hv : v ∈ s.units)
    (hne : ¬ v.id = uid) : v ∈ (patchUnit s uid g).units := by
  simp only [patchUnit]
  have := List.mem_map_of_mem (fun u => if u.id = uid then g u else u) hv
  simpa [if_neg hne] using this

/-- The id list of the units is unchanged by a key-preserving patch, so the
patched invariant still certifies that the original ids are distinct. -/
theorem nodup_units_of_patchUnit {s : GameState} {uid : Nat}
    {g : UnitDoc → UnitDoc} (hInv : Inv (patchUnit s uid g))
    (hg : ∀ v, (g v).id = v.id) :
    (s.units.map (fun u => u.id)).Nodup := by
  have hnd := hInv.1.2.1
  have heq : (patchUnit s uid g).units.map (fun u => u.id) =
      s.units.map (fun u => u.id) := by
    simp only [patchUnit, List.map_map]
    refine List.map_congr_left (fun v hv => ?_)
    by_cases h : v.id = uid
    · simp [Function.comp, if_pos h, hg v]
    · simp [Function.comp, if_neg h]
  rwa [heq] at hnd

theorem attackUnitCombat_stepOK (s : GameState) (attacker : UnitDoc)
    (attackerDef : UnitDef) (playerId : Nat) (targetTile : Tile)
    (targetIdx : Int) (distance : Int) (du : UnitDoc)
    (hmemAtt : attacker ∈ s.units)
    (hpneq : ¬ attacker.playerId = du.playerId)
    (hmemDu : du ∈ s.units)
    (hidxDu : Inv s → coordToIndex s.width du.x du.y = targetIdx) :
    StepOK s (attackUnitCombat s attacker attackerDef playerId targetTile
      targetIdx distance du).1 := by
  unfold attackUnitCombat
  dsimp only
  split
  · -- defender dies
    exact kill_unit_shape s du targetIdx (fun hInv => ⟨hmemDu, hidxDu hInv⟩)
  · split
    · -- a defender roster row exists
      split
      · -- counter-attack happens
        split
        · -- attacker dies
          refine StepOK_trans ?_ (kill_unit_shape _ attacker _ ?_)
          · exact ⟨Inv_patchUnit s du.id _ (fun u => ⟨rfl, rfl, rfl⟩),
              fun h => h, visMonotone_refl _⟩
          · intro hInv2
            have hnd : (s.units.map (fun u => u.id)).Nodup :=
              nodup_units_of_patchUnit hInv2 (fun v => rfl)
            have hne : ¬ attacker.id = du.id := fun he =>
              hpneq (by rw [nodup_map_inj hnd hmemAtt hmemDu he])
            exact ⟨patchUnit_mem_of_ne hmemAtt hne, rfl⟩
        · -- both survive
          exact ⟨fun hInv => Inv_checkPlayerElimination _
              (Inv_patchUnit _ attacker.id _ (fun u => ⟨rfl, rfl, rfl⟩)
                (Inv_patchUnit _ du.id _ (fun u => ⟨rfl, rfl, rfl⟩) hInv)),
            fun hres => resNonneg_checkPlayerElimination hres,
            visMonotone_refl _⟩
      · -- out of range or zero counter-attack
        exact ⟨fun hInv => Inv_checkPlayerElimination _
            (Inv_patchUnit _ attacker.id _ (fun u => ⟨rfl, rfl, rfl⟩)
              (Inv_patchUnit _ du.id _ (fun u => ⟨rfl, rfl, rfl⟩) hInv)),
          fun hres => resNonneg_checkPlayerElimination hres,
          visMonotone_refl _⟩
    · -- no roster row for the defender type
      exact ⟨fun hInv => Inv_checkPlayerElimination _
          (Inv_patchUnit _ attacker.id _ (fun u => ⟨rfl, rfl, rfl⟩)
            (Inv_patchUnit _ du.id _ (fun u => ⟨rfl, rfl, rfl⟩) hInv)),
        fun hres => resNonneg_checkPlayerElimination hres,
        visMonotone_refl _⟩

theorem attackBuildingCombat_stepOK (s : GameState) (attacker : UnitDoc)
    (attackerDef : UnitDef) (targetIdx : Int) (db : BuildingDoc)
    (hfactDb : Inv s → db ∈ s.buildings ∧
      coordToIndex s.width db.x db.y = targetIdx) :
    StepOK s (attackBuildingCombat s attacker attackerDef targetIdx db).1 := by
  unfold attackBuildingCombat
  dsimp only
  split
  · exact kill_building_shape s db attacker.id targetIdx hfactDb
  · exact ⟨fun hInv => Inv_checkPlayerElimination _
        (Inv_patchUnit _ attacker.id _ (fun u => ⟨rfl, rfl, rfl⟩)
          (Inv_patchBuilding _ db.id _ (fun b => ⟨rfl, rfl, rfl⟩) hInv)),
      fun hres => resNonneg_checkPlayerElimination hres,
      visMonotone_refl _⟩

theorem attack_stepOK {s : GameState} {attackerUnitId playerId : Nat}
    {tX tY : Int} {s' : GameState} {res : AttackResult}
    (hstep : attack s attackerUnitId playerId tX tY = .ok (s', res)) :
    StepOK s s' := by
  unfold attack at hstep
  split at hstep
  · exact Except.noConfusion hstep
  · rename_i attacker hattacker
    by_cases h1 : ¬ attacker.playerId = playerId
    · rw [if_pos h1] at hstep
      exact Except.noConfusion hstep
    · rw [if_neg h1] at hstep
      split at hstep
      · exact Except.noConfusion hstep
      · by_cases h2 : attacker.movesLeft ≤ 0
        · rw [if_pos h2] at hstep
          exact Except.noConfusion hstep
        · rw [if_neg h2] at hstep
          split at hstep
          · exact Except.noConfusion hstep
          · rename_i attackerDef hadef
            dsimp only at hstep
            split at hstep
            · exact Except.noConfusion hstep
            · split at hstep
              · exact Except.noConfusion hstep
              · split at hstep
                · exact Except.noConfusion hstep
                · rename_i targetTile htile
                  split at hstep
                  · exact Except.noConfusion hstep
                  · rename_i defenderUnit hdefu
                    split at hstep
                    · exact Except.noConfusion hstep
                    · rename_i defenderBuilding hdefb
                      split at hstep
                      · exact Except.noConfusion hstep
                      · -- unit-versus-unit combat
                        rename_i x1 du
                        have hpair := Except.ok.inj hstep
                        have hs2 : s' = (attackUnitCombat s attacker
                            attackerDef playerId targetTile
                            (coordToIndex s.width (wrapX tX s.width)
                              (clampY tY s.height))
                            (manhattanDistance s.width attacker.x attacker.y
                              (wrapX tX s.width) (clampY tY s.height))
                            du).1 := by
                          rw [hpair]
                        rw [hs2]
                        split at hdefu
                        · -- a unit id on the target tile
                          rename_i duid hduid
                          split at hdefu
                          · -- the unit document exists
                            rename_i du0 hgu
                            split at hdefu
                            · exact Except.noConfusion hdefu
                            · rename_i hdup
                              have hdu0 : du0 = du :=
                                Option.some.inj (Except.ok.inj hdefu)
                              subst hdu0
                              refine attackUnitCombat_stepOK s attacker
                                attackerDef playerId targetTile _ _ du0
                                (getUnit?_mem hattacker).1 ?_
                                (getUnit?_mem hgu).1 ?_
                              · intro hpe
                                push_neg at h1
                                rw [hpe] at h1
                                exact hdup h1
                              · intro hInv
                                refine (occUnit_resolve hgu ?_ hInv).2
                                unfold occUnit
                                rw [htile]
                                simpa using hduid
                          · exact Option.noConfusion (Except.ok.inj hdefu)
                        · exact Option.noConfusion (Except.ok.inj hdefu)
                      · -- unit-versus-building combat
                        rename_i x2 db
                        have hpair := Except.ok.inj hstep
                        have hs2 : s' = (attackBuildingCombat s attacker
                            attackerDef
                            (coordToIndex s.width (wrapX tX s.width)
                              (clampY tY s.height)) db).1 := by
                          rw [hpair]
                        rw [hs2]
                        split at hdefb
                        · exact Option.noConfusion (Except.ok.inj hdefb)
                        · rename_i hnou
                          split at hdefb
                          · -- a building id on the target tile
                            rename_i dbid hdbid
                            split at hdefb
                            · rename_i db0 hgb
                              split at hdefb
                              · exact Except.noConfusion hdefb
                              · have hdb0 : db0 = db :=
                                  Option.some.inj (Except.ok.inj hdefb)
                                subst hdb0
                                refine attackBuildingCombat_stepOK s attacker
                                  attackerDef _ db0 ?_
                                intro hInv
                                refine occBuilding_resolve hgb ?_ hInv
                                unfold occBuilding
                                rw [htile]
                                simpa using hdbid
                            · exact Option.noConfusion (Except.ok.inj hdefb)
                          · exact Option.noConfusion (Except.ok.inj hdefb)

/-- Every roll selects one of the two configured rewards: the map reveal or
the tech log. -/
theorem selectRuinReward_type (roll : ℚ) :
    (selectRuinReward roll).type = RuinRewardType.map ∨
    (selectRuinReward roll).type = RuinRewardType.tech := by
  unfold selectRuinReward RUIN_REWARDS pickRuinReward
  split
  · left
    rfl
  · unfold pickRuinReward
    split
    · right
      rfl
    · left
      rfl

/-- What a successful ruins-reward application can do: the game document
keeps its map, entities and allocator, resources stay non-negative, and the
working map keeps its length, its occupants and (monotonically) its
visibility. -/
theorem applyRuinRewardCore_ok {s : GameState} {m : List Tile} {u : UnitDoc}
    {playerId : Nat} {tx ty fromIdx : Int} {roll : ℚ} {player : PlayerDoc}
    {s2 : GameState} {m2 : List Tile}
    (hp : player ∈ s.players)
    (h : applyRuinRewardCore s m u playerId tx ty fromIdx
      (selectRuinReward roll) player = .ok (s2, m2)) :
    (∃ P, s2 = { s with players := P }) ∧
    (resNonneg s → resNonneg s2) ∧
    m2.length = m.length ∧ (∀ j, occUnit m2 j = occUnit m j) ∧
    (∀ j, occBuilding m2 j = occBuilding m j) ∧ visMonotone m m2 := by
  unfold applyRuinRewardCore at h
  split at h
  · -- resource grant: no table entry carries it
    rename_i hcond
    rcases selectRuinReward_type roll with ht | ht <;>
      rw [ht] at hcond <;> exact absurd hcond.1 (by simp)
  · split at h
    · -- free unit: no table entry carries it
      rename_i hcond
      rcases selectRuinReward_type roll with ht | ht <;>
        rw [ht] at hcond <;> exact absurd hcond.1 (by simp)
    · split at h
      · -- vision reveal
        split at h
        · exact Except.noConfusion h
        · rename_i m3 hrev
          cases h
          have hve := revealAround_visExt _ _ _ _ _ _ _ _ _ hrev
          exact ⟨⟨s.players, rfl⟩, fun hres => hres, hve.1,
            fun j => visExt_occUnit hve j,
            fun j => visExt_occBuilding hve j,
            visMonotone_of_visExt hve⟩
      · split at h
        · -- tech log: a flat 30 flux grant
          cases h
          refine ⟨⟨_, rfl⟩, ?_, rfl,
            fun j => rfl, fun j => rfl, visMonotone_refl m⟩
          intro hres
          refine resNonneg_patchPlayer player.id _ hres ?_
          intro p hp2 hpnn
          exact addResources_nonneg (hres player hp)
            ⟨by norm_num, by norm_num, by norm_num⟩
        · -- no branch taken
          cases h
          exact ⟨⟨s.players, rfl⟩, fun hres => hres, rfl,
            fun j => rfl, fun j => rfl, visMonotone_refl m⟩

theorem applyRuinReward_ok {s : GameState} {m : List Tile} {u : UnitDoc}
    {playerId : Nat} {fromIdx toIdx tx ty : Int} {roll : ℚ}
    {s2 : GameState} {m2 : List Tile}
    (h : applyRuinReward s m u playerId fromIdx toIdx tx ty roll =
      .ok (s2, m2)) :
    (∃ P, s2 = { s with players := P }) ∧
    (resNonneg s → resNonneg s2) ∧
    m2.length = m.length ∧ (∀ j, occUnit m2 j = occUnit m j) ∧
    (∀ j, occBuilding m2 j = occBuilding m j) ∧ visMonotone m m2 := by
  unfold applyRuinReward at h
  split at h
  · exact Except.noConfusion h
  · rename_i player hplayer
    dsimp only at h
    split at h
    · exact Except.noConfusion h
    · rename_i sm hcore
      have hfix : applyRuinRewardUnitFix sm.1 sm.2 u fromIdx
          (selectRuinReward roll) player = (sm.1, sm.2) := by
        unfold applyRuinRewardUnitFix
        rw [if_neg ?_]
        rcases selectRuinReward_type roll with ht | ht <;>
          rw [ht] <;> exact (by simp)
      rw [hfix] at h
      cases h
      obtain ⟨hP, h7, h8, h9, h10, h11⟩ :=
        applyRuinRewardCore_ok (getPlayerOrThrow_ok hplayer).1 hcore
      refine ⟨hP, h7,
        (length_modTile _ _ _).trans h8, ?_, ?_, ?_⟩
      · intro j
        rw [occUnit_modTile_preserve sm.2 toIdx
          (fun t => { t with type := "surface" }) (fun t => rfl) j]
        exact h9 j
      · intro j
        rw [occBuilding_modTile_preserve sm.2 toIdx
          (fun t => { t with type := "surface" }) (fun t => rfl) j]
        exact h10 j
      · exact visMonotone_trans h11
          (visMonotone_modTile_keep sm.2 toIdx
            (fun t => { t with type := "surface" }) (fun t => rfl))

/-- The ordinary (non-crush) ending of a move: write the unit onto the
target tile, reveal, patch. -/
theorem moveFinish_noCrush_stepOK (s0 : GameState) (P : List PlayerDoc)
    (unit : UnitDoc) (unitDef : UnitDef) (playerId : Nat)
    (toIdx fromIdx : Int) (tx ty : Int) (moveCost : Nat)
    (m2 : List Tile) (s' : GameState)
    (hstep : moveFinish { s0 with players := P } unit unitDef playerId
      tx ty moveCost
      (modTile m2 toIdx (fun t => { t with unitId := some unit.id })) =
      .ok s')
    (hres2 : resNonneg s0 → resNonneg { s0 with players := P })
    (hlen2 : m2.length = s0.map.length)
    (hoccU2 : ∀ j, occUnit m2 j =
      if j = fromIdx then none else occUnit s0.map j)
    (hoccB2 : ∀ j, occBuilding m2 j = occBuilding s0.map j)
    (hvm2 : visMonotone s0.map m2)
    (hsome2 : (getTile? m2 toIdx).isSome = true)
    (hmem : unit ∈ s0.units)
    (hfrom : coordToIndex s0.width unit.x unit.y = fromIdx)
    (hne : ¬ fromIdx = toIdx)
    (hto : coordToIndex s0.width tx ty = toIdx)
    (hbnd2 : Inv s0 → inBoundsPos s0.width s0.height tx ty)
    (hoccEmpty : Inv s0 → occUnit s0.map toIdx = none) :
    StepOK s0 s' := by
  have hne2 : ¬ coordToIndex s0.width tx ty =
      coordToIndex s0.width unit.x unit.y := by
    rw [hto, hfrom]
    exact fun h => hne h.symm
  unfold moveFinish at hstep
  split at hstep
  · exact Except.noConfusion hstep
  · rename_i m5 hrev
    cases hstep
    have hve := revealAround_visExt _ _ _ _ _ _ _ _ _ hrev
    have hlen5 : m5.length = s0.map.length :=
      hve.1.trans ((length_modTile _ _ _).trans hlen2)
    have hoccU5 : ∀ j, occUnit m5 j =
        if j = coordToIndex s0.width tx ty then some unit.id
        else if j = coordToIndex s0.width unit.x unit.y then none
        else occUnit s0.map j := by
      intro j
      rw [visExt_occUnit hve j, hto, hfrom,
        occUnit_modTile_set m2 toIdx
          (fun t => { t with unitId := some unit.id })
          unit.id (fun t => rfl) hsome2 j, hoccU2 j]
    refine ⟨?_, ?_, ?_⟩
    · intro hInv
      obtain ⟨hU, hB, hfu, hfb⟩ := hInv
      refine ⟨?_, ?_, ?_, ?_⟩
      · exact UOcc_move hU unit hmem tx ty (hbnd2 ⟨hU, hB, hfu, hfb⟩)
          hne2 (by rw [hto]; exact hoccEmpty ⟨hU, hB, hfu, hfb⟩) m5 hlen5
          hoccU5 _ ⟨rfl, rfl, rfl⟩
      · refine BOcc_mapEq hB m5 hlen5 ?_
        intro j
        rw [visExt_occBuilding hve j,
          occBuilding_modTile_preserve m2 toIdx
            (fun t => { t with unitId := some unit.id }) (fun t => rfl) j,
          hoccB2 j]
      · intro u hu
        simp only [patchUnit, List.mem_map] at hu
        obtain ⟨v, hv, rfl⟩ := hu
        split <;> exact hfu v hv
      · exact hfb
    · intro hres
      exact hres2 hres
    · exact visMonotone_trans hvm2 (visMonotone_trans
        (visMonotone_modTile_keep m2 toIdx
          (fun t => { t with unitId := some unit.id }) (fun t => rfl))
        (visMonotone_of_visExt hve))

theorem moveResolve_stepOK (s0 : GameState) (P : List PlayerDoc)
    (unit : UnitDoc) (unitDef : UnitDef) (playerId : Nat)
    (targetTile : Tile) (toIdx fromIdx : Int) (tx ty : Int) (moveCost : Nat)
    (m2 : List Tile) (s' : GameState)
    (hstep : moveResolve { s0 with players := P } unit unitDef playerId
      targetTile toIdx tx ty moveCost m2 = .ok s')
    (hres2 : resNonneg s0 → resNonneg { s0 with players := P })
    (hlen2 : m2.length = s0.map.length)
    (hoccU2 : ∀ j, occUnit m2 j =
      if j = fromIdx then none else occUnit s0.map j)
    (hoccB2 : ∀ j, occBuilding m2 j = occBuilding s0.map j)
    (hvm2 : visMonotone s0.map m2)
    (hmem : unit ∈ s0.units)
    (hfrom : coordToIndex s0.width unit.x unit.y = fromIdx)
    (hne : ¬ fromIdx = toIdx)
    (htile : getTile? s0.map toIdx = some targetTile)
    (hto : coordToIndex s0.width tx ty = toIdx)
    (hbnd : 0 < s0.width → 0 < s0.height →
      inBoundsPos s0.width s0.height tx ty)
    (hoccT : targetTile.unitId = none ∨ targetTile.unitId = some unit.id) :
    StepOK s0 s' := by
  obtain ⟨hge0, hlt0, -⟩ := (getTile?_eq_some_iff _ _ _).mp htile
  have hsome2 : (getTile? m2 toIdx).isSome = true := by
    rw [getTile?_isSome_iff]
    omega
  have hoccEmpty : Inv s0 → occUnit s0.map toIdx = none := by
    intro hInv
    rcases hoccT with hT | hT
    · unfold occUnit
      rw [htile]
      simpa using hT
    · exfalso
      obtain ⟨hU, hB, hfu, hfb⟩ := hInv
      obtain ⟨hl, hnd, hpos, hback⟩ := hU
      have hoccTo : occUnit s0.map toIdx = some unit.id := by
        unfold occUnit
        rw [htile]
        simpa using hT
      obtain ⟨u2, hu2mem, hu2id, hu2idx⟩ := hback _ hlt0 unit.id
        (by rw [Int.toNat_of_nonneg hge0]; exact hoccTo)
      have he : u2 = unit := nodup_map_inj hnd hu2mem hmem hu2id
      rw [he] at hu2idx
      have : coordToIndex s0.width unit.x unit.y = toIdx :=
        hu2idx.trans (Int.toNat_of_nonneg hge0)
      exact hne (hfrom.symm.trans this)
  have hbnd2 : Inv s0 → inBoundsPos s0.width s0.height tx ty := by
    intro hInv
    obtain ⟨hw, hh⟩ := getTile?_some_grid_pos hInv.1.1 htile
    exact hbnd hw hh
  unfold moveResolve at hstep
  split at hstep
  · split at hstep
    · rename_i bid hbid
      split at hstep
      · rename_i building hgb
        split at hstep
        · -- the building is crushed
          rename_i hbpne
          unfold moveFinish at hstep
          split at hstep
          · exact Except.noConfusion hstep
          · rename_i m5 hrev
            cases hstep
            have hve := revealAround_visExt _ _ _ _ _ _ _ _ _ hrev
            have hne2 : ¬ coordToIndex s0.width tx ty =
                coordToIndex s0.width unit.x unit.y := by
              rw [hto, hfrom]
              exact fun h => hne h.symm
            have hoccB0 : occBuilding s0.map toIdx = some bid := by
              unfold occBuilding
              rw [htile]
              simpa using hbid
            have hoccU5 : ∀ j, occUnit m5 j =
                if j = coordToIndex s0.width tx ty then some unit.id
                else if j = coordToIndex s0.width unit.x unit.y then none
                else occUnit s0.map j := by
              intro j
              rw [visExt_occUnit hve j, hto, hfrom,
                occUnit_modTile_set m2 toIdx
                  (fun t => { t with
                              buildingId := none, type := "surface",
                              unitId := some unit.id })
                  unit.id (fun t => rfl) hsome2 j, hoccU2 j]
            have hlen5 : m5.length = s0.map.length :=
              hve.1.trans ((length_modTile _ _ _).trans hlen2)
            refine ⟨?_, ?_, ?_⟩
            · intro hInv
              obtain ⟨hmemB, hidxB⟩ := occBuilding_resolve hgb hoccB0 hInv
              obtain ⟨hU, hB, hfu, hfb⟩ := hInv
              obtain ⟨hmemB2, hidB⟩ := getBuilding?_mem hgb
              refine ⟨?_, ?_, ?_, ?_⟩
              · exact UOcc_move hU unit hmem tx ty
                  (hbnd2 ⟨hU, hB, hfu, hfb⟩) hne2
                  (by rw [hto]; exact hoccEmpty ⟨hU, hB, hfu, hfb⟩)
                  m5 hlen5 hoccU5 _ ⟨rfl, rfl, rfl⟩
              · have hBfinal := BOcc_delete hB building hmemB m5 hlen5 ?_
                · rw [show bid = building.id from hidB.symm]
                  exact hBfinal
                · intro j
                  rw [visExt_occBuilding hve j, hidxB,
                    occBuilding_modTile_clear m2 toIdx
                      (fun t => { t with
                                  buildingId := none, type := "surface",
                                  unitId := some unit.id })
                      (fun t => rfl) j, hoccB2 j]
              · intro u hu
                simp only [patchUnit, List.mem_map] at hu
                obtain ⟨v, hv, rfl⟩ := hu
                split <;> exact hfu v hv
              · intro b hb
                exact hfb b (List.mem_of_mem_filter hb)
            · intro hres
              exact hres2 hres
            · exact visMonotone_trans hvm2 (visMonotone_trans
                (visMonotone_modTile_keep m2 toIdx
                  (fun t => { t with
                              buildingId := none, type := "surface",
                              unitId := some unit.id }) (fun t => rfl))
                (visMonotone_of_visExt hve))
        · exact moveFinish_noCrush_stepOK s0 P unit unitDef playerId toIdx
            fromIdx tx ty moveCost m2 s' hstep hres2 hlen2 hoccU2 hoccB2
            hvm2 hsome2 hmem hfrom hne hto hbnd2 hoccEmpty
      · exact moveFinish_noCrush_stepOK s0 P unit unitDef playerId toIdx
          fromIdx tx ty moveCost m2 s' hstep hres2 hlen2 hoccU2 hoccB2
          hvm2 hsome2 hmem hfrom hne hto hbnd2 hoccEmpty
    · exact moveFinish_noCrush_stepOK s0 P unit unitDef playerId toIdx
        fromIdx tx ty moveCost m2 s' hstep hres2 hlen2 hoccU2 hoccB2
        hvm2 hsome2 hmem hfrom hne hto hbnd2 hoccEmpty
  · exact moveFinish_noCrush_stepOK s0 P unit unitDef playerId toIdx
      fromIdx tx ty moveCost m2 s' hstep hres2 hlen2 hoccU2 hoccB2
      hvm2 hsome2 hmem hfrom hne hto hbnd2 hoccEmpty

theorem move_stepOK {s : GameState} {unitId playerId : Nat}
    {direction : Direction} {roll : ℚ} {s' : GameState}
    (hstep : move s unitId playerId direction roll = .ok s') :
    StepOK s s' := by
  unfold move at hstep
  split at hstep
  · exact Except.noConfusion hstep
  · rename_i unit hunit
    by_cases h1 : ¬ unit.playerId = playerId
    · rw [if_pos h1] at hstep
      exact Except.noConfusion hstep
    · rw [if_neg h1] at hstep
      split at hstep
      · exact Except.noConfusion hstep
      · split at hstep
        · exact Except.noConfusion hstep
        · rename_i unitDef hudef
          by_cases h2 : unit.movesLeft ≤ 0
          · rw [if_pos h2] at hstep
            exact Except.noConfusion hstep
          · rw [if_neg h2] at hstep
            by_cases h3 : ((match s.activeWeather with
                | some w => w.type == "solar_flare"
                | none => false) && unitDef.canFly) = true
            · rw [if_pos h3] at hstep
              exact Except.noConfusion hstep
            · rw [if_neg h3] at hstep
              dsimp only at hstep
              by_cases h4 : coordToIndex s.width unit.x unit.y =
                  coordToIndex s.width
                    (wrapX (unit.x + (directionToDelta direction).1) s.width)
                    (clampY (unit.y + (directionToDelta direction).2)
                      s.height)
              · rw [if_pos h4] at hstep
                exact Except.noConfusion hstep
              · rw [if_neg h4] at hstep
                split at hstep
                · exact Except.noConfusion hstep
                · rename_i targetTile htile
                  by_cases h5 : ¬ ((TERRAIN_DEFS targetTile.type).getD
                      surfaceTerrain).passable = true
                  · rw [if_pos h5] at hstep
                    exact Except.noConfusion hstep
                  · rw [if_neg h5] at hstep
                    by_cases h6 : ((TERRAIN_DEFS targetTile.type).getD
                        surfaceTerrain).airOnly = true ∧
                        ¬ unitDef.canFly = true
                    · rw [if_pos h6] at hstep
                      exact Except.noConfusion hstep
                    · rw [if_neg h6] at hstep
                      by_cases h7 : (match targetTile.unitId with
                          | some uid => uid != unit.id
                          | none => false) = true
                      · rw [if_pos h7] at hstep
                        exact Except.noConfusion hstep
                      · rw [if_neg h7] at hstep
                        split at hstep
                        · exact Except.noConfusion hstep
                        · rename_i moveCost hmc
                          by_cases h8 : unit.movesLeft < (moveCost : Int)
                          · rw [if_pos h8] at hstep
                            exact Except.noConfusion hstep
                          · rw [if_neg h8] at hstep
                            split at hstep
                            · exact Except.noConfusion hstep
                            · -- all guards passed: the mutation runs
                              unfold moveApply at hstep
                              dsimp only at hstep
                              split at hstep
                              · exact Except.noConfusion hstep
                              · rename_i s2 m2 hruins
                                obtain ⟨hmem, huid⟩ := getUnit?_mem hunit
                                subst huid
                                have hoccT : targetTile.unitId = none ∨
                                    targetTile.unitId = some unit.id := by
                                  rcases ht : targetTile.unitId with _ | uid
                                  · exact Or.inl rfl
                                  · right
                                    rw [ht] at h7
                                    have : uid = unit.id := by
                                      simpa using h7
                                    rw [this]
                                by_cases hr : targetTile.type = "ruins"
                                · rw [if_pos hr] at hruins
                                  obtain ⟨⟨P, hPeq⟩, hres2, hlen2, hoccU2,
                                    hoccB2, hvm2⟩ := applyRuinReward_ok
                                      hruins
                                  subst hPeq
                                  refine moveResolve_stepOK s P unit unitDef
                                    playerId targetTile _
                                    (coordToIndex s.width unit.x unit.y)
                                    _ _ moveCost m2 s' hstep hres2 ?_ ?_ ?_
                                    ?_ hmem rfl h4 htile rfl
                                    (fun hw hh =>
                                      wrap_clamp_inBounds hw hh _ _) hoccT
                                  · exact hlen2.trans
                                      (length_modTile _ _ _)
                                  · intro j
                                    rw [hoccU2 j,
                                      occUnit_modTile_clear s.map _
                                        (fun t =>
                                          { t with unitId := none })
                                        (fun t => rfl) j]
                                  · intro j
                                    rw [hoccB2 j]
                                    exact occBuilding_modTile_preserve s.map
                                      _ (fun t => { t with unitId := none })
                                      (fun t => rfl) j
                                  · exact visMonotone_trans
                                      (visMonotone_modTile_keep s.map _
                                        (fun t => { t with unitId := none })
                                        (fun t => rfl)) hvm2
                                · rw [if_neg hr] at hruins
                                  have hp := Except.ok.inj hruins
                                  simp only [Prod.mk.injEq] at hp
                                  obtain ⟨hpa, hpb⟩ := hp
                                  subst hpa
                                  subst hpb
                                  refine moveResolve_stepOK s s.players unit
                                    unitDef playerId targetTile _
                                    (coordToIndex s.width unit.x unit.y)
                                    _ _ moveCost _ s' hstep
                                    (fun h => h) (length_modTile _ _ _) ?_
                                    ?_ ?_ hmem rfl h4 htile rfl
                                    (fun hw hh =>
                                      wrap_clamp_inBounds hw hh _ _) hoccT
                                  · intro j
                                    exact occUnit_modTile_clear s.map _
                                      (fun t => { t with unitId := none })
                                      (fun t => rfl) j
                                  · intro j
                                    exact occBuilding_modTile_preserve s.map
                                      _ (fun t => { t with unitId := none })
                                      (fun t => rfl) j
                                  · exact visMonotone_modTile_keep s.map _
                                      (fun t => { t with unitId := none })
                                      (fun t => rfl)

/-- Unconditional safety of the auto-explore walking loop: the map keeps
its length, its building references, and (monotonically) its visibility. -/
theorem exploreLoop_mapSafe (width height playerId : Nat) (u : UnitDoc)
    (unitDef : UnitDef) :
    ∀ (fuel : Nat) (m : List Tile) (cx cy moves : Int)
      (m' : List Tile) (cx' cy' : Int),
      exploreLoop width height playerId u unitDef fuel m cx cy moves =
        .ok (m', cx', cy') →
      m'.length = m.length ∧
      (∀ j, occBuilding m' j = occBuilding m j) ∧ visMonotone m m'
  | 0, m, cx, cy, moves, m', cx', cy', hstep => by
      rw [show exploreLoop width height playerId u unitDef 0 m cx cy moves =
        .ok (m, cx, cy) from rfl] at hstep
      have h := Except.ok.inj hstep
      simp only [Prod.mk.injEq] at h
      obtain ⟨h1, h2, h3⟩ := h
      subst h1
      exact ⟨rfl, fun j => rfl, visMonotone_refl m⟩
  | fuel + 1, m, cx, cy, moves, m', cx', cy', hstep => by
      unfold exploreLoop at hstep
      split at hstep
      · -- moves exhausted
        have h := Except.ok.inj hstep
        simp only [Prod.mk.injEq] at h
        obtain ⟨h1, h2, h3⟩ := h
        subst h1
        exact ⟨rfl, fun j => rfl, visMonotone_refl m⟩
      · split at hstep
        · exact Except.noConfusion hstep
        · -- no fog found: stop
          have h := Except.ok.inj hstep
          simp only [Prod.mk.injEq] at h
          obtain ⟨h1, h2, h3⟩ := h
          subst h1
          exact ⟨rfl, fun j => rfl, visMonotone_refl m⟩
        · rename_i dir hdir
          dsimp only at hstep
          split at hstep
          · exact Except.noConfusion hstep
          · rename_i targetTile htile
            split at hstep
            · -- bedrock: stop
              have h := Except.ok.inj hstep
              simp only [Prod.mk.injEq] at h
              obtain ⟨h1, h2, h3⟩ := h
              subst h1
              exact ⟨rfl, fun j => rfl, visMonotone_refl m⟩
            · rename_i c hc
              split at hstep
              · -- not enough moves: stop
                have h := Except.ok.inj hstep
                simp only [Prod.mk.injEq] at h
                obtain ⟨h1, h2, h3⟩ := h
                subst h1
                exact ⟨rfl, fun j => rfl, visMonotone_refl m⟩
              · split at hstep
                · -- occupied: stop
                  have h := Except.ok.inj hstep
                  simp only [Prod.mk.injEq] at h
                  obtain ⟨h1, h2, h3⟩ := h
                  subst h1
                  exact ⟨rfl, fun j => rfl, visMonotone_refl m⟩
                · -- take the step
                  split at hstep
                  · exact Except.noConfusion hstep
                  · rename_i m3 hvis
                    obtain ⟨hl, hB, hvm⟩ := exploreLoop_mapSafe width height
                      playerId u unitDef fuel m3 _ _ _ m' cx' cy' hstep
                    have hve3 : visExt (modTile
                        (modTile m (coordToIndex width cx cy)
                          (fun t => { t with unitId := none }))
                        (coordToIndex width
                          (wrapX (cx + (directionToDelta dir).1) width)
                          (clampY (cy + (directionToDelta dir).2) height))
                        (fun t => { t with unitId := some u.id })) m3 := by
                      by_cases hv : ¬ unitDef.vision = 0
                      · rw [if_pos hv] at hvis
                        exact revealAround_visExt _ _ _ _ _ _ _ _ _ hvis
                      · rw [if_neg hv] at hvis
                        cases hvis
                        exact visExt_refl _
                    refine ⟨?_, ?_, ?_⟩
                    · rw [hl, hve3.1, length_modTile, length_modTile]
                    · intro j
                      rw [hB j, visExt_occBuilding hve3 j]
                      rw [occBuilding_modTile_preserve _ _
                        (fun t => { t with unitId := some u.id })
                        (fun t => rfl) j]
                      exact occBuilding_modTile_preserve _ _
                        (fun t => { t with unitId := none })
                        (fun t => rfl) j
                    · refine visMonotone_trans (visMonotone_trans
                        (visMonotone_trans
                          (visMonotone_modTile_keep m _
                            (fun t => { t with unitId := none })
                            (fun t => rfl))
                          (visMonotone_modTile_keep _ _
                            (fun t => { t with unitId := some u.id })
                            (fun t => rfl)))
                        (visMonotone_of_visExt hve3)) hvm

/-- The walking loop keeps the exact unit-occupancy discipline: the walker
sits on its current tile, its starting tile is cleared, and every other
tile is untouched; the walker's tile was originally free (or is the start),
and it stays on the grid. -/
theorem exploreLoop_ok (width height playerId : Nat) (u : UnitDoc)
    (unitDef : UnitDef) (m0 : List Tile) (x0 y0 : Int)
    (hwh : m0.length = width * height)
    (hu0 : ∀ j, occUnit m0 j = some u.id → j = coordToIndex width x0 y0) :
    ∀ (fuel : Nat) (m : List Tile) (cx cy moves : Int)
      (m' : List Tile) (cx' cy' : Int),
      exploreLoop width height playerId u unitDef fuel m cx cy moves =
        .ok (m', cx', cy') →
      m.length = m0.length →
      (∀ j, occUnit m j =
        if j = coordToIndex width cx cy then some u.id
        else if j = coordToIndex width x0 y0 then none
        else occUnit m0 j) →
      (coordToIndex width cx cy = coordToIndex width x0 y0 ∨
        occUnit m0 (coordToIndex width cx cy) = none) →
      inBoundsPos width height cx cy →
      m'.length = m0.length ∧
      (∀ j, occUnit m' j =
        if j = coordToIndex width cx' cy' then some u.id
        else if j = coordToIndex width x0 y0 then none
        else occUnit m0 j) ∧
      (coordToIndex width cx' cy' = coordToIndex width x0 y0 ∨
        occUnit m0 (coordToIndex width cx' cy') = none) ∧
      inBoundsPos width height cx' cy'
  | 0, m, cx, cy, moves, m', cx', cy', hstep, hlen, hocc, hcur, hbnd => by
      rw [show exploreLoop width height playerId u unitDef 0 m cx cy moves =
        .ok (m, cx, cy) from rfl] at hstep
      have h := Except.ok.inj hstep
      simp only [Prod.mk.injEq] at h
      obtain ⟨h1, h2, h3⟩ := h
      subst h1
      subst h2
      subst h3
      exact ⟨hlen, hocc, hcur, hbnd⟩
  | fuel + 1, m, cx, cy, moves, m', cx', cy', hstep, hlen, hocc, hcur,
      hbnd => by
      unfold exploreLoop at hstep
      split at hstep
      · have h := Except.ok.inj hstep
        simp only [Prod.mk.injEq] at h
        obtain ⟨h1, h2, h3⟩ := h
        subst h1
        subst h2
        subst h3
        exact ⟨hlen, hocc, hcur, hbnd⟩
      · split at hstep
        · exact Except.noConfusion hstep
        · have h := Except.ok.inj hstep
          simp only [Prod.mk.injEq] at h
          obtain ⟨h1, h2, h3⟩ := h
          subst h1
          subst h2
          subst h3
          exact ⟨hlen, hocc, hcur, hbnd⟩
        · rename_i dir hdir
          dsimp only at hstep
          split at hstep
          · exact Except.noConfusion hstep
          · rename_i targetTile htile
            split at hstep
            · have h := Except.ok.inj hstep
              simp only [Prod.mk.injEq] at h
              obtain ⟨h1, h2, h3⟩ := h
              subst h1
              subst h2
              subst h3
              exact ⟨hlen, hocc, hcur, hbnd⟩
            · rename_i c hc
              split at hstep
              · have h := Except.ok.inj hstep
                simp only [Prod.mk.injEq] at h
                obtain ⟨h1, h2, h3⟩ := h
                subst h1
                subst h2
                subst h3
                exact ⟨hlen, hocc, hcur, hbnd⟩
              · split at hstep
                · have h := Except.ok.inj hstep
                  simp only [Prod.mk.injEq] at h
                  obtain ⟨h1, h2, h3⟩ := h
                  subst h1
                  subst h2
                  subst h3
                  exact ⟨hlen, hocc, hcur, hbnd⟩
                · -- take the step
                  rename_i hnotOcc
                  split at hstep
                  · exact Except.noConfusion hstep
                  · rename_i m3 hvis
                    obtain ⟨hge, hlt, -⟩ :=
                      (getTile?_eq_some_iff _ _ _).mp htile
                    have hwpos : 0 < width ∧ 0 < height := by
                      refine grid_pos ?_
                      rw [← hwh, ← hlen]
                      omega
                    have hbnd3 : inBoundsPos width height
                        (wrapX (cx + (directionToDelta dir).1) width)
                        (clampY (cy + (directionToDelta dir).2) height) :=
                      wrap_clamp_inBounds hwpos.1 hwpos.2 _ _
                    have hsomeTo : (getTile? (modTile m
                        (coordToIndex width cx cy)
                        (fun t => { t with unitId := none }))
                        (coordToIndex width
                          (wrapX (cx + (directionToDelta dir).1) width)
                          (clampY (cy + (directionToDelta dir).2) height))).isSome
                        = true := by
                      rw [getTile?_isSome_iff, length_modTile]
                      omega
                    have hve3 : visExt (modTile
                        (modTile m (coordToIndex width cx cy)
                          (fun t => { t with unitId := none }))
                        (coordToIndex width
                          (wrapX (cx + (directionToDelta dir).1) width)
                          (clampY (cy + (directionToDelta dir).2) height))
                        (fun t => { t with unitId := some u.id })) m3 := by
                      by_cases hv : ¬ unitDef.vision = 0
                      · rw [if_pos hv] at hvis
                        exact revealAround_visExt _ _ _ _ _ _ _ _ _ hvis
                      · rw [if_neg hv] at hvis
                        cases hvis
                        exact visExt_refl _
                    have hoccTo : targetTile.unitId = none ∨
                        targetTile.unitId = some u.id := by
                      rcases ht : targetTile.unitId with _ | uid
                      · exact Or.inl rfl
                      · right
                        rw [ht] at hnotOcc
                        have : uid = u.id := by simpa using hnotOcc
                        rw [this]
                    have hoccmTo : occUnit m (coordToIndex width
                        (wrapX (cx + (directionToDelta dir).1) width)
                        (clampY (cy + (directionToDelta dir).2) height)) =
                        targetTile.unitId := by
                      unfold occUnit
                      rw [htile]
                      rfl
                    have hcur3 : coordToIndex width
                        (wrapX (cx + (directionToDelta dir).1) width)
                        (clampY (cy + (directionToDelta dir).2) height) =
                        coordToIndex width x0 y0 ∨
                        occUnit m0 (coordToIndex width
                          (wrapX (cx + (directionToDelta dir).1) width)
                          (clampY (cy + (directionToDelta dir).2) height)) =
                        none := by
                      by_cases hTo0 : coordToIndex width
                          (wrapX (cx + (directionToDelta dir).1) width)
                          (clampY (cy + (directionToDelta dir).2) height) =
                          coordToIndex width x0 y0
                      · exact Or.inl hTo0
                      · right
                        have hm := hocc (coordToIndex width
                          (wrapX (cx + (directionToDelta dir).1) width)
                          (clampY (cy + (directionToDelta dir).2) height))
                        by_cases hToCur : coordToIndex width
                            (wrapX (cx + (directionToDelta dir).1) width)
                            (clampY (cy + (directionToDelta dir).2) height) =
                            coordToIndex width cx cy
                        · rcases hcur with hcl | hcr
                          · exact absurd (hToCur.trans hcl) hTo0
                          · rw [← hToCur] at hcr
                            exact hcr
                        · rw [if_neg hToCur, if_neg hTo0] at hm
                          rcases hoccTo with hT | hT
                          · rw [← hm, hoccmTo]
                            exact hT
                          · exfalso
                            refine hTo0 (hu0 _ ?_)
                            rw [← hm, hoccmTo]
                            exact hT
                    refine exploreLoop_ok width height playerId u unitDef m0
                      x0 y0 hwh hu0 fuel m3 _ _ _ m' cx' cy' hstep ?_ ?_
                      hcur3 hbnd3
                    · rw [hve3.1, length_modTile, length_modTile]
                      exact hlen
                    · intro j
                      rw [visExt_occUnit hve3 j,
                        occUnit_modTile_set _ _
                          (fun t => { t with unitId := some u.id })
                          u.id (fun t => rfl) hsomeTo j]
                      by_cases hj1 : j = coordToIndex width
                          (wrapX (cx + (directionToDelta dir).1) width)
                          (clampY (cy + (directionToDelta dir).2) height)
                      · rw [if_pos hj1, if_pos hj1]
                      · rw [if_neg hj1, if_neg hj1,
                          occUnit_modTile_clear _ _
                            (fun t => { t with unitId := none })
                            (fun t => rfl) j]
                        by_cases hj2 : j = coordToIndex width cx cy
                        · rw [if_pos hj2]
                          by_cases hj3 : j = coordToIndex width x0 y0
                          · rw [if_pos hj3]
                          · rw [if_neg hj3]
                            rcases hcur with hcl | hcr
                            · exact absurd (hj2.trans hcl) hj3
                            · rw [← hj2] at hcr
                              exact hcr.symm
                        · rw [if_neg hj2, hocc j, if_neg hj2]

/-- Unconditional safety of the outer auto-explore pass. -/
theorem autoExploreGo_mapSafe (width height playerId : Nat) :
    ∀ (snap : List UnitDoc) (m : List Tile) (us : List UnitDoc)
      (m' : List Tile) (us' : List UnitDoc),
      autoExploreGo width height playerId snap m us = .ok (m', us') →
      m'.length = m.length ∧ (∀ j, occBuilding m' j = occBuilding m j) ∧
      visMonotone m m' ∧ (∀ v ∈ us', ∃ w ∈ us, v.id = w.id)
  | [], m, us, m', us', hstep => by
      have h := Except.ok.inj hstep
      simp only [Prod.mk.injEq] at h
      obtain ⟨h1, h2⟩ := h
      subst h1
      subst h2
      exact ⟨rfl, fun j => rfl, visMonotone_refl m,
        fun v hv => ⟨v, hv, rfl⟩⟩
  | u :: rest, m, us, m', us', hstep => by
      unfold autoExploreGo at hstep
      split at hstep
      · split at hstep
        · exact autoExploreGo_mapSafe width height playerId rest m us m'
            us' hstep
        · rename_i unitDef hudef
          split at hstep
          · exact Except.noConfusion hstep
          · rename_i m3 cx cy hloop
            obtain ⟨hl3, hB3, hvm3⟩ := exploreLoop_mapSafe width height
              playerId u unitDef _ m _ _ _ m3 cx cy hloop
            obtain ⟨hl, hB, hvm, hids⟩ := autoExploreGo_mapSafe width height
              playerId rest m3 _ m' us' hstep
            refine ⟨hl.trans hl3, ?_, visMonotone_trans hvm3 hvm, ?_⟩
            · intro j
              rw [hB j, hB3 j]
            · intro v hv
              obtain ⟨w2, hw2, hvid⟩ := hids v hv
              by_cases hmv : ¬ (cx = u.x ∧ cy = u.y)
              · rw [if_pos hmv] at hw2
                simp only [List.mem_map] at hw2
                obtain ⟨w3, hw3, rfl⟩ := hw2
                refine ⟨w3, hw3, ?_⟩
                rw [hvid]
                split <;> rfl
              · rw [if_neg hmv] at hw2
                exact ⟨w2, hw2, hvid⟩
      · exact autoExploreGo_mapSafe width height playerId rest m us m'
          us' hstep

/-- The auto-explore pass preserves unit-occupancy consistency. -/
theorem autoExploreGo_UOcc (width height playerId : Nat) :
    ∀ (snap : List UnitDoc) (m : List Tile) (us : List UnitDoc)
      (m' : List Tile) (us' : List UnitDoc),
      autoExploreGo width height playerId snap m us = .ok (m', us') →
      UOcc width height m us →
      (∀ v ∈ snap, ∃ w ∈ us, w.id = v.id ∧ w.x = v.x ∧ w.y = v.y) →
      (snap.map (fun v => v.id)).Nodup →
      UOcc width height m' us'
  | [], m, us, m', us', hstep, hU, hsnap, hnd => by
      have h := Except.ok.inj hstep
      simp only [Prod.mk.injEq] at h
      obtain ⟨h1, h2⟩ := h
      subst h1
      subst h2
      exact hU
  | u :: rest, m, us, m', us', hstep, hU, hsnap, hnd => by
      have hndTail : (rest.map (fun v => v.id)).Nodup := by
        simp only [List.map_cons, List.nodup_cons] at hnd
        exact hnd.2
      have hheadNe : ∀ v ∈ rest, ¬ v.id = u.id := by
        simp only [List.map_cons, List.nodup_cons, List.mem_map] at hnd
        intro v hv he
        exact hnd.1 ⟨v, hv, he⟩
      unfold autoExploreGo at hstep
      split at hstep
      · split at hstep
        · exact autoExploreGo_UOcc width height playerId rest m us m' us'
            hstep hU (fun v hv => hsnap v (List.mem_cons_of_mem u hv))
            hndTail
        · rename_i unitDef hudef
          split at hstep
          · exact Except.noConfusion hstep
          · rename_i m3 cx cy hloop
            obtain ⟨w, hw, hwid, hwx, hwy⟩ :=
              hsnap u (List.mem_cons_self u rest)
            obtain ⟨hl0, hnd0, hpos0, hback0⟩ := hU
            have hu0 : ∀ j, occUnit m j = some u.id →
                j = coordToIndex width u.x u.y := by
              intro j hj
              obtain ⟨hge, hlt⟩ := occUnit_isSome_bounds _ _ _ hj
              obtain ⟨u2, hu2, hu2id, hu2idx⟩ := hback0 _ hlt u.id
                (by rw [Int.toNat_of_nonneg hge]; exact hj)
              have he : u2 = w :=
                nodup_map_inj hnd0 hu2 hw (hu2id.trans hwid.symm)
              rw [he, hwx, hwy] at hu2idx
              rw [← (hu2idx.trans (Int.toNat_of_nonneg hge))]
            have hoccInit : ∀ j, occUnit m j =
                if j = coordToIndex width u.x u.y then some u.id
                else if j = coordToIndex width u.x u.y then none
                else occUnit m j := by
              intro j
              by_cases hj : j = coordToIndex width u.x u.y
              · rw [if_pos hj, hj, ← hwx, ← hwy, ← hwid]
                exact (hpos0 w hw).2
              · rw [if_neg hj, if_neg hj]
            have hbndInit : inBoundsPos width height u.x u.y := by
              rw [← hwx, ← hwy]
              exact (hpos0 w hw).1
            obtain ⟨hl3, hocc3, hcur3, hbnd3⟩ := exploreLoop_ok width height
              playerId u unitDef m u.x u.y hl0 hu0 _ m u.x u.y u.movesLeft
              m3 cx cy hloop rfl hoccInit (Or.inl rfl) hbndInit
            by_cases hmv : ¬ (cx = u.x ∧ cy = u.y)
            · rw [if_pos hmv] at hstep
              have hidxne : ¬ coordToIndex width cx cy =
                  coordToIndex width u.x u.y := by
                intro he
                exact hmv (coordToIndex_inj hbnd3 hbndInit he)
              have hempty : occUnit m (coordToIndex width cx cy) = none := by
                rcases hcur3 with hcl | hcr
                · exact absurd hcl hidxne
                · exact hcr
              have hocc4 : ∀ j : Int, occUnit m3 j =
                  if j = coordToIndex width cx cy then some w.id
                  else if j = coordToIndex width w.x w.y then none
                  else occUnit m j := by
                intro j
                rw [hocc3 j, hwx, hwy, hwid]
              have hUnew : UOcc width height m3 (us.map (fun v =>
                  if v.id = u.id then
                    { v with x := cx, y := cy, movesLeft := 0 }
                  else v)) := by
                have hmv2 := UOcc_move ⟨hl0, hnd0, hpos0, hback0⟩ w hw cx cy
                  hbnd3
                  (by rw [hwx, hwy]; exact hidxne)
                  hempty m3 hl3 hocc4
                  (fun v => { v with x := cx, y := cy, movesLeft := 0 })
                  ⟨rfl, rfl, rfl⟩
                simpa only [hwid] using hmv2
              have hsnapTail : ∀ v ∈ rest, ∃ w2 ∈ us.map (fun v2 =>
                  if v2.id = u.id then
                    { v2 with x := cx, y := cy, movesLeft := 0 }
                  else v2), w2.id = v.id ∧ w2.x = v.x ∧ w2.y = v.y := by
                intro v hv
                obtain ⟨w2, hw2, hw2id, hw2x, hw2y⟩ :=
                  hsnap v (List.mem_cons_of_mem u hv)
                have hne2 : ¬ w2.id = u.id := by
                  rw [hw2id]
                  exact hheadNe v hv
                refine ⟨w2, ?_, hw2id, hw2x, hw2y⟩
                have hmm := List.mem_map_of_mem (fun v2 =>
                  if v2.id = u.id then
                    { v2 with x := cx, y := cy, movesLeft := 0 }
                  else v2) hw2
                simp only [if_neg hne2] at hmm
                exact hmm
              exact autoExploreGo_UOcc width height playerId rest m3 _ m'
                us' hstep hUnew hsnapTail hndTail
            · rw [if_neg hmv] at hstep
              push_neg at hmv
              have hUnew : UOcc width height m3 us := by
                refine UOcc_mapEq ⟨hl0, hnd0, hpos0, hback0⟩ m3
                  hl3 ?_
                intro j
                rw [hocc3 j, hmv.1, hmv.2]
                by_cases hj : j = coordToIndex width u.x u.y
                · rw [if_pos hj, hj, ← hwx, ← hwy, ← hwid]
                  exact ((hpos0 w hw).2).symm
                · rw [if_neg hj, if_neg hj]
              exact autoExploreGo_UOcc width height playerId rest m3 us m'
                us' hstep hUnew
                (fun v hv => hsnap v (List.mem_cons_of_mem u hv)) hndTail
      · exact autoExploreGo_UOcc width height playerId rest m us m' us'
          hstep hU (fun v hv => hsnap v (List.mem_cons_of_mem u hv))
          hndTail

/-- The Xeno Hive regeneration pass only patches unit hit points. -/
theorem regenHealGo_ok (staleMap : List Tile) (width : Nat) :
    ∀ (us : List UnitDoc) (s s' : GameState),
      regenHealGo staleMap width us s = .ok s' →
      (∃ U, s' = { s with units := U }) ∧ (Inv s → Inv s')
  | [], s, s', hstep => by
      cases hstep
      exact ⟨⟨s.units, rfl⟩, id⟩
  | u :: rest, s, s', hstep => by
      unfold regenHealGo at hstep
      dsimp only at hstep
      split at hstep
      · exact Except.noConfusion hstep
      · split at hstep
        · split at hstep
          · obtain ⟨⟨U, hU⟩, hI⟩ :=
              regenHealGo_ok staleMap width rest _ s' hstep
            refine ⟨⟨U, by rw [hU]; rfl⟩, fun h => ?_⟩
            exact hI (Inv_patchUnit s u.id _ (fun v => ⟨rfl, rfl, rfl⟩) h)
          · exact regenHealGo_ok staleMap width rest s s' hstep
        · exact regenHealGo_ok staleMap width rest s s' hstep

/-- Faction turn effects only patch unit hit points. -/
theorem applyFactionTurnEffects_ok {staleMap : List Tile} {s : GameState}
    {player : PlayerDoc} {s2 : GameState}
    (hstep : applyFactionTurnEffects staleMap s player = .ok s2) :
    (∃ U, s2 = { s with units := U }) ∧ (Inv s → Inv s2) := by
  unfold applyFactionTurnEffects at hstep
  split at hstep
  · exact regenHealGo_ok staleMap s.width _ s s2 hstep
  · cases hstep
    exact ⟨⟨s.units, rfl⟩, id⟩

/-- The acid-rain pass only patches unit hit points. -/
theorem acidRainGo_ok (staleMap : List Tile) (width : Nat) :
    ∀ (us : List UnitDoc) (s s' : GameState),
      acidRainGo staleMap width us s = .ok s' →
      (∃ U, s' = { s with units := U }) ∧ (Inv s → Inv s')
  | [], s, s', hstep => by
      cases hstep
      exact ⟨⟨s.units, rfl⟩, id⟩
  | u :: rest, s, s', hstep => by
      unfold acidRainGo at hstep
      dsimp only at hstep
      split at hstep
      · exact Except.noConfusion hstep
      · split at hstep
        · exact acidRainGo_ok staleMap width rest s s' hstep
        · obtain ⟨⟨U, hU⟩, hI⟩ :=
            acidRainGo_ok staleMap width rest _ s' hstep
          refine ⟨⟨U, by rw [hU]; rfl⟩, fun h => ?_⟩
          exact hI (Inv_patchUnit s u.id _ (fun v => ⟨rfl, rfl, rfl⟩) h)

/-- Refilling moves and entrench flags keeps the engine invariant. -/
theorem Inv_resetPlayerUnits (s : GameState) (playerId : Nat) (h : Inv s) :
    Inv (resetPlayerUnits s playerId) := by
  obtain ⟨hU, hB, hfu, hfb⟩ := h
  refine ⟨UOcc_listKeys hU _ (fun u hu => ?_), hB, ?_, hfb⟩
  · by_cases hp : u.playerId = playerId
    · rw [if_pos hp]
      exact ⟨rfl, rfl, rfl⟩
    · rw [if_neg hp]
      exact ⟨rfl, rfl, rfl⟩
  · intro v hv
    simp only [resetPlayerUnits, List.mem_map] at hv
    obtain ⟨w, hw, rfl⟩ := hv
    by_cases hp : w.playerId = playerId
    · rw [if_pos hp]
      exact hfu w hw
    · rw [if_neg hp]
      exact hfu w hw

/-- The weather advance step only rewrites the active weather field. -/
theorem weatherCycle_ok {staleTurn : Int} {staleWeather : Option Weather}
    {rng : EndTurnRng} {s s' : GameState}
    (hstep : weatherCycle staleTurn staleWeather rng s = .ok s') :
    ∃ W, s' = { s with activeWeather := W } := by
  unfold weatherCycle at hstep
  split at hstep
  · dsimp only at hstep
    split at hstep
    · cases hstep
      exact ⟨none, rfl⟩
    · cases hstep
      exact ⟨_, rfl⟩
  · split at hstep
    · dsimp only at hstep
      split at hstep
      · exact Except.noConfusion hstep
      · split at hstep
        · exact Except.noConfusion hstep
        · cases hstep
          exact ⟨_, rfl⟩
    · cases hstep
      exact ⟨s.activeWeather, rfl⟩

/-- The engine invariant only depends on the geometry, map, entity lists
and the id allocator. -/
theorem Inv_fields {s s' : GameState} (h : Inv s)
    (hw : s'.width = s.width) (hh : s'.height = s.height)
    (hm : s'.map = s.map) (hu : s'.units = s.units)
    (hb : s'.buildings = s.buildings) (hn : s'.nextId = s.nextId) :
    Inv s' := by
  unfold Inv at h ⊢
  rw [hw, hh, hm, hu, hb, hn]
  exact h

/-- Resource non-negativity only depends on the player list. -/
theorem resNonneg_fields {s s' : GameState} (h : resNonneg s)
    (hp : s'.players = s.players) : resNonneg s' := by
  unfold resNonneg at h ⊢
  rw [hp]
  exact h

/-- `endTurn` preserves the engine invariant, resource non-negativity, and
visibility monotonicity. -/
theorem endTurn_stepOK {s0 : GameState} {playerId : Nat} {rng : EndTurnRng}
    {s' : GameState} (hstep : endTurn s0 playerId rng = .ok s') :
    StepOK s0 s' := by
  unfold endTurn at hstep
  split at hstep
  · exact Except.noConfusion hstep
  · dsimp only at hstep
    split at hstep
    · exact Except.noConfusion hstep
    · rename_i m allUnits hauto
      obtain ⟨hlen1, hoccB1, hvm1, hids1⟩ := autoExploreGo_mapSafe s0.width
        s0.height playerId _ s0.map s0.units m allUnits hauto
      have hInv1 : Inv s0 → Inv { s0 with map := m, units := allUnits } := by
        intro h
        obtain ⟨hU, hB, hfu, hfb⟩ := h
        refine ⟨?_, BOcc_mapEq hB m hlen1 hoccB1, ?_, hfb⟩
        · refine autoExploreGo_UOcc s0.width s0.height playerId _ s0.map
            s0.units m allUnits hauto hU ?_ ?_
          · intro v hv
            exact ⟨v, List.mem_of_mem_filter hv, rfl, rfl, rfl⟩
          · exact hU.2.1.sublist
              ((List.filter_sublist s0.units).map (fun u => u.id))
        · intro v hv
          obtain ⟨w, hw, hvw⟩ := hids1 v hv
          rw [hvw]
          exact hfu w hw
      split at hstep
      · exact Except.noConfusion hstep
      · split at hstep
        · exact Except.noConfusion hstep
        · rename_i nextPlayerId hnpid
          split at hstep
          · exact Except.noConfusion hstep
          · rename_i nextPlayer hnp
            split at hstep
            · split at hstep
              · exact Except.noConfusion hstep
              · rename_i searchIndex hfind
                split at hstep
                · exact Except.noConfusion hstep
                · rename_i alivePlayerId hapid
                  split at hstep
                  · exact Except.noConfusion hstep
                  · rename_i alivePlayer halive
                    split at hstep
                    · exact Except.noConfusion hstep
                    · rename_i s2 hafte
                      obtain ⟨⟨U, hU⟩, hI2⟩ := applyFactionTurnEffects_ok hafte
                      subst hU
                      cases hstep
                      refine ⟨fun h => ?_, fun h => ?_, ?_⟩
                      · exact Inv_fields (Inv_resetPlayerUnits _ alivePlayerId
                          (Inv_patchPlayer _ alivePlayerId (fun p => { p with resources := addResources alivePlayer.resources (calculateIncome { s0 with map := m, units := allUnits } alivePlayer) })
                            (hI2 (hInv1 h)))) rfl rfl rfl rfl rfl rfl
                      · refine resNonneg_fields (resNonneg_patchPlayer
                          alivePlayerId (fun p => { p with resources := addResources alivePlayer.resources (calculateIncome { s0 with map := m, units := allUnits } alivePlayer) })
                          (resNonneg_fields h rfl)
                          (fun p hp hpool => ?_)) rfl
                        exact addResources_nonneg
                          (h alivePlayer (getPlayerOrThrow_ok halive).1)
                          (calculateIncome_nonneg _ _)
                      · exact hvm1
            · split at hstep
              · exact Except.noConfusion hstep
              · rename_i s2 hafte
                obtain ⟨⟨U, hU⟩, hI2⟩ := applyFactionTurnEffects_ok hafte
                subst hU
                split at hstep
                · split at hstep
                  · exact Except.noConfusion hstep
                  · rename_i s3 hwc
                    obtain ⟨W, hW⟩ := weatherCycle_ok hwc
                    subst hW
                    split at hstep
                    · obtain ⟨⟨U2, hU2⟩, hI3⟩ :=
                        acidRainGo_ok s0.map _ _ _ s' hstep
                      subst hU2
                      refine ⟨fun h => ?_, fun h => ?_, ?_⟩
                      · refine hI3 (Inv_fields (Inv_resetPlayerUnits _
                          nextPlayerId (Inv_patchPlayer _ nextPlayerId
                            (fun p => { p with resources := addResources nextPlayer.resources (calculateIncome { s0 with map := m, units := allUnits } nextPlayer) })
                            (hI2 (hInv1 h)))) rfl rfl rfl rfl rfl rfl)
                      · refine resNonneg_fields (resNonneg_patchPlayer
                          nextPlayerId (fun p => { p with resources := addResources nextPlayer.resources (calculateIncome { s0 with map := m, units := allUnits } nextPlayer) })
                          (resNonneg_fields h rfl)
                          (fun p hp hpool => ?_)) rfl
                        exact addResources_nonneg
                          (h nextPlayer (getPlayerOrThrow_ok hnp).1)
                          (calculateIncome_nonneg _ _)
                      · exact hvm1
                    · cases hstep
                      refine ⟨fun h => ?_, fun h => ?_, ?_⟩
                      · exact Inv_fields (Inv_resetPlayerUnits _
                          nextPlayerId (Inv_patchPlayer _ nextPlayerId
                            (fun p => { p with resources := addResources nextPlayer.resources (calculateIncome { s0 with map := m, units := allUnits } nextPlayer) })
                            (hI2 (hInv1 h)))) rfl rfl rfl rfl rfl rfl
                      · refine resNonneg_fields (resNonneg_patchPlayer
                          nextPlayerId (fun p => { p with resources := addResources nextPlayer.resources (calculateIncome { s0 with map := m, units := allUnits } nextPlayer) })
                          (resNonneg_fields h rfl)
                          (fun p hp hpool => ?_)) rfl
                        exact addResources_nonneg
                          (h nextPlayer (getPlayerOrThrow_ok hnp).1)
                          (calculateIncome_nonneg _ _)
                      · exact hvm1
                · cases hstep
                  refine ⟨fun h => ?_, fun h => ?_, ?_⟩
                  · exact Inv_fields (Inv_resetPlayerUnits _
                      nextPlayerId (Inv_patchPlayer _ nextPlayerId
                        (fun p => { p with resources := addResources nextPlayer.resources (calculateIncome { s0 with map := m, units := allUnits } nextPlayer) })
                        (hI2 (hInv1 h)))) rfl rfl rfl rfl rfl rfl
                  · refine resNonneg_fields (resNonneg_patchPlayer
                      nextPlayerId (fun p => { p with resources := addResources nextPlayer.resources (calculateIncome { s0 with map := m, units := allUnits } nextPlayer) })
                      (resNonneg_fields h rfl)
                      (fun p hp hpool => ?_)) rfl
                    exact addResources_nonneg
                      (h nextPlayer (getPlayerOrThrow_ok hnp).1)
                      (calculateIncome_nonneg _ _)
                  · exact hvm1

/-- Every accepted command preserves the engine invariant, resource
non-negativity, and visibility monotonicity. -/
theorem step_stepOK {c : Command} {s s' : GameState}
    (hstep : step c s = .ok s') : StepOK s s' := by
  cases c with
  | move unitId playerId direction roll => exact move_stepOK hstep
  | attack attackerUnitId playerId targetX targetY =>
      unfold step at hstep
      dsimp only at hstep
      cases hatt : attack s attackerUnitId playerId targetX targetY with
      | error e =>
          rw [hatt] at hstep
          exact Except.noConfusion hstep
      | ok pr =>
          obtain ⟨s1, res⟩ := pr
          rw [hatt] at hstep
          have h2 : s1 = s' := Except.ok.inj hstep
          subst h2
          exact attack_stepOK hatt
  | foundCity unitId playerId => exact foundCity_stepOK hstep
  | spawnUnit playerId buildingId unitType => exact spawnUnit_stepOK hstep
  | placeBuilding playerId workerId buildingType targetX targetY =>
      exact placeBuilding_stepOK hstep
  | continueBuilding playerId workerId => exact continueBuilding_stepOK hstep
  | collectResource playerId x y => exact collectResource_stepOK hstep
  | researchTech playerId techId => exact researchTech_stepOK hstep
  | toggleEntrench unitId playerId entrench =>
      exact toggleEntrench_stepOK hstep
  | toggleAutoExplore unitId playerId enable =>
      exact toggleAutoExplore_stepOK hstep
  | endTurn playerId rng => exact endTurn_stepOK hstep
  | forfeit playerId => exact forfeit_stepOK hstep

/-- A whole accepted command sequence preserves the engine invariant,
resource non-negativity, and visibility monotonicity. -/
theorem runCommands_stepOK :
    ∀ (cs : List Command) (s s' : GameState),
      runCommands cs s = .ok s' → StepOK s s'
  | [], s, s', hstep => by
      cases hstep
      exact StepOK_refl s
  | c :: cs, s, s', hstep => by
      unfold runCommands at hstep
      split at hstep
      · rename_i s2 hs2
        exact StepOK_trans (step_stepOK hs2)
          (runCommands_stepOK cs s2 s' hstep)
      · exact Except.noConfusion hstep

/-- A filter whose matches all share one key of a key-distinct list has at
most one element. -/
theorem nodup_filter_length_le_one {α : Type} (f : α → Nat) {l : List α}
    (hnd : (l.map f).Nodup) (p : α → Bool) (k : Nat)
    (hp : ∀ a, p a = true → f a = k) : (l.filter p).length ≤ 1 := by
  rcases hfe : l.filter p with _ | ⟨a, _ | ⟨b, tl⟩⟩
  · simp
  · simp
  · exfalso
    have hndf : ((l.filter p).map f).Nodup :=
      hnd.sublist ((List.filter_sublist l).map f)
    rw [hfe] at hndf
    have ha : p a = true := by
      have : a ∈ l.filter p := by
        rw [hfe]
        exact List.mem_cons_self a _
      exact (List.mem_filter.mp this).2
    have hb : p b = true := by
      have : b ∈ l.filter p := by
        rw [hfe]
        exact List.mem_cons_of_mem a (List.mem_cons_self b tl)
      exact (List.mem_filter.mp this).2
    simp only [List.map_cons, List.nodup_cons, List.mem_cons] at hndf
    exact hndf.1 (Or.inl ((hp a ha).trans (hp b hb).symm))

/-- The engine invariant implies the claim-literal unit-side statement. -/
theorem Inv_tileUnitIff {s : GameState} (h : Inv s) : tileUnitIff s := by
  obtain ⟨⟨hl, hnd, hpos, hback⟩, hB, hfu, hfb⟩ := h
  intro i hi uid
  constructor
  · intro hocc
    obtain ⟨u, hu, huid, hidx⟩ := hback i hi uid hocc
    have hbnd := (hpos u hu).1
    obtain ⟨hx, hy⟩ := coordToIndex_decode hbnd hidx
    have hmem : u ∈ s.units.filter (fun u => u.id == uid &&
        u.x == ((i % s.width : Nat) : Int) &&
        u.y == ((i / s.width : Nat) : Int)) := by
      rw [List.mem_filter]
      refine ⟨hu, ?_⟩
      simp only [Bool.and_eq_true, beq_iff_eq]
      exact ⟨⟨huid, hx⟩, hy⟩
    have hle := nodup_filter_length_le_one (fun (u : UnitDoc) => u.id) hnd
      (fun (u : UnitDoc) => u.id == uid &&
        u.x == ((i % s.width : Nat) : Int) &&
        u.y == ((i / s.width : Nat) : Int)) uid (fun a hpa => by
        simp only [Bool.and_eq_true, beq_iff_eq] at hpa
        exact hpa.1.1)
    have hge := List.length_pos_of_mem hmem
    omega
  · intro hlen
    obtain ⟨a, ha⟩ := List.length_eq_one.mp hlen
    have hmem : a ∈ s.units.filter (fun u => u.id == uid &&
        u.x == ((i % s.width : Nat) : Int) &&
        u.y == ((i / s.width : Nat) : Int)) := by
      rw [ha]
      exact List.mem_cons_self a []
    rw [List.mem_filter] at hmem
    obtain ⟨hau, hpa⟩ := hmem
    simp only [Bool.and_eq_true, beq_iff_eq] at hpa
    obtain ⟨⟨haid, hax⟩, hay⟩ := hpa
    have henc := coordToIndex_encode (hpos a hau).1 (hl ▸ hi) hax hay
    have hocc := (hpos a hau).2
    rw [henc] at hocc
    rw [hocc, haid]

/-- The engine invariant implies the claim-literal building-side
statement. -/
theorem Inv_tileBuildingIff {s : GameState} (h : Inv s) :
    tileBuildingIff s := by
  obtain ⟨hU, ⟨hl, hnd, hpos, hback⟩, hfu, hfb⟩ := h
  intro i hi bid
  constructor
  · intro hocc
    obtain ⟨b, hb, hbid, hidx⟩ := hback i hi bid hocc
    have hbnd := (hpos b hb).1
    obtain ⟨hx, hy⟩ := coordToIndex_decode hbnd hidx
    have hmem : b ∈ s.buildings.filter (fun b => b.id == bid &&
        b.x == ((i % s.width : Nat) : Int) &&
        b.y == ((i / s.width : Nat) : Int)) := by
      rw [List.mem_filter]
      refine ⟨hb, ?_⟩
      simp only [Bool.and_eq_true, beq_iff_eq]
      exact ⟨⟨hbid, hx⟩, hy⟩
    have hle := nodup_filter_length_le_one
      (fun (b : BuildingDoc) => b.id) hnd
      (fun (b : BuildingDoc) => b.id == bid &&
        b.x == ((i % s.width : Nat) : Int) &&
        b.y == ((i / s.width : Nat) : Int)) bid (fun a hpa => by
        simp only [Bool.and_eq_true, beq_iff_eq] at hpa
        exact hpa.1.1)
    have hge := List.length_pos_of_mem hmem
    omega
  · intro hlen
    obtain ⟨a, ha⟩ := List.length_eq_one.mp hlen
    have hmem : a ∈ s.buildings.filter (fun b => b.id == bid &&
        b.x == ((i % s.width : Nat) : Int) &&
        b.y == ((i / s.width : Nat) : Int)) := by
      rw [ha]
      exact List.mem_cons_self a []
    rw [List.mem_filter] at hmem
    obtain ⟨hab, hpa⟩ := hmem
    simp only [Bool.and_eq_true, beq_iff_eq] at hpa
    obtain ⟨⟨haid, hax⟩, hay⟩ := hpa
    have henc := coordToIndex_encode (hpos a hab).1 (hl ▸ hi) hax hay
    have hocc := (hpos a hab).2
    rw [henc] at hocc
    rw [hocc, haid]

/-- Visibility effect of folding `revealStep` over a list of offsets: every
tile keeps its old audience, and the acting player sees exactly the old
tiles plus those whose index some visited offset produces. -/
theorem revealFold_vis (width height playerId : Nat) (x y : Int) :
    ∀ (ds : List (Int × Int)) (m m' : List Tile),
      List.foldlM (revealStep width height playerId x y) m ds = .ok m' →
      ∀ (i : Int) (t : Tile), getTile? m i = some t →
        ∃ t', getTile? m' i = some t' ∧
          (∀ q ∈ t.visibility, q ∈ t'.visibility) ∧
          (playerId ∈ t'.visibility ↔ playerId ∈ t.visibility ∨
            ∃ d ∈ ds, revealIdx width height x y d = i)
  | [], m, m', hstep, i, t, ht => by
      cases hstep
      exact ⟨t, ht, fun q hq => hq, by simp⟩
  | d :: ds, m, m', hstep, i, t, ht => by
      rw [List.foldlM_cons] at hstep
      cases hrs : revealStep width height playerId x y m d with
      | error e =>
          rw [hrs] at hstep
          exact Except.noConfusion hstep
      | ok m2 =>
          rw [hrs] at hstep
          have hstep2 : List.foldlM (revealStep width height playerId x y)
              m2 ds = .ok m' := hstep
          unfold revealStep at hrs
          split at hrs
          · exact Except.noConfusion hrs
          · rename_i tile htile
            split at hrs
            · rename_i hcont
              have hm2 : m2 = m := (Except.ok.inj hrs).symm
              rw [hm2] at hstep2
              obtain ⟨t', h1, h2, h3⟩ := revealFold_vis width height
                playerId x y ds m m' hstep2 i t ht
              refine ⟨t', h1, h2, ?_⟩
              rw [h3]
              constructor
              · rintro (hp | ⟨d', hd', hi'⟩)
                · exact Or.inl hp
                · exact Or.inr ⟨d', List.mem_cons_of_mem d hd', hi'⟩
              · rintro (hp | ⟨d', hd', hi'⟩)
                · exact Or.inl hp
                · rcases List.mem_cons.mp hd' with rfl | hd2
                  · left
                    rw [← hi'] at ht
                    rw [htile] at ht
                    cases ht
                    simpa using hcont
                  · exact Or.inr ⟨d', hd2, hi'⟩
            · rename_i hcont
              have hm2 : m2 = setTile m (revealIdx width height x y d)
                  { tile with visibility := tile.visibility ++ [playerId] } :=
                (Except.ok.inj hrs).symm
              subst hm2
              by_cases hii : revealIdx width height x y d = i
              · have htt : tile = t := by
                  rw [hii, ht] at htile
                  exact (Option.some.inj htile).symm
                subst htt
                have hm2i : getTile? (setTile m (revealIdx width height x y d)
                    { tile with
                      visibility := tile.visibility ++ [playerId] }) i =
                    some { tile with
                      visibility := tile.visibility ++ [playerId] } := by
                  rw [getTile?_setTile_of_some m _ tile _ htile i, if_pos hii.symm]
                obtain ⟨t', h1, h2, h3⟩ := revealFold_vis width height
                  playerId x y ds _ m' hstep2 i _ hm2i
                refine ⟨t', h1, ?_, ?_⟩
                · intro q hq
                  exact h2 q (List.mem_append_left _ hq)
                · constructor
                  · intro hmem
                    exact Or.inr ⟨d, List.mem_cons_self d ds, hii⟩
                  · intro hmem
                    exact h3.mpr (Or.inl (List.mem_append_right _
                      (List.mem_singleton_self playerId)))
              · have hm2i : getTile? (setTile m (revealIdx width height x y d)
                    { tile with
                      visibility := tile.visibility ++ [playerId] }) i =
                    some t := by
                  rw [getTile?_setTile_of_some m _ tile _ htile i,
                    if_neg (fun he => hii he.symm)]
                  exact ht
                obtain ⟨t', h1, h2, h3⟩ := revealFold_vis width height
                  playerId x y ds _ m' hstep2 i t hm2i
                refine ⟨t', h1, h2, ?_⟩
                rw [h3]
                constructor
                · rintro (hp | ⟨d', hd', hi'⟩)
                  · exact Or.inl hp
                  · exact Or.inr ⟨d', List.mem_cons_of_mem d hd', hi'⟩
                · rintro (hp | ⟨d', hd', hi'⟩)
                  · exact Or.inl hp
                  · rcases List.mem_cons.mp hd' with rfl | hd2
                    · exact absurd hi' hii
                    · exact Or.inr ⟨d', hd2, hi'⟩

/-- Membership in the inclusive integer range. -/
theorem mem_intRange {lo hi k : Int} :
    k ∈ intRange lo hi ↔ lo ≤ k ∧ k ≤ hi := by
  constructor
  · intro h
    simp [intRange] at h
    obtain ⟨n, ⟨n2, hn2, he2⟩, he⟩ := h
    omega
  · rintro ⟨h1, h2⟩
    simp [intRange]
    exact ⟨k - lo, ⟨(k - lo).toNat, by omega, by omega⟩, by omega⟩

/-- Membership in the nested reveal loops' offset list. -/
theorem mem_squareOffsets {mr : Nat} {d : Int × Int} :
    d ∈ squareOffsets mr ↔
      -(mr : Int) ≤ d.1 ∧ d.1 ≤ (mr : Int) ∧
      -(mr : Int) ≤ d.2 ∧ d.2 ≤ (mr : Int) := by
  unfold squareOffsets
  rcases d with ⟨dy, dx⟩
  constructor
  · intro h
    obtain ⟨dy0, hdy0, hmap⟩ := List.mem_flatMap.mp h
    obtain ⟨dx0, hdx0, heq⟩ := List.mem_map.mp hmap
    obtain ⟨rfl, rfl⟩ := Prod.mk.injEq dy0 dx0 dy dx ▸ heq
    exact ⟨(mem_intRange.mp hdy0).1, (mem_intRange.mp hdy0).2,
      (mem_intRange.mp hdx0).1, (mem_intRange.mp hdx0).2⟩
  · rintro ⟨h1, h2, h3, h4⟩
    exact List.mem_flatMap.mpr ⟨dy, mem_intRange.mpr ⟨h1, h2⟩,
      List.mem_map.mpr ⟨dx, mem_intRange.mpr ⟨h3, h4⟩, rfl⟩⟩

/-- The visited offsets produce exactly the reveal square. -/
theorem exists_offset_iff_inRevealSquare {w h : Nat} {x y : Int} {mr : Nat}
    {i : Int} :
    (∃ d ∈ squareOffsets mr, revealIdx w h x y d = i) ↔
      inRevealSquare w h x y mr i := by
  constructor
  · rintro ⟨⟨dy, dx⟩, hd, hidx⟩
    obtain ⟨h1, h2, h3, h4⟩ := mem_squareOffsets.mp hd
    exact ⟨dy, dx, h1, h2, h3, h4, hidx.symm⟩
  · rintro ⟨dy, dx, h1, h2, h3, h4, hidx⟩
    exact ⟨(dy, dx), mem_squareOffsets.mpr ⟨h1, h2, h3, h4⟩, hidx.symm⟩

/-- `revealAround` reveals to the player exactly the square of the
weather-modified radius around the centre (and removes nobody). -/
theorem revealAround_vis {width height playerId : Nat} {m : List Tile}
    {x y : Int} {radius : Nat} {aw : Option Weather} {m' : List Tile}
    (hstep : revealAround width height m playerId x y radius aw = .ok m')
    (i : Int) (t : Tile) (ht : getTile? m i = some t) :
    ∃ t', getTile? m' i = some t' ∧
      (∀ q ∈ t.visibility, q ∈ t'.visibility) ∧
      (playerId ∈ t'.visibility ↔ playerId ∈ t.visibility ∨
        inRevealSquare width height x y (modifiedRadius aw radius) i) := by
  unfold revealAround at hstep
  obtain ⟨t', h1, h2, h3⟩ := revealFold_vis width height playerId x y _ m m'
    hstep i t ht
  refine ⟨t', h1, h2, ?_⟩
  rw [h3]
  exact or_congr Iff.rfl exists_offset_iff_inRevealSquare

/-- Projection of a one-player resource patch to (id, pool) pairs. -/
theorem players_proj_patch (players : List PlayerDoc) (pid : Nat)
    (g : PlayerDoc → PlayerDoc) (hid : ∀ p, (g p).id = p.id)
    (upd : ResourcePool) (hres : ∀ p, (g p).resources = upd) :
    (players.map (fun p => if p.id = pid then g p else p)).map
        (fun p => (p.id, p.resources)) =
      players.map (fun p => ((p.id : Nat),
        if p.id = pid then upd else p.resources)) := by
  rw [List.map_map]
  refine List.map_congr_left (fun p hp => ?_)
  by_cases h : p.id = pid
  · simp only [Function.comp, if_pos h, hid, hres]
  · simp only [Function.comp, if_neg h]

/-- Package a fetched player, a successful `subtractCost` and the patched
player list into the atomic-spend shape. -/
theorem SpendAtomic_intro {s s' : GameState} {player : PlayerDoc}
    {playerId : Nat} {cost : Cost} {upd : ResourcePool}
    (hget : getPlayerOrThrow s playerId = .ok player)
    (hsub : subtractCost player.resources cost = .ok upd)
    (hpl : s'.players.map (fun p => (p.id, p.resources)) =
      s.players.map (fun p => ((p.id : Nat),
        if p.id = player.id then upd else p.resources))) :
    SpendAtomic s playerId cost s' := by
  obtain ⟨hca, hupd⟩ := subtractCost_ok_eq hsub
  subst hupd
  exact ⟨player, hget, hca, hpl⟩

/-- A successful `spawnUnit` spent the unit's whole cost atomically. -/
theorem spawnUnit_spendAtomic {s : GameState} {playerId buildingId : Nat}
    {unitType : String} {s' : GameState}
    (hstep : spawnUnit s playerId buildingId unitType = .ok s') :
    ∃ unitDef, UNIT_DEFS unitType = some unitDef ∧
      SpendAtomic s playerId unitDef.cost s' := by
  unfold spawnUnit at hstep
  split at hstep
  · exact Except.noConfusion hstep
  · rename_i unitDef hudef
    refine ⟨unitDef, hudef, ?_⟩
    split at hstep
    · exact Except.noConfusion hstep
    · split at hstep
      · exact Except.noConfusion hstep
      · split at hstep
        · exact Except.noConfusion hstep
        · split at hstep
          · exact Except.noConfusion hstep
          · split at hstep
            · exact Except.noConfusion hstep
            · split at hstep
              · exact Except.noConfusion hstep
              · split at hstep
                · exact Except.noConfusion hstep
                · rename_i player hplayer
                  split at hstep
                  · exact Except.noConfusion hstep
                  · split at hstep
                    · exact Except.noConfusion hstep
                    · rename_i upd hupd
                      split at hstep
                      · exact Except.noConfusion hstep
                      · exact Except.noConfusion hstep
                      · rename_i loc hloc
                        dsimp only at hstep
                        split at hstep
                        · exact Except.noConfusion hstep
                        · cases hstep
                          exact SpendAtomic_intro hplayer hupd
                            (players_proj_patch s.players player.id
                              (fun p => { p with resources := upd })
                              (fun p => rfl) upd (fun p => rfl))

/-- A successful `placeBuilding` spent the building's whole cost
atomically. -/
theorem placeBuilding_spendAtomic {s : GameState} {playerId workerId : Nat}
    {buildingType : String} {tX tY : Int} {s' : GameState}
    (hstep : placeBuilding s playerId workerId buildingType tX tY =
      .ok s') :
    ∃ buildingDef, BUILDING_DEFS buildingType = some buildingDef ∧
      SpendAtomic s playerId buildingDef.cost s' := by
  unfold placeBuilding at hstep
  split at hstep
  · exact Except.noConfusion hstep
  · rename_i buildingDef hbdef
    refine ⟨buildingDef, hbdef, ?_⟩
    by_cases hcity : buildingType = "city"
    · rw [if_pos hcity] at hstep
      exact Except.noConfusion hstep
    · rw [if_neg hcity] at hstep
      split at hstep
      · exact Except.noConfusion hstep
      · rename_i worker hworker
        by_cases h1 : ¬ worker.playerId = playerId
        · rw [if_pos h1] at hstep
          exact Except.noConfusion hstep
        · rw [if_neg h1] at hstep
          by_cases h2 : ¬ worker.type = "worker"
          · rw [if_pos h2] at hstep
            exact Except.noConfusion hstep
          · rw [if_neg h2] at hstep
            by_cases h3 : worker.buildsLeft.getD 0 ≤ 0
            · rw [if_pos h3] at hstep
              exact Except.noConfusion hstep
            · rw [if_neg h3] at hstep
              split at hstep
              · exact Except.noConfusion hstep
              · split at hstep
                · exact Except.noConfusion hstep
                · rename_i player hplayer
                  dsimp only at hstep
                  by_cases h4 : ¬ (worker.x = wrapX tX s.width ∧
                      worker.y = clampY tY s.height)
                  · rw [if_pos h4] at hstep
                    exact Except.noConfusion hstep
                  · rw [if_neg h4] at hstep
                    split at hstep
                    · exact Except.noConfusion hstep
                    · rename_i tile htile
                      by_cases h5 : ¬ tile.unitId = some worker.id
                      · rw [if_pos h5] at hstep
                        exact Except.noConfusion hstep
                      · rw [if_neg h5] at hstep
                        by_cases h6 : tile.buildingId.isSome = true
                        · rw [if_pos h6] at hstep
                          exact Except.noConfusion hstep
                        · rw [if_neg h6] at hstep
                          by_cases h7 : tile.type = "water" ∨
                              tile.type = "bedrock"
                          · rw [if_pos h7] at hstep
                            exact Except.noConfusion hstep
                          · rw [if_neg h7] at hstep
                            by_cases h8 : (match buildingDef.requiredTech with
                                | some t => ! player.techUnlocked.contains t
                                | none => false) = true
                            · rw [if_pos h8] at hstep
                              exact Except.noConfusion hstep
                            · rw [if_neg h8] at hstep
                              by_cases h9 :
                                  (match buildingDef.terrainRequired with
                                  | some l => ! l.contains tile.type
                                  | none => false) = true
                              · rw [if_pos h9] at hstep
                                exact Except.noConfusion hstep
                              · rw [if_neg h9] at hstep
                                by_cases h10 :
                                    (match buildingDef.requiresResource with
                                    | some r => ! tile.resource == some r
                                    | none => false) = true
                                · rw [if_pos h10] at hstep
                                  exact Except.noConfusion hstep
                                · rw [if_neg h10] at hstep
                                  split at hstep
                                  · exact Except.noConfusion hstep
                                  · rename_i upd hupd
                                    cases hstep
                                    exact SpendAtomic_intro hplayer hupd
                                      (players_proj_patch s.players
                                        player.id
                                        (fun p =>
                                          { p with resources := upd })
                                        (fun p => rfl) upd (fun p => rfl))

/-- A successful `foundCity` spent the city's whole cost atomically. -/
theorem foundCity_spendAtomic {s : GameState} {unitId playerId : Nat}
    {s' : GameState} (hstep : foundCity s unitId playerId = .ok s') :
    ∃ buildingDef, BUILDING_DEFS "city" = some buildingDef ∧
      SpendAtomic s playerId buildingDef.cost s' := by
  unfold foundCity at hstep
  split at hstep
  · exact Except.noConfusion hstep
  · rename_i unit hunit
    split at hstep
    · exact Except.noConfusion hstep
    · split at hstep
      · exact Except.noConfusion hstep
      · split at hstep
        · exact Except.noConfusion hstep
        · split at hstep
          · exact Except.noConfusion hstep
          · rename_i player hplayer
            split at hstep
            · exact Except.noConfusion hstep
            · rename_i buildDef hbdef
              refine ⟨buildDef, hbdef, ?_⟩
              dsimp only at hstep
              split at hstep
              · exact Except.noConfusion hstep
              · split at hstep
                · exact Except.noConfusion hstep
                · split at hstep
                  · exact Except.noConfusion hstep
                  · split at hstep
                    · exact Except.noConfusion hstep
                    · rename_i upd hupd
                      split at hstep
                      · exact Except.noConfusion hstep
                      · cases hstep
                        exact SpendAtomic_intro hplayer hupd
                          (players_proj_patch s.players player.id
                            (fun p => { p with resources := upd })
                            (fun p => rfl) upd (fun p => rfl))

/-- A successful `researchTech` spent the (possibly discounted) flux cost
atomically. -/
theorem researchTech_spendAtomic {s : GameState} {playerId : Nat}
    {techId : String} {s' : GameState}
    (hstep : researchTech s playerId techId = .ok s') :
    ∃ fluxCost : Nat,
      SpendAtomic s playerId { flux := (fluxCost : Int) } s' := by
  unfold researchTech at hstep
  split at hstep
  · exact Except.noConfusion hstep
  · rename_i player hplayer
    split at hstep
    · exact Except.noConfusion hstep
    · split at hstep
      · exact Except.noConfusion hstep
      · split at hstep
        · exact Except.noConfusion hstep
        · split at hstep
          · exact Except.noConfusion hstep
          · dsimp only at hstep
            split at hstep
            · exact Except.noConfusion hstep
            · rename_i upd hupd
              cases hstep
              exact ⟨_, SpendAtomic_intro hplayer hupd
                (players_proj_patch s.players player.id
                  (fun p => { p with resources := upd, techUnlocked := p.techUnlocked ++ [techId] })
                  (fun p => rfl) upd (fun p => rfl))⟩

/-- C3: every spend command (unit spawn, building placement, city founding,
tech research) that succeeds went through the affordability guard and
subtracted every cost component atomically from exactly the acting player;
a success is impossible when any component is unaffordable, so such a
command is rejected with an error; and the spec's own instance — a 25-ore
tank against a 10-ore balance — is rejected with the
insufficient-resources error, leaving the state untouched. -/
theorem claim_C3 :
    (∀ (s : GameState) (playerId buildingId : Nat) (unitType : String)
        (s' : GameState),
      spawnUnit s playerId buildingId unitType = .ok s' →
      ∃ unitDef, UNIT_DEFS unitType = some unitDef ∧
        SpendAtomic s playerId unitDef.cost s') ∧
    (∀ (s : GameState) (playerId workerId : Nat) (buildingType : String)
        (tX tY : Int) (s' : GameState),
      placeBuilding s playerId workerId buildingType tX tY = .ok s' →
      ∃ buildingDef, BUILDING_DEFS buildingType = some buildingDef ∧
        SpendAtomic s playerId buildingDef.cost s') ∧
    (∀ (s : GameState) (unitId playerId : Nat) (s' : GameState),
      foundCity s unitId playerId = .ok s' →
      ∃ buildingDef, BUILDING_DEFS "city" = some buildingDef ∧
        SpendAtomic s playerId buildingDef.cost s') ∧
    (∀ (s : GameState) (playerId : Nat) (techId : String) (s' : GameState),
      researchTech s playerId techId = .ok s' →
      ∃ fluxCost : Nat, SpendAtomic s playerId
        { flux := (fluxCost : Int) } s') ∧
    (∀ (s : GameState) (playerId buildingId : Nat) (unitType : String)
        (player : PlayerDoc) (unitDef : UnitDef),
      getPlayerOrThrow s playerId = .ok player →
      UNIT_DEFS unitType = some unitDef →
      canAfford player.resources unitDef.cost = false →
      ∀ s', ¬ spawnUnit s playerId buildingId unitType = .ok s') ∧
    spawnUnit c3State 1 30 "tank" = .error "Insufficient resources" := by
  refine ⟨fun s a b c s' h => spawnUnit_spendAtomic h,
    fun s a b c tx ty s' h => placeBuilding_spendAtomic h,
    fun s a b s' h => foundCity_spendAtomic h,
    fun s a b s' h => researchTech_spendAtomic h, ?_, by rfl⟩
  intro s playerId buildingId unitType player unitDef hget hud hca s' hok
  obtain ⟨ud2, hud2, pl2, hget2, hca2, hmap⟩ := spawnUnit_spendAtomic hok
  rw [hud] at hud2
  have hude : unitDef = ud2 := Option.some.inj hud2
  rw [hget] at hget2
  have hpe : player = pl2 := Except.ok.inj hget2
  rw [← hude, ← hpe] at hca2
  rw [hca] at hca2
  exact Bool.noConfusion hca2

/-- Unit-versus-unit damage is floored at the minimum damage of 1. -/
theorem attackUnitDamage_ge_one (s : GameState) (attackerDef : UnitDef)
    (playerId : Nat) (targetTile : Tile) (du : UnitDoc) :
    1 ≤ attackUnitDamage s attackerDef playerId targetTile du := by
  unfold attackUnitDamage
  dsimp only
  exact le_max_right _ _

/-- Both damage figures of unit-versus-unit combat are floored at 1 (the
counter-attack figure is 0 exactly when no counter happened). -/
theorem attackUnitCombat_res (s : GameState) (attacker : UnitDoc)
    (attackerDef : UnitDef) (playerId : Nat) (targetTile : Tile)
    (targetIdx : Int) (distance : Int) (du : UnitDoc) :
    1 ≤ (attackUnitCombat s attacker attackerDef playerId targetTile
        targetIdx distance du).2.attackerDamageDealt ∧
    ((attackUnitCombat s attacker attackerDef playerId targetTile
        targetIdx distance du).2.defenderDamageDealt = 0 ∨
      1 ≤ (attackUnitCombat s attacker attackerDef playerId targetTile
        targetIdx distance du).2.defenderDamageDealt) := by
  unfold attackUnitCombat
  dsimp only
  split
  · exact ⟨attackUnitDamage_ge_one s attackerDef playerId targetTile du,
      Or.inl rfl⟩
  · split
    · split
      · split
        · exact ⟨attackUnitDamage_ge_one s attackerDef playerId targetTile
            du, Or.inr (le_max_right _ _)⟩
        · exact ⟨attackUnitDamage_ge_one s attackerDef playerId targetTile
            du, Or.inr (le_max_right _ _)⟩
      · exact ⟨attackUnitDamage_ge_one s attackerDef playerId targetTile du,
          Or.inl rfl⟩
    · exact ⟨attackUnitDamage_ge_one s attackerDef playerId targetTile du,
        Or.inl rfl⟩

/-- Unit-versus-building damage is floored at 1 and draws no counter. -/
theorem attackBuildingCombat_res (s : GameState) (attacker : UnitDoc)
    (attackerDef : UnitDef) (targetIdx : Int) (db : BuildingDoc) :
    1 ≤ (attackBuildingCombat s attacker attackerDef targetIdx
        db).2.attackerDamageDealt ∧
    (attackBuildingCombat s attacker attackerDef targetIdx
        db).2.defenderDamageDealt = 0 := by
  unfold attackBuildingCombat
  dsimp only
  split
  · exact ⟨le_max_right _ _, rfl⟩
  · exact ⟨le_max_right _ _, rfl⟩

/-- C8: damage is floored at the configured minimum of 1: every
attacker/defender stat pair yields a unit-versus-unit damage of at
least 1, and in every legal attack both the damage dealt and (when a
counter-attack happened) the counter damage are at least 1. -/
theorem claim_C8 {s : GameState} {attackerUnitId playerId : Nat}
    {tX tY : Int} {s' : GameState} {res : AttackResult}
    (hstep : attack s attackerUnitId playerId tX tY = .ok (s', res)) :
    (∀ (s2 : GameState) (ad : UnitDef) (pid : Nat) (tt : Tile)
        (du : UnitDoc), 1 ≤ attackUnitDamage s2 ad pid tt du) ∧
    1 ≤ res.attackerDamageDealt ∧
    (res.defenderDamageDealt = 0 ∨ 1 ≤ res.defenderDamageDealt) := by
  refine ⟨fun s2 ad pid tt du => attackUnitDamage_ge_one s2 ad pid tt du,
    ?_⟩
  unfold attack at hstep
  split at hstep
  · exact Except.noConfusion hstep
  · rename_i attacker hattacker
    by_cases h1 : ¬ attacker.playerId = playerId
    · rw [if_pos h1] at hstep
      exact Except.noConfusion hstep
    · rw [if_neg h1] at hstep
      split at hstep
      · exact Except.noConfusion hstep
      · by_cases h2 : attacker.movesLeft ≤ 0
        · rw [if_pos h2] at hstep
          exact Except.noConfusion hstep
        · rw [if_neg h2] at hstep
          split at hstep
          · exact Except.noConfusion hstep
          · rename_i attackerDef hadef
            dsimp only at hstep
            split at hstep
            · exact Except.noConfusion hstep
            · split at hstep
              · exact Except.noConfusion hstep
              · split at hstep
                · exact Except.noConfusion hstep
                · rename_i targetTile htile
                  split at hstep
                  · exact Except.noConfusion hstep
                  · rename_i defenderUnit hdefu
                    split at hstep
                    · exact Except.noConfusion hstep
                    · rename_i defenderBuilding hdefb
                      split at hstep
                      · exact Except.noConfusion hstep
                      · rename_i x1 du
                        have hpair := Except.ok.inj hstep
                        have hres : res = (attackUnitCombat s attacker
                            attackerDef playerId targetTile
                            (coordToIndex s.width (wrapX tX s.width)
                              (clampY tY s.height))
                            (manhattanDistance s.width attacker.x attacker.y
                              (wrapX tX s.width) (clampY tY s.height))
                            du).2 := by
                          rw [hpair]
                        rw [hres]
                        exact attackUnitCombat_res s attacker attackerDef
                          playerId targetTile _ _ du
                      · rename_i x2 db
                        have hpair := Except.ok.inj hstep
                        have hres : res = (attackBuildingCombat s attacker
                            attackerDef
                            (coordToIndex s.width (wrapX tX s.width)
                              (clampY tY s.height)) db).2 := by
                          rw [hpair]
                        rw [hres]
                        obtain ⟨ha, hd⟩ := attackBuildingCombat_res s
                          attacker attackerDef
                          (coordToIndex s.width (wrapX tX s.width)
                            (clampY tY s.height)) db
                        exact ⟨ha, Or.inl hd⟩

/-- C8 witness: the marine-versus-marine exchange in `aState`. -/
theorem claim_C8_witness :
    attack aState 10 1 1 0 = .ok (c8Out.1, c8Out.2) ∧
    1 ≤ c8Out.2.attackerDamageDealt ∧
    (c8Out.2.defenderDamageDealt = 0 ∨
      1 ≤ c8Out.2.defenderDamageDealt) := by
  have h : attack aState 10 1 1 0 = .ok (c8Out.1, c8Out.2) := by rfl
  exact ⟨h, (claim_C8 h).2.1, (claim_C8 h).2.2⟩

/-- The ruin reward table resolves every roll to one of exactly two
entries: the map reveal or the +30-flux "tech" grant. -/
theorem selectRuinReward_cases (roll : ℚ) :
    selectRuinReward roll = { weight := 10, type := RuinRewardType.map, visionRadius := some 10, message := "Downloaded high-res satellite data! (Map Reveal)" } ∨
    selectRuinReward roll = { weight := 5, type := RuinRewardType.tech, techPoints := some 50, message := "Recovered intact research logs! (+50 Flux)" } := by
  unfold selectRuinReward RUIN_REWARDS pickRuinReward
  split
  · left
    rfl
  · unfold pickRuinReward
    split
    · right
      rfl
    · left
      rfl

/-- C5 (corrected): the ruins block grants exactly one reward, drawn from a
two-entry table whose outcomes are a vision reveal and a flat +30 flux
grant — never a resource bundle and never a free unit — and the ruin tile
reverts to surface. -/
theorem claim_C5 {s : GameState} {m : List Tile} {u : UnitDoc}
    {playerId : Nat} {fromIdx toIdx : Int} {tX tY : Int} {roll : ℚ}
    {s2 : GameState} {m2 : List Tile}
    (hstep : applyRuinReward s m u playerId fromIdx toIdx tX tY roll =
      .ok (s2, m2)) :
    ((selectRuinReward roll).type = RuinRewardType.map ∨
      (selectRuinReward roll).type = RuinRewardType.tech) ∧
    s2.units = s.units ∧
    (s2.players = s.players ∨ ∃ pl ∈ s.players,
      s2.players = s.players.map (fun p => if p.id = pl.id then
        { p with resources := addResources pl.resources ({ flux := 30 } : Cost) } else p)) ∧
    (∀ t, getTile? m toIdx = some t → ∃ t2, getTile? m2 toIdx = some t2 ∧
      t2.type = "surface") := by
  unfold applyRuinReward at hstep
  dsimp only at hstep
  split at hstep
  · exact Except.noConfusion hstep
  · rename_i player hplayer
    rcases selectRuinReward_cases roll with hsel | hsel <;>
      rw [hsel] at hstep <;> unfold applyRuinRewardCore at hstep
    · rw [if_neg (by decide), if_neg (by decide), if_pos (by decide)]
        at hstep
      split at hstep
      · exact Except.noConfusion hstep
      · rename_i sm hsm
        split at hsm
        · exact Except.noConfusion hsm
        · rename_i m3 hrev
          have hsm2 : ((s, m3) : GameState × List Tile) = sm :=
            Except.ok.inj hsm
          subst hsm2
          dsimp only [applyRuinRewardUnitFix] at hstep
          rw [if_neg (by decide)] at hstep
          have hpr := Except.ok.inj hstep
          simp only [Prod.mk.injEq] at hpr
          obtain ⟨h1, h2⟩ := hpr
          subst h1
          subst h2
          refine ⟨Or.inl (by rw [hsel]), rfl, Or.inl rfl, ?_⟩
          intro t ht
          obtain ⟨t3, ht3, hvis, hiff⟩ := revealAround_vis hrev toIdx t ht
          refine ⟨{ t3 with type := "surface" }, ?_, rfl⟩
          rw [getTile?_modTile, if_pos rfl, ht3]
          rfl
    · rw [if_neg (by decide), if_neg (by decide), if_neg (by decide),
        if_pos (by decide)] at hstep
      split at hstep
      · exact Except.noConfusion hstep
      · rename_i sm hsm
        have hsm2 := Except.ok.inj hsm
        subst hsm2
        dsimp only [applyRuinRewardUnitFix] at hstep
        rw [if_neg (by decide)] at hstep
        have hpr := Except.ok.inj hstep
        simp only [Prod.mk.injEq] at hpr
        obtain ⟨h1, h2⟩ := hpr
        subst h1
        subst h2
        refine ⟨Or.inr (by rw [hsel]), rfl, ?_, ?_⟩
        · exact Or.inr ⟨player, (getPlayerOrThrow_ok hplayer).1, rfl⟩
        · intro t ht
          refine ⟨{ t with type := "surface" }, ?_, rfl⟩
          rw [getTile?_modTile, if_pos rfl, ht]
          rfl

set_option maxRecDepth 40000 in
/-- C5 witness: the settler stepping onto the ruin of `tState` with
roll 3. -/
theorem claim_C5_witness :
    applyRuinReward tState tMap tSettler 1 0 2 2 0 3 =
      .ok (c5Out.1, c5Out.2) ∧
    ((selectRuinReward 3).type = RuinRewardType.map ∨
      (selectRuinReward 3).type = RuinRewardType.tech) ∧
    c5Out.1.units = tState.units ∧
    (∀ t, getTile? tMap 2 = some t → ∃ t2, getTile? c5Out.2 2 = some t2 ∧
      t2.type = "surface") := by
  have hsel : selectRuinReward 3 = { weight := 10, type := RuinRewardType.map, visionRadius := some 10, message := "Downloaded high-res satellite data! (Map Reveal)" } := by
    unfold selectRuinReward RUIN_REWARDS pickRuinReward
    rw [if_pos (by norm_num)]
    rfl
  have h : applyRuinReward tState tMap tSettler 1 0 2 2 0 3 =
      .ok (c5Out.1, c5Out.2) := by
    unfold applyRuinReward
    dsimp only
    rw [hsel]
    rfl
  exact ⟨h, (claim_C5 h).1, (claim_C5 h).2.1, (claim_C5 h).2.2.2⟩

/-- C5 counterexample to the spec's reward list: no roll in a sweep across
the whole weight range ever yields a resource bundle or a free unit — the
only outcomes are the map reveal and the flux grant — while the spec
promises four outcome kinds including resource grants and unit spawns. -/
theorem claim_C5_counterexample :
    (¬ (selectRuinReward 0).type = RuinRewardType.resource ∧
      ¬ (selectRuinReward 0).type = RuinRewardType.unit) ∧
    (¬ (selectRuinReward 12).type = RuinRewardType.resource ∧
      ¬ (selectRuinReward 12).type = RuinRewardType.unit) ∧
    (¬ (selectRuinReward 99).type = RuinRewardType.resource ∧
      ¬ (selectRuinReward 99).type = RuinRewardType.unit) := by
  refine ⟨?_, ?_, ?_⟩ <;>
  · rcases selectRuinReward_cases _ with h | h <;> rw [h] <;>
      exact ⟨by decide, by decide⟩

/-- C6 (corrected): the reveal step of `move` (`moveFinish`) reveals to the
moving player exactly the wrapped/clamped square of the unit's raw roster
vision radius around the destination: the call site passes no weather, so
the active weather never modifies the radius used for movement reveals. -/
theorem claim_C6 {s : GameState} {unit : UnitDoc} {unitDef : UnitDef}
    {playerId : Nat} {tX tY : Int} {moveCost : Nat} {m : List Tile}
    {s' : GameState}
    (hstep : moveFinish s unit unitDef playerId tX tY moveCost m = .ok s')
    (i : Int) (t : Tile) (ht : getTile? m i = some t) :
    ∃ t', getTile? s'.map i = some t' ∧
      (∀ q ∈ t.visibility, q ∈ t'.visibility) ∧
      (playerId ∈ t'.visibility ↔ playerId ∈ t.visibility ∨
        inRevealSquare s.width s.height tX tY unitDef.vision i) := by
  unfold moveFinish at hstep
  split at hstep
  · exact Except.noConfusion hstep
  · rename_i m2 hrev
    dsimp only at hstep
    cases hstep
    exact revealAround_vis hrev i t ht

/-- C6 witness: the settler's reveal when finishing a step to `(1, 0)` in
`tState`. -/
theorem claim_C6_witness :
    moveFinish tState tSettler settlerDef 1 1 0 1 tMap = .ok c6WOut ∧
    ∃ t', getTile? c6WOut.map 0 = some t' ∧
      (∀ q ∈ ([1] : List Nat), q ∈ t'.visibility) ∧
      (1 ∈ t'.visibility ↔ 1 ∈ ([1] : List Nat) ∨
        inRevealSquare 3 2 1 0 3 0) := by
  have h : moveFinish tState tSettler settlerDef 1 1 0 1 tMap =
      .ok c6WOut := by rfl
  exact ⟨h, claim_C6 h 0
    { type := "surface", unitId := some 10, visibility := [1] } (by rfl)⟩

/-- C6 counterexample to the weather-modified claim: under an active dust
storm the settler's move still reveals the tile at wrap distance 3 — a
tile outside the spec's dust-storm-reduced radius-2 square. -/
theorem claim_C6_counterexample :
    c6State.activeWeather =
      some { type := "dust_storm", turnsRemaining := 3 } ∧
    modifiedRadius c6State.activeWeather 3 = 2 ∧
    (∃ s', move c6State 10 1 Direction.R 0 = .ok s' ∧
      ∃ t', getTile? s'.map 4 = some t' ∧ 1 ∈ t'.visibility) ∧
    ¬ inRevealSquare 7 1 1 0 2 4 := by
  refine ⟨rfl, rfl, ?_, ?_⟩
  · refine ⟨_, rfl, ?_⟩
    refine ⟨_, rfl, ?_⟩
    decide
  · rintro ⟨dy, dx, h1, h2, h3, h4, heq⟩
    interval_cases dy <;> interval_cases dx <;> revert heq <;> decide

/-- C1: starting from a state satisfying the occupancy invariant, after any
accepted command sequence every tile's unit reference matches exactly one
unit positioned there, and symmetrically for buildings. -/
theorem claim_C1 {cs : List Command} {s s' : GameState}
    (hrun : runCommands cs s = .ok s') (hInv : Inv s) :
    tileUnitIff s' ∧ tileBuildingIff s' := by
  have h := (runCommands_stepOK cs s s' hrun).1 hInv
  exact ⟨Inv_tileUnitIff h, Inv_tileBuildingIff h⟩

set_option maxRecDepth 40000 in
/-- C1 witness: one accepted move on the settler world. -/
theorem claim_C1_witness :
    runCommands [Command.move 10 1 Direction.R 0] tState = .ok c1Result ∧
    Inv tState ∧ tileUnitIff c1Result ∧ tileBuildingIff c1Result := by
  have h1 : runCommands [Command.move 10 1 Direction.R 0] tState =
      .ok c1Result := by rfl
  have h2 : Inv tState := by decide
  exact ⟨h1, h2, (claim_C1 h1 h2).1, (claim_C1 h1 h2).2⟩

/-- C2: the initial pool (starting resources plus any faction bonus) is
componentwise non-negative, and resource non-negativity of every player is
preserved by every accepted command sequence. -/
theorem claim_C2 {fname : String} {fd : FactionDef} {cs : List Command}
    {s s' : GameState} (hfd : FACTION_DEFS fname = some fd)
    (hrun : runCommands cs s = .ok s') (hres : resNonneg s) :
    poolNonneg (initialResources fd) ∧ resNonneg s' := by
  refine ⟨?_, (runCommands_stepOK cs s s' hrun).2.1 hres⟩
  unfold FACTION_DEFS at hfd
  split at hfd
  · cases hfd
    decide
  · split at hfd
    · cases hfd
      decide
    · split at hfd
      · cases hfd
        decide
      · exact Option.noConfusion hfd

/-- C2 witness: the Terran faction and the empty command sequence. -/
theorem claim_C2_witness :
    poolNonneg (initialResources { name := "United Terran", startingBonus := { ore := 20 }, trait := "deep_core_mining" }) ∧
    resNonneg tState :=
  @claim_C2 "united_terran"
    { name := "United Terran", startingBonus := { ore := 20 }, trait := "deep_core_mining" }
    [] tState tState rfl rfl (by decide)

/-- C4: a building under construction indeed contributes no income, but a
`spawnUnit` naming a constructing barracks is NOT rejected — the mutation
has no `isConstructing` guard and the marine spawns. -/
theorem claim_C4 :
    calculateIncome c4State c4Player = ({} : Cost) ∧
    (∀ b ∈ c4State.buildings, b.isConstructing = some true) ∧
    spawnUnit c4State 1 30 "marine" = .ok c4Out ∧
    ∃ u ∈ c4Out.units, u.type = "marine" := by
  refine ⟨by decide, by decide, by rfl, by decide⟩

/-- C10: visibility only ever grows: over any accepted command sequence
every tile keeps (at least) its audience. -/
theorem claim_C10 {cs : List Command} {s s' : GameState}
    (hrun : runCommands cs s = .ok s') : visMonotone s.map s'.map :=
  (runCommands_stepOK cs s s' hrun).2.2

set_option maxRecDepth 40000 in
/-- C10 witness: the one-move run on the settler world. -/
theorem claim_C10_witness :
    visMonotone tState.map c1Result.map :=
  claim_C10 (by rfl : runCommands [Command.move 10 1 Direction.R 0]
    tState = .ok c1Result)

/-- A successful `getPlayerOrThrow` is a successful `getPlayer?`. -/
theorem getPlayerOrThrow_ok_eq {s : GameState} {pid : Nat} {p : PlayerDoc}
    (h : getPlayerOrThrow s pid = .ok p) : getPlayer? s pid = some p := by
  unfold getPlayerOrThrow at h
  split at h
  · rename_i hp
    cases h
    exact hp
  · exact Except.noConfusion h

/-- The spec-modelled next-alive search agrees with the source's
`findAliveFrom` search. -/
theorem specNextAliveIndex_eq_findAliveFrom (s0 : GameState)
    (hn : ¬ s0.playerOrder.length = 0) :
    specNextAliveIndex s0 = findAliveFrom s0
      ((s0.activePlayerIndex + 1) % s0.playerOrder.length) := by
  unfold specNextAliveIndex findAliveFrom
  dsimp only
  rw [if_neg hn]
  rw [List.find?_map]
  rfl

/-- When the immediately next player in rotation exists and is alive, the
spec-modelled search stops right there. -/
theorem specNextAliveIndex_head {s0 : GameState}
    (hn : ¬ s0.playerOrder.length = 0)
    (hpred : (match s0.playerOrder[(s0.activePlayerIndex + 1) %
        s0.playerOrder.length]? with
      | some pid =>
          (match getPlayer? s0 pid with
          | some p => p.isAlive
          | none => false)
      | none => false) = true) :
    specNextAliveIndex s0 =
      some ((s0.activePlayerIndex + 1) % s0.playerOrder.length) := by
  obtain ⟨n', hn'⟩ : ∃ n', s0.playerOrder.length = n' + 1 := by
    cases h : s0.playerOrder.length with
    | zero => exact absurd h hn
    | succ k => exact ⟨k, rfl⟩
  unfold specNextAliveIndex
  dsimp only
  rw [if_neg hn]
  rw [hn', List.range_succ_eq_map, List.map_cons, List.find?_cons_of_pos]
  · rw [Nat.add_zero, Nat.mod_mod_of_dvd _ (dvd_refl _), ← hn']
  · rw [Nat.add_zero, Nat.mod_mod_of_dvd _ (dvd_refl _), ← hn']
    exact hpred

/-- C7 (corrected): a successful `endTurn` always hands the turn to the
first player in rotation order after the current one whose `isAlive` flag
is still set — the index the spec's skip-eliminated search names. -/
theorem claim_C7 {s0 : GameState} {playerId : Nat} {rng : EndTurnRng}
    {s' : GameState} (hstep : endTurn s0 playerId rng = .ok s') :
    specNextAliveIndex s0 = some s'.activePlayerIndex := by
  unfold endTurn at hstep
  split at hstep
  · exact Except.noConfusion hstep
  · dsimp only at hstep
    split at hstep
    · exact Except.noConfusion hstep
    · rename_i m allUnits hauto
      split at hstep
      · exact Except.noConfusion hstep
      · rename_i hlen0
        have hn : ¬ s0.playerOrder.length = 0 := hlen0
        split at hstep
        · exact Except.noConfusion hstep
        · rename_i nextPlayerId hnpid
          split at hstep
          · exact Except.noConfusion hstep
          · rename_i nextPlayer hnp
            have hgp0 : getPlayer? s0 nextPlayerId = some nextPlayer :=
              getPlayerOrThrow_ok_eq hnp
            split at hstep
            · rename_i hdead
              split at hstep
              · exact Except.noConfusion hstep
              · rename_i searchIndex hfind
                have hf0 : findAliveFrom s0 ((s0.activePlayerIndex + 1) %
                    s0.playerOrder.length) = some searchIndex := hfind
                split at hstep
                · exact Except.noConfusion hstep
                · rename_i alivePlayerId hapid
                  split at hstep
                  · exact Except.noConfusion hstep
                  · rename_i alivePlayer halive
                    split at hstep
                    · exact Except.noConfusion hstep
                    · rename_i s2 hafte
                      obtain ⟨⟨U, hU⟩, hI2⟩ :=
                        applyFactionTurnEffects_ok hafte
                      subst hU
                      cases hstep
                      rw [specNextAliveIndex_eq_findAliveFrom s0 hn]
                      exact hf0
            · rename_i hlive
              have halive2 : nextPlayer.isAlive = true := by
                by_cases h : nextPlayer.isAlive = true
                · exact h
                · exact absurd h (fun h2 => hlive h2)
              have hpred : (match s0.playerOrder[(s0.activePlayerIndex +
                  1) % s0.playerOrder.length]? with
                | some pid =>
                    (match getPlayer? s0 pid with
                    | some p => p.isAlive
                    | none => false)
                | none => false) = true := by
                simp only [hnpid, hgp0]
                exact halive2
              split at hstep
              · exact Except.noConfusion hstep
              · rename_i s2 hafte
                obtain ⟨⟨U, hU⟩, hI2⟩ := applyFactionTurnEffects_ok hafte
                subst hU
                split at hstep
                · split at hstep
                  · exact Except.noConfusion hstep
                  · rename_i s3 hwc
                    obtain ⟨W, hW⟩ := weatherCycle_ok hwc
                    subst hW
                    split at hstep
                    · obtain ⟨⟨U2, hU2⟩, hI3⟩ :=
                        acidRainGo_ok s0.map _ _ _ s' hstep
                      subst hU2
                      exact specNextAliveIndex_head hn hpred
                    · cases hstep
                      exact specNextAliveIndex_head hn hpred
                · cases hstep
                  exact specNextAliveIndex_head hn hpred

set_option maxRecDepth 40000 in
/-- C7 witness: the single-player world hands the turn back to player 1,
the index the spec search names. -/
theorem claim_C7_witness :
    endTurn tState 1 ⟨1, 0, 0⟩ = .ok c7Out ∧
    specNextAliveIndex tState = some c7Out.activePlayerIndex := by
  have h : endTurn tState 1 ⟨1, 0, 0⟩ = .ok c7Out := by rfl
  exact ⟨h, claim_C7 h⟩

set_option maxRecDepth 40000 in
/-- C7 counterexample to the ownership-based skip: after the tank crushes
player 2's last asset, player 2 owns nothing yet EndTurn still makes
player 2 (rotation index 1) the active player, not player 3. -/
theorem claim_C7_counterexample :
    runCommands [Command.move 10 1 Direction.R 0,
      Command.endTurn 1 ⟨1, 0, 0⟩] c7State = .ok c7CEOut ∧
    (c7CEOut.units.filter (fun u => u.playerId == 2)).length = 0 ∧
    (c7CEOut.buildings.filter (fun b => b.playerId == 2)).length = 0 ∧
    c7CEOut.playerOrder[1]? = some 2 ∧
    c7CEOut.activePlayerIndex = 1 := by
  exact ⟨by rfl, by decide, by decide, by rfl, by rfl⟩

end Orbitbound
